import Mathlib

/-!
# Cytrus libretro bridge: audio batcher, video compositor, input normaliser, state container

A shallow embedding of the stream-normalisation layer of the bridge
(`src/cytrus_audio.cpp`, `src/cytrus_video.cpp`, `src/cytrus_input.cpp`,
`src/cytrus_memory.cpp`, `src/cytrus_frontend.cpp`) and of the option handling of the two
core files (`set_variable` in `src/libretro_core.cpp` and `src/cytrus_libretro_core.cpp`),
and theorems about them.

Conventions of the embedding

* The file-level `static` variables of each translation unit become the fields of a
  state record; a C function becomes a function from state to state.
* A host callback pointer is a `Bool` (set / null) or an `Option` of a function; every
  invocation of the audio callback is appended to the trace `calls`.
* `size_t` is 64 bits wide, `unsigned` and `uint32_t` are 32 bits wide; wrap-around is
  written as an explicit `%`.
* Floating-point values (`float`, `double`) are modelled by exact numbers: rationals in
  the audio path, an arbitrary linear ordered field in the input path.  Rounding error
  of the machine arithmetic is not modelled.  The C library's `sqrtf` is a parameter.
-/

namespace Cytrus

/-! ## Machine integers -/

/-- Number of values of a `size_t` (64-bit target). -/
def SIZE_MOD : Nat := 2 ^ 64

/-- Number of values of an `unsigned` / `uint32_t`. -/
def U32_MOD : Nat := 2 ^ 32

/-- Subtraction of two `size_t` values, wrapping modulo `2 ^ 64`. -/
def size_sub (a b : Nat) : Nat := (a % SIZE_MOD + SIZE_MOD - b % SIZE_MOD) % SIZE_MOD

/-- Conversion of an integer to `int16_t` (two's complement wrap). -/
def to_int16 (v : Int) : Int := (v + 32768) % 65536 - 32768

/-- Conversion of a real number to an integer as C does it: truncation toward zero. -/
def trunc (q : ℚ) : Int := if 0 ≤ q then ⌊q⌋ else ⌈q⌉

/-! ## Audio batcher (`src/cytrus_audio.cpp`) -/

/-- The constant `BUFFER_SIZE`. -/
def BUFFER_SIZE : Nat := 1024

/-- The constant `CHANNELS` (stereo). -/
def CHANNELS : Nat := 2

/-- One invocation `audio_sample_batch_cb(audio_buffer, frames)` of the host callback:
the `frames * CHANNELS` samples the host reads through the pointer, and the frame count. -/
structure AudioBatch where
  data : List Int
  frames : Nat
deriving DecidableEq

/-- The static variables of `cytrus_audio.cpp`, the host callback pointer
`audio_sample_batch_cb` (`true` when set) and the trace of callback invocations.
`audio_buffer` maps an index to the sample stored there; indices `0 .. 2047` are the
array `int16_t audio_buffer[BUFFER_SIZE * CHANNELS]`. -/
structure AudioState where
  audio_buffer : Nat → Int
  buffer_pos : Nat
  audio_initialized : Bool
  volume : ℚ
  audio_muted : Bool
  audio_sample_batch_cb : Bool
  calls : List AudioBatch

/-- The call `audio_sample_batch_cb(audio_buffer, frames)`: the host receives the first
`frames * CHANNELS` samples of the buffer. -/
def audio_sample_batch (s : AudioState) (frames : Nat) : AudioState :=
  { s with calls := s.calls ++ [⟨(List.range (frames * CHANNELS)).map s.audio_buffer, frames⟩] }

/-- The function `cytrus_audio_init`. -/
def cytrus_audio_init (s : AudioState) : AudioState × Bool :=
  if s.audio_initialized then (s, true)
  else ({ s with audio_buffer := fun i => if i < BUFFER_SIZE * CHANNELS then 0 else s.audio_buffer i,
                 buffer_pos := 0, audio_initialized := true }, true)

/-- The function `cytrus_audio_deinit`. -/
def cytrus_audio_deinit (s : AudioState) : AudioState :=
  { s with audio_initialized := false, buffer_pos := 0 }

/-- The function `cytrus_audio_set_volume`: `volume = fmax(0.0, fmin(1.0, vol))`. -/
def cytrus_audio_set_volume (s : AudioState) (vol : ℚ) : AudioState :=
  { s with volume := max 0 (min 1 vol) }

/-- The function `cytrus_audio_set_muted`. -/
def cytrus_audio_set_muted (s : AudioState) (muted : Bool) : AudioState :=
  { s with audio_muted := muted }

/-- The volume step of the copy loop:
`if (volume != 1.0) sample = (int16_t)(sample * volume);`. -/
def apply_volume (volume : ℚ) (sample : Int) : Int :=
  if volume ≠ 1 then to_int16 (trunc ((sample : ℚ) * volume)) else sample

/-- The inner `for` loop of the process functions: every sample of the chunk is
converted by `conv`, scaled by the volume and stored at `audio_buffer[buffer_pos++]`. -/
def copy_chunk {α : Type} (conv : α → Int) (s : AudioState) (chunk : List α) : AudioState :=
  chunk.foldl (fun st x =>
    { st with audio_buffer := Function.update st.audio_buffer st.buffer_pos
                                (apply_volume st.volume (conv x)),
              buffer_pos := st.buffer_pos + 1 }) s

/-- The tail of every fill loop: `if (buffer_pos >= BUFFER_SIZE)` the whole buffer goes to
the host as `BUFFER_SIZE / CHANNELS` frames and `buffer_pos` is reset. -/
def send_if_full (s : AudioState) : AudioState :=
  if s.buffer_pos ≥ BUFFER_SIZE then
    { audio_sample_batch s (BUFFER_SIZE / CHANNELS) with buffer_pos := 0 }
  else s

/-- The `while (sample_count > 0)` loop shared, up to the per-sample conversion `conv`, by
`cytrus_audio_process_samples` and `cytrus_audio_process_float_samples`.  `samples` is
what remains of the input (`sample_count` is its length).  The first argument bounds the
number of iterations; `none` means the bound was reached with input left. -/
def process_loop {α : Type} (conv : α → Int) : Nat → AudioState → List α → Option AudioState
  | _, s, [] => some s
  | 0, _, _ :: _ => none
  | fuel + 1, s, x :: rest =>
    let samples := x :: rest
    let space_left := size_sub BUFFER_SIZE s.buffer_pos
    let to_process := if samples.length < space_left then samples.length else space_left
    let s1 := copy_chunk conv s (samples.take to_process)
    process_loop conv fuel (send_if_full s1) (samples.drop to_process)

/-- The function `cytrus_audio_process_samples(samples, sample_count)`. -/
def cytrus_audio_process_samples (s : AudioState) (samples : List Int) : Option AudioState :=
  if !s.audio_initialized || s.audio_muted || !s.audio_sample_batch_cb then some s
  else process_loop id (samples.length + 1) s samples

/-- The function `cytrus_audio_flush`. -/
def cytrus_audio_flush (s : AudioState) : AudioState :=
  if !s.audio_initialized || s.buffer_pos == 0 || !s.audio_sample_batch_cb then s
  else { audio_sample_batch s (s.buffer_pos / CHANNELS) with buffer_pos := 0 }

/-- The function `float_to_int16`:
`sample = fmax(-1.0f, fmin(1.0f, sample)); return (int16_t)(sample * 32767.0f);`. -/
def float_to_int16 (sample : ℚ) : Int :=
  to_int16 (trunc (max (-1) (min 1 sample) * 32767))

/-- The function `cytrus_audio_process_float_samples(samples, sample_count)`. -/
def cytrus_audio_process_float_samples (s : AudioState) (samples : List ℚ) : Option AudioState :=
  if !s.audio_initialized || s.audio_muted || !s.audio_sample_batch_cb then some s
  else process_loop float_to_int16 (samples.length + 1) s samples

/-- The static initialisers of `cytrus_audio.cpp`, with no host callback registered. -/
def audio_initial : AudioState :=
  { audio_buffer := fun _ => 0, buffer_pos := 0, audio_initialized := false, volume := 1,
    audio_muted := false, audio_sample_batch_cb := false, calls := [] }

/-- The state after `cytrus_audio_init` once the host has registered its batch callback. -/
def audio_ready : AudioState :=
  { (cytrus_audio_init audio_initial).1 with audio_sample_batch_cb := true }

/-- The `while (samples_needed > 0)` loop of `cytrus_audio_generate_silence`; the last
argument is `samples_needed`.  The `memset` zeroes `to_generate` samples from
`buffer_pos` on.  The first argument bounds the number of iterations; `none` means the
bound was reached with samples still needed. -/
def silence_loop : Nat → AudioState → Nat → Option AudioState
  | _, s, 0 => some s
  | 0, _, _ + 1 => none
  | fuel + 1, s, n + 1 =>
    let samples_needed := n + 1
    let space_left := size_sub BUFFER_SIZE s.buffer_pos
    let to_generate := if samples_needed < space_left then samples_needed else space_left
    let s1 : AudioState :=
      { s with audio_buffer := fun i =>
                 if s.buffer_pos ≤ i ∧ i < s.buffer_pos + to_generate then 0
                 else s.audio_buffer i,
               buffer_pos := s.buffer_pos + to_generate }
    silence_loop fuel (send_if_full s1) (samples_needed - to_generate)

/-- The function `cytrus_audio_generate_silence(frame_count)`;
`samples_needed = frame_count * CHANNELS` in `size_t` arithmetic. -/
def cytrus_audio_generate_silence (s : AudioState) (frame_count : Nat) : Option AudioState :=
  if !s.audio_initialized || !s.audio_sample_batch_cb then some s
  else
    let samples_needed := (frame_count * CHANNELS) % SIZE_MOD
    silence_loop (samples_needed + 1) s samples_needed

/-- One submission to the batcher: a call of `cytrus_audio_process_samples` or of
`cytrus_audio_process_float_samples` with its sample array. -/
inductive AudioCall where
  | int16_samples (xs : List Int)
  | float_samples (xs : List ℚ)

/-- The effect of one submission. -/
def submit (s : AudioState) : AudioCall → Option AudioState
  | AudioCall.int16_samples xs => cytrus_audio_process_samples s xs
  | AudioCall.float_samples xs => cytrus_audio_process_float_samples s xs

/-- A finite sequence of submissions, made one after the other. -/
def submit_all : AudioState → List AudioCall → Option AudioState
  | s, [] => some s
  | s, c :: cs => (submit s c).bind (fun s1 => submit_all s1 cs)

/-- The samples of a sequence of submissions, in call order, float samples converted by
`float_to_int16`. -/
def submitted : List AudioCall → List Int
  | [] => []
  | AudioCall.int16_samples xs :: cs => xs ++ submitted cs
  | AudioCall.float_samples xs :: cs => xs.map float_to_int16 ++ submitted cs

/-- The samples still buffered: `audio_buffer[0 .. buffer_pos - 1]`. -/
def buffered (s : AudioState) : List Int := (List.range s.buffer_pos).map s.audio_buffer

/-- The samples of a list of batches, in delivery order. -/
def delivered : List AudioBatch → List Int
  | [] => []
  | b :: bs => b.data ++ delivered bs

/-! ## Video compositor configuration (`src/cytrus_video.cpp`) -/

/-- The enumeration `ScreenLayout`. -/
inductive ScreenLayout where
  | TopBottom
  | SideBySide
  | TopOnly
  | BottomOnly
deriving DecidableEq

/-- The constant `TOP_SCREEN_WIDTH`. -/
def TOP_SCREEN_WIDTH : Nat := 400

/-- The constant `TOP_SCREEN_HEIGHT`. -/
def TOP_SCREEN_HEIGHT : Nat := 240

/-- The constant `BOTTOM_SCREEN_WIDTH`. -/
def BOTTOM_SCREEN_WIDTH : Nat := 320

/-- The constant `BOTTOM_SCREEN_HEIGHT`. -/
def BOTTOM_SCREEN_HEIGHT : Nat := 240

/-- The static variables of `cytrus_video.cpp`.  `video_buffer` is `none` for `nullptr`,
otherwise the allocated 32-bit pixels in row-major order. -/
structure VideoState where
  video_buffer : Option (List Nat)
  video_width : Nat
  video_height : Nat
  video_pitch : Nat
  current_layout : ScreenLayout
  resolution_scale : Nat

/-- The static initialisers of `cytrus_video.cpp`. -/
def video_initial : VideoState :=
  { video_buffer := none, video_width := 800, video_height := 480, video_pitch := 0,
    current_layout := ScreenLayout.TopBottom, resolution_scale := 1 }

/-- The function `cytrus_video_init(width, height, scale)`; `width` and `height` are
unnamed and unused in the source.  `malloc_ok` tells whether the `malloc` of this call
succeeds.  All arithmetic is `unsigned` (32 bits); the byte count passed to `malloc` is
`(video_width * video_height) * sizeof(uint32_t)`. -/
def cytrus_video_init (malloc_ok : Bool) (s : VideoState) (_width _height scale : Nat) :
    VideoState × Bool :=
  let scale := scale % U32_MOD
  let dims : Nat × Nat :=
    match s.current_layout with
    | ScreenLayout.TopBottom =>
        ((TOP_SCREEN_WIDTH * scale) % U32_MOD,
         ((TOP_SCREEN_HEIGHT + BOTTOM_SCREEN_HEIGHT) * scale) % U32_MOD)
    | ScreenLayout.SideBySide =>
        (((TOP_SCREEN_WIDTH + BOTTOM_SCREEN_WIDTH) * scale) % U32_MOD,
         (TOP_SCREEN_HEIGHT * scale) % U32_MOD)
    | ScreenLayout.TopOnly =>
        ((TOP_SCREEN_WIDTH * scale) % U32_MOD, (TOP_SCREEN_HEIGHT * scale) % U32_MOD)
    | ScreenLayout.BottomOnly =>
        ((BOTTOM_SCREEN_WIDTH * scale) % U32_MOD, (BOTTOM_SCREEN_HEIGHT * scale) % U32_MOD)
  let s1 : VideoState :=
    { s with resolution_scale := scale, video_width := dims.1, video_height := dims.2,
             video_pitch := (dims.1 * 4) % U32_MOD }
  if malloc_ok then
    ({ s1 with video_buffer := some (List.replicate ((dims.1 * dims.2) % U32_MOD) 0) }, true)
  else
    ({ s1 with video_buffer := none }, false)

/-- The function `cytrus_video_deinit`. -/
def cytrus_video_deinit (s : VideoState) : VideoState :=
  { s with video_buffer := none }

/-- The function `cytrus_video_set_layout`. -/
def cytrus_video_set_layout (malloc_ok : Bool) (s : VideoState) (layout : ScreenLayout) :
    VideoState :=
  let s1 := { s with current_layout := layout }
  (cytrus_video_init malloc_ok s1 s1.video_width s1.video_height s1.resolution_scale).1

/-- The function `cytrus_video_get_dimensions` with both out-pointers non-null. -/
def cytrus_video_get_dimensions (s : VideoState) : Nat × Nat :=
  (s.video_width, s.video_height)

/-- The function `cytrus_video_set_resolution_scale`. -/
def cytrus_video_set_resolution_scale (malloc_ok : Bool) (s : VideoState) (scale : Nat) :
    VideoState :=
  if scale ≥ 1 ∧ scale ≤ 8 then
    let s1 := { s with resolution_scale := scale }
    (cytrus_video_init malloc_ok s1 s1.video_width s1.video_height scale).1
  else s

/-- The function `cytrus_video_get_layout`. -/
def cytrus_video_get_layout (s : VideoState) : ScreenLayout := s.current_layout

/-- The output size `cytrus_video_init` computes for a layout and a scale (the `switch`
of that function, in `unsigned` arithmetic). -/
def layout_dimensions (layout : ScreenLayout) (scale : Nat) : Nat × Nat :=
  match layout with
  | ScreenLayout.TopBottom =>
      ((TOP_SCREEN_WIDTH * scale) % U32_MOD,
       ((TOP_SCREEN_HEIGHT + BOTTOM_SCREEN_HEIGHT) * scale) % U32_MOD)
  | ScreenLayout.SideBySide =>
      (((TOP_SCREEN_WIDTH + BOTTOM_SCREEN_WIDTH) * scale) % U32_MOD,
       (TOP_SCREEN_HEIGHT * scale) % U32_MOD)
  | ScreenLayout.TopOnly =>
      ((TOP_SCREEN_WIDTH * scale) % U32_MOD, (TOP_SCREEN_HEIGHT * scale) % U32_MOD)
  | ScreenLayout.BottomOnly =>
      ((BOTTOM_SCREEN_WIDTH * scale) % U32_MOD, (BOTTOM_SCREEN_HEIGHT * scale) % U32_MOD)

/-- The 32-bit pixel `(0xFF << 24) | (r << 16) | (g << 8) | b` stored for three source
bytes (`uint8_t` values). -/
def rgba_pixel (r g b : Nat) : Nat :=
  0xFF000000 ||| ((r % 256) <<< 16) ||| ((g % 256) <<< 8) ||| (b % 256)

/-- The index `(y * src_width + x) * 3 + c` of colour byte `c` of source pixel `(x, y)`,
in `unsigned` arithmetic. -/
def src_byte_index (src_width x y c : Nat) : Nat :=
  ((y * src_width + x) * 3 + c) % U32_MOD

/-- The index, in 32-bit pixels from `dst`, of `dst_line[x]` in row `y` of a conversion:
`dst_line = (uint32_t*)((uint8_t*)dst + (dst_y + y) * dst_pitch) + dst_x`, the byte offset
computed in `unsigned` arithmetic (`dst_pitch` is always a multiple of 4). -/
def dst_index (dst_x dst_y dst_pitch x y : Nat) : Nat :=
  (((dst_y + y) * dst_pitch) % U32_MOD) / 4 + dst_x + x

/-- The stores `dst_line[x] = ...` executed by the two nested loops of
`convert_framebuffer_to_rgba`, in order, as pairs (pixel index, value). -/
def convert_writes (src : Nat → Nat) (src_width src_height dst_x dst_y dst_pitch : Nat) :
    List (Nat × Nat) :=
  (List.range src_height).flatMap fun y =>
    (List.range src_width).map fun x =>
      (dst_index dst_x dst_y dst_pitch x y,
       rgba_pixel (src (src_byte_index src_width x y 0)) (src (src_byte_index src_width x y 1))
         (src (src_byte_index src_width x y 2)))

/-- A sequence of stores into the allocated pixels; a store outside the allocation has no
defined effect and is dropped. -/
def store_all (dst : List Nat) (writes : List (Nat × Nat)) : List Nat :=
  writes.foldl (fun d w => d.set w.1 w.2) dst

/-- The function `convert_framebuffer_to_rgba(src, dst, src_width, src_height, dst_x,
dst_y, dst_pitch)`; `src` maps a byte index to the byte stored there. -/
def convert_framebuffer_to_rgba (src : Nat → Nat) (dst : List Nat)
    (src_width src_height dst_x dst_y dst_pitch : Nat) : List Nat :=
  store_all dst (convert_writes src src_width src_height dst_x dst_y dst_pitch)

/-- The call `memset(video_buffer, 0, n * sizeof(uint32_t))`. -/
def memset_zero (dst : List Nat) (n : Nat) : List Nat :=
  store_all dst ((List.range n).map fun i => (i, 0))

/-- One call of `convert_framebuffer_to_rgba` made by `cytrus_video_render_frame`: which
source surface it converts, the surface size and the destination offset. -/
structure Placement where
  top_surface : Bool
  src_width : Nat
  src_height : Nat
  dst_x : Nat
  dst_y : Nat
deriving DecidableEq

/-- The calls of `convert_framebuffer_to_rgba` in the `switch` of
`cytrus_video_render_frame`, in order; `bottom_x` and `bottom_y` in `unsigned`
arithmetic. -/
def placements (s : VideoState) : List Placement :=
  match s.current_layout with
  | ScreenLayout.TopBottom =>
      let bottom_x :=
        ((s.video_width % U32_MOD + U32_MOD
            - (BOTTOM_SCREEN_WIDTH * s.resolution_scale) % U32_MOD) % U32_MOD) / 2
      let bottom_y := (TOP_SCREEN_HEIGHT * s.resolution_scale) % U32_MOD
      [ ⟨true, TOP_SCREEN_WIDTH, TOP_SCREEN_HEIGHT, 0, 0⟩,
        ⟨false, BOTTOM_SCREEN_WIDTH, BOTTOM_SCREEN_HEIGHT, bottom_x, bottom_y⟩ ]
  | ScreenLayout.SideBySide =>
      [ ⟨true, TOP_SCREEN_WIDTH, TOP_SCREEN_HEIGHT, 0, 0⟩,
        ⟨false, BOTTOM_SCREEN_WIDTH, BOTTOM_SCREEN_HEIGHT,
          (TOP_SCREEN_WIDTH * s.resolution_scale) % U32_MOD, 0⟩ ]
  | ScreenLayout.TopOnly => [ ⟨true, TOP_SCREEN_WIDTH, TOP_SCREEN_HEIGHT, 0, 0⟩ ]
  | ScreenLayout.BottomOnly => [ ⟨false, BOTTOM_SCREEN_WIDTH, BOTTOM_SCREEN_HEIGHT, 0, 0⟩ ]

/-- The frame handed to the host: `video_cb(video_buffer, video_width, video_height,
video_pitch)`. -/
structure VideoFrame where
  data : List Nat
  width : Nat
  height : Nat
  pitch : Nat

/-- The body of `cytrus_video_render_frame` for given contents of the two source
surfaces.  `video_cb` tells whether the host callback is set.  Returns the state
afterwards and the frame handed to the host, if any. -/
def render_frame (video_cb : Bool) (top_screen_data bottom_screen_data : Nat → Nat)
    (s : VideoState) : VideoState × Option VideoFrame :=
  match s.video_buffer with
  | none => (s, none)
  | some video_buffer =>
    if !video_cb then (s, none)
    else
      let cleared := memset_zero video_buffer ((s.video_width * s.video_height) % U32_MOD)
      let composed := (placements s).foldl (fun dst p =>
        convert_framebuffer_to_rgba (if p.top_surface then top_screen_data else bottom_screen_data)
          dst p.src_width p.src_height p.dst_x p.dst_y s.video_pitch) cleared
      ({ s with video_buffer := some composed },
       some ⟨composed, s.video_width, s.video_height, s.video_pitch⟩)

/-- The function `cytrus_video_render_frame`: its two source surfaces are the static
arrays `top_screen_data` and `bottom_screen_data`, which hold zeros. -/
def cytrus_video_render_frame (video_cb : Bool) (s : VideoState) :
    VideoState × Option VideoFrame :=
  render_frame video_cb (fun _ => 0) (fun _ => 0) s

/-- A state as a successful configuration with a scale in 1..8 leaves it: dimensions of
the stored layout and scale, pitch of four bytes per pixel, and an allocated buffer of
`video_width * video_height` pixels (of any content). -/
def video_configured (s : VideoState) : Prop :=
  1 ≤ s.resolution_scale ∧ s.resolution_scale ≤ 8 ∧
  (s.video_width, s.video_height) = layout_dimensions s.current_layout s.resolution_scale ∧
  s.video_pitch = 4 * s.video_width ∧
  ∃ video_buffer : List Nat, s.video_buffer = some video_buffer ∧
    video_buffer.length = s.video_width * s.video_height

/-- The columns to the left and to the right of a placed surface in the output. -/
def side_margins (s : VideoState) (p : Placement) : Nat × Nat :=
  (p.dst_x, s.video_width - (p.dst_x + p.src_width))

/-- The output pixels a placement stores to: the loops of `convert_framebuffer_to_rgba`
run over `x < src_width` and `y < src_height` and store to column `dst_x + x` of row
`dst_y + y`. -/
def covers (p : Placement) (col row : Nat) : Prop :=
  p.dst_x ≤ col ∧ col < p.dst_x + p.src_width ∧ p.dst_y ≤ row ∧ row < p.dst_y + p.src_height

instance (p : Placement) (col row : Nat) : Decidable (covers p col row) := by
  unfold covers; infer_instance

/-! ## State container codec (`src/cytrus_memory.cpp`) -/

/-- The memory reachable through a `void* data` pointer: the byte stored at each offset
from the pointer.  Offsets `0 .. size - 1` are the caller's buffer; larger offsets are
whatever lies behind it. -/
abbrev Mem := Nat → Nat

/-- The value of `sizeof(save_state_header)`: four `uint32_t` fields. -/
def HEADER_SIZE : Nat := 16

/-- The magic number `0x53545343`. -/
def SAVE_STATE_MAGIC : Nat := 0x53545343

/-- The four bytes of a `uint32_t` in memory order (little-endian target). -/
def le32_bytes (v : Nat) : List Nat :=
  [v % 256, v / 256 % 256, v / 65536 % 256, v / 16777216 % 256]

/-- The `uint32_t` stored at offset `off` (little-endian target). -/
def read_le32 (m : Mem) (off : Nat) : Nat :=
  m off % 256 + 256 * (m (off + 1) % 256) + 65536 * (m (off + 2) % 256)
    + 16777216 * (m (off + 3) % 256)

/-- The call `memset(data + off, val, len)`. -/
def mem_set (m : Mem) (off len val : Nat) : Mem :=
  fun i => if off ≤ i ∧ i < off + len then val else m i

/-- The call `memcpy(data + off, bytes, bytes.length)`. -/
def mem_copy (m : Mem) (off : Nat) (bytes : List Nat) : Mem :=
  fun i => if off ≤ i ∧ i < off + bytes.length then bytes.getD (i - off) 0 else m i

/-- The local `struct save_state_header`. -/
structure save_state_header where
  magic : Nat
  version : Nat
  size : Nat
  crc : Nat
deriving DecidableEq

/-- The object representation of a header: its four fields in declaration order. -/
def header_bytes (h : save_state_header) : List Nat :=
  le32_bytes h.magic ++ le32_bytes h.version ++ le32_bytes h.size ++ le32_bytes h.crc

/-- The call `memcpy(&header, data, sizeof(header))`. -/
def read_header (m : Mem) : save_state_header :=
  { magic := read_le32 m 0, version := read_le32 m 4, size := read_le32 m 8,
    crc := read_le32 m 12 }

/-- The string literal `demo_data`. -/
def demo_data : String := "Cytrus Save State v1.0"

/-- The bytes of `demo_data` (without the terminating NUL, as `strlen` counts them). -/
def demo_bytes : List Nat := demo_data.toList.map Char.toNat

/-- The function `cytrus_memory_serialize(data, size)`.  `powered_on` is the result of
`Core::System::GetInstance().IsPoweredOn()`; `data` is `none` for a null pointer.
Returns the result and the memory behind `data` afterwards. -/
def cytrus_memory_serialize (powered_on : Bool) (data : Option Mem) (size : Nat) :
    Bool × Option Mem :=
  match data with
  | none => (false, none)
  | some m =>
    if size = 0 then (false, some m)
    else if !powered_on then (false, some m)
    else
      let m1 := mem_set m 0 size 0
      let header : save_state_header :=
        { magic := SAVE_STATE_MAGIC, version := 1,
          size := size_sub size HEADER_SIZE % U32_MOD, crc := 0 }
      let m2 := mem_copy m1 0 (header_bytes header)
      let offset := 0
      let demo_size := demo_bytes.length
      let m3 := if offset + demo_size < size then mem_copy m2 (HEADER_SIZE + offset) demo_bytes
                else m2
      (true, some m3)

/-- The function `cytrus_memory_unserialize(data, size)`. -/
def cytrus_memory_unserialize (powered_on : Bool) (data : Option Mem) (size : Nat) : Bool :=
  match data with
  | none => false
  | some m =>
    if size = 0 then false
    else if !powered_on then false
    else if size < HEADER_SIZE then false
    else
      let header := read_header m
      if header.magic ≠ SAVE_STATE_MAGIC then false
      else if header.version ≠ 1 then false
      else if (header.size + HEADER_SIZE) % SIZE_MOD ≠ size then false
      else true

/-- What `cytrus_memory_serialize` leaves in memory when it gets past its guards. -/
def serialized_memory (m : Mem) (size : Nat) : Mem :=
  let header : save_state_header :=
    { magic := SAVE_STATE_MAGIC, version := 1,
      size := size_sub size HEADER_SIZE % U32_MOD, crc := 0 }
  let m2 := mem_copy (mem_set m 0 size 0) 0 (header_bytes header)
  if demo_bytes.length < size then mem_copy m2 HEADER_SIZE demo_bytes else m2

/-! ## Input aggregator (`src/cytrus_input.cpp`) and frontend sticks (`src/cytrus_frontend.cpp`) -/

/-- The libretro device class `RETRO_DEVICE_JOYPAD` (value from the libretro API). -/
def RETRO_DEVICE_JOYPAD : Nat := 1

/-- The libretro device class `RETRO_DEVICE_ANALOG` (value from the libretro API). -/
def RETRO_DEVICE_ANALOG : Nat := 5

/-- The libretro device class `RETRO_DEVICE_POINTER` (value from the libretro API). -/
def RETRO_DEVICE_POINTER : Nat := 6

/-- The libretro constant `RETRO_DEVICE_INDEX_ANALOG_LEFT`. -/
def RETRO_DEVICE_INDEX_ANALOG_LEFT : Nat := 0

/-- The libretro constant `RETRO_DEVICE_INDEX_ANALOG_RIGHT`. -/
def RETRO_DEVICE_INDEX_ANALOG_RIGHT : Nat := 1

/-- The libretro constant `RETRO_DEVICE_ID_ANALOG_X`. -/
def RETRO_DEVICE_ID_ANALOG_X : Nat := 0

/-- The libretro constant `RETRO_DEVICE_ID_ANALOG_Y`. -/
def RETRO_DEVICE_ID_ANALOG_Y : Nat := 1

/-- The libretro constant `RETRO_DEVICE_ID_POINTER_X`. -/
def RETRO_DEVICE_ID_POINTER_X : Nat := 0

/-- The libretro constant `RETRO_DEVICE_ID_POINTER_Y`. -/
def RETRO_DEVICE_ID_POINTER_Y : Nat := 1

/-- The libretro constant `RETRO_DEVICE_ID_POINTER_PRESSED`. -/
def RETRO_DEVICE_ID_POINTER_PRESSED : Nat := 2

/-- The libretro joypad button ids `RETRO_DEVICE_ID_JOYPAD_*` (values from the libretro API). -/
def RETRO_DEVICE_ID_JOYPAD_B : Nat := 0
def RETRO_DEVICE_ID_JOYPAD_Y : Nat := 1
def RETRO_DEVICE_ID_JOYPAD_SELECT : Nat := 2
def RETRO_DEVICE_ID_JOYPAD_START : Nat := 3
def RETRO_DEVICE_ID_JOYPAD_UP : Nat := 4
def RETRO_DEVICE_ID_JOYPAD_DOWN : Nat := 5
def RETRO_DEVICE_ID_JOYPAD_LEFT : Nat := 6
def RETRO_DEVICE_ID_JOYPAD_RIGHT : Nat := 7
def RETRO_DEVICE_ID_JOYPAD_A : Nat := 8
def RETRO_DEVICE_ID_JOYPAD_X : Nat := 9
def RETRO_DEVICE_ID_JOYPAD_L : Nat := 10
def RETRO_DEVICE_ID_JOYPAD_R : Nat := 11
def RETRO_DEVICE_ID_JOYPAD_L2 : Nat := 12
def RETRO_DEVICE_ID_JOYPAD_R2 : Nat := 13
def RETRO_DEVICE_ID_JOYPAD_L3 : Nat := 14

/-- The host callback `input_state_cb(port, device, index, id)`; its `int16_t` result is
obtained by `to_int16` at every call site. -/
abbrev InputStateCb := Nat → Nat → Nat → Nat → Int

/-- The table `button_mappings`: pairs `(retro_id, cytrus_button)`. -/
def button_mappings : List (Nat × Nat) :=
  [ (RETRO_DEVICE_ID_JOYPAD_B, 700), (RETRO_DEVICE_ID_JOYPAD_A, 701),
    (RETRO_DEVICE_ID_JOYPAD_Y, 702), (RETRO_DEVICE_ID_JOYPAD_X, 703),
    (RETRO_DEVICE_ID_JOYPAD_SELECT, 705), (RETRO_DEVICE_ID_JOYPAD_START, 704),
    (RETRO_DEVICE_ID_JOYPAD_L, 707), (RETRO_DEVICE_ID_JOYPAD_R, 708),
    (RETRO_DEVICE_ID_JOYPAD_L2, 773), (RETRO_DEVICE_ID_JOYPAD_R2, 774),
    (RETRO_DEVICE_ID_JOYPAD_UP, 709), (RETRO_DEVICE_ID_JOYPAD_DOWN, 710),
    (RETRO_DEVICE_ID_JOYPAD_LEFT, 711), (RETRO_DEVICE_ID_JOYPAD_RIGHT, 712),
    (RETRO_DEVICE_ID_JOYPAD_L3, 781) ]

/-- The table `analog_mappings`: pairs `(retro_index, cytrus_stick)`. -/
def analog_mappings : List (Nat × Nat) :=
  [ (RETRO_DEVICE_INDEX_ANALOG_LEFT, 713), (RETRO_DEVICE_INDEX_ANALOG_RIGHT, 718) ]

/-- The host sample in which player 0 holds `RETRO_DEVICE_ID_JOYPAD_L2` and nothing else
is pressed or deflected. -/
def sample_L2_held : InputStateCb :=
  fun player device _ id =>
    if player = 0 ∧ device = RETRO_DEVICE_JOYPAD ∧ id = RETRO_DEVICE_ID_JOYPAD_L2 then 1 else 0

/-- The host sample in which the pointer is pressed at raw position `(0, 0)` and nothing
else is pressed or deflected. -/
def sample_center_touch : InputStateCb :=
  fun _ device _ id =>
    if device = RETRO_DEVICE_POINTER ∧ id = RETRO_DEVICE_ID_POINTER_PRESSED then 1 else 0

/-- The host sample in which nothing is pressed or deflected. -/
def sample_idle : InputStateCb := fun _ _ _ _ => 0

/-- The host sample in which the pointer is pressed at raw position `(32767, -32767)`. -/
def sample_corner_touch : InputStateCb :=
  fun _ device _ id =>
    if device = RETRO_DEVICE_POINTER then
      (if id = RETRO_DEVICE_ID_POINTER_PRESSED then 1
       else if id = RETRO_DEVICE_ID_POINTER_X then 32767 else -32767)
    else 0

section Input

variable {F : Type} [LinearOrderedField F]

/-- The static `touch_state`. -/
structure TouchState (F : Type) where
  active : Bool
  x : F
  y : F

/-- The static variables of `cytrus_input.cpp`: `uint16_t button_state[4]`,
`float analog_state[4][2][2]` (player, stick, axis) and `touch_state`; an array is the
map from its indices to the stored values. -/
structure InputState (F : Type) where
  button_state : Nat → Nat
  analog_state : Nat → Nat → Nat → F
  touch_state : TouchState F

/-- The function `cytrus_input_init`: everything cleared. -/
def cytrus_input_init (_s : InputState F) : InputState F × Bool :=
  ({ button_state := fun _ => 0, analog_state := fun _ _ _ => 0,
     touch_state := { active := false, x := 0, y := 0 } }, true)

/-- The deadzone block, textually the same in `cytrus_input_poll`, `GetCirclePad` and
`GetCStick`: from the raw `int16_t` pair to the values finally stored in `x` and `y`. -/
def apply_deadzone (sqrtf : F → F) (analog_x analog_y : Int) : F × F :=
  let x : F := (analog_x : F) / 32767
  let y : F := (analog_y : F) / 32767
  let deadzone : F := 0.15
  let magnitude : F := sqrtf (x * x + y * y)
  if magnitude < deadzone then (0, 0)
  else
    let scale : F := (magnitude - deadzone) / (1 - deadzone)
    ((x / magnitude) * scale, (y / magnitude) * scale)

/-- The button loop of one player: `new_state |= (1 << (cytrus_button - 700))` for every
pressed button, stored into a `uint16_t`.  A shift count of 32 or more is undefined in C;
the model takes the mathematical value, of which the `uint16_t` keeps the low 16 bits. -/
def poll_buttons (cb : InputStateCb) (player : Nat) : Nat :=
  button_mappings.foldl (fun new_state m =>
    if to_int16 (cb player RETRO_DEVICE_JOYPAD 0 m.1) ≠ 0 then
      (new_state ||| (1 <<< (m.2 - 700))) % 65536
    else new_state) 0

/-- The assignment `analog_state[player][i][axis] = v`. -/
def set_analog (a : Nat → Nat → Nat → F) (player i axis : Nat) (v : F) : Nat → Nat → Nat → F :=
  fun p j ax => if p = player ∧ j = i ∧ ax = axis then v else a p j ax

/-- The analog loop of one player over `analog_mappings`. -/
def poll_analog (sqrtf : F → F) (cb : InputStateCb) (player : Nat)
    (a : Nat → Nat → Nat → F) : Nat → Nat → Nat → F :=
  (analog_mappings.enum).foldl (fun a im =>
    let analog_x := to_int16 (cb player RETRO_DEVICE_ANALOG im.2.1 RETRO_DEVICE_ID_ANALOG_X)
    let analog_y := to_int16 (cb player RETRO_DEVICE_ANALOG im.2.1 RETRO_DEVICE_ID_ANALOG_Y)
    let xy := apply_deadzone sqrtf analog_x analog_y
    set_analog (set_analog a player im.1 0 xy.1) player im.1 1 xy.2) a

/-- The touch block of player 0. -/
def poll_touch (cb : InputStateCb) (t : TouchState F) : TouchState F :=
  let touch_pressed := to_int16 (cb 0 RETRO_DEVICE_POINTER 0 RETRO_DEVICE_ID_POINTER_PRESSED) ≠ 0
  if touch_pressed then
    let pointer_x := to_int16 (cb 0 RETRO_DEVICE_POINTER 0 RETRO_DEVICE_ID_POINTER_X)
    let pointer_y := to_int16 (cb 0 RETRO_DEVICE_POINTER 0 RETRO_DEVICE_ID_POINTER_Y)
    { active := true,
      x := (((pointer_x + 32767) * 320 : Int) : F) / 65534,
      y := (((pointer_y + 32767) * 240 : Int) : F) / 65534 }
  else { t with active := false }

/-- One iteration of the `for (player ...)` loop of `cytrus_input_poll`. -/
def poll_player (sqrtf : F → F) (cb : InputStateCb) (s : InputState F) (player : Nat) :
    InputState F :=
  let s1 := { s with button_state := Function.update s.button_state player (poll_buttons cb player) }
  let s2 := { s1 with analog_state := poll_analog sqrtf cb player s1.analog_state }
  if player = 0 then { s2 with touch_state := poll_touch cb s2.touch_state } else s2

/-- The function `cytrus_input_poll`.  `input_poll_cb` tells whether that pointer is set;
`input_state_cb` is `none` for a null pointer, and calling it then has no defined result
(`none`). -/
def cytrus_input_poll (sqrtf : F → F) (input_poll_cb : Bool)
    (input_state_cb : Option InputStateCb) (s : InputState F) : Option (InputState F) :=
  if !input_poll_cb then some s
  else
    match input_state_cb with
    | none => none
    | some cb => some ((List.range 4).foldl (poll_player sqrtf cb) s)

/-- The function `cytrus_input_get_buttons`. -/
def cytrus_input_get_buttons (s : InputState F) (player : Int) : Nat :=
  if player < 0 ∨ player ≥ 4 then 0 else s.button_state player.toNat

/-- The function `cytrus_input_get_analog` with both out-pointers non-null. -/
def cytrus_input_get_analog (s : InputState F) (player stick : Int) : F × F :=
  if player < 0 ∨ player ≥ 4 ∨ stick < 0 ∨ stick ≥ 2 then (0, 0)
  else (s.analog_state player.toNat stick.toNat 0, s.analog_state player.toNat stick.toNat 1)

/-- The function `cytrus_input_get_touch` with all out-pointers non-null. -/
def cytrus_input_get_touch (s : InputState F) : Bool × F × F :=
  (s.touch_state.active, s.touch_state.x, s.touch_state.y)

/-- The method `CytrusLibretroFrontend::GetCirclePad`. -/
def GetCirclePad (sqrtf : F → F) (input_state_cb : Option InputStateCb) : F × F :=
  match input_state_cb with
  | none => (0, 0)
  | some cb =>
    apply_deadzone sqrtf
      (to_int16 (cb 0 RETRO_DEVICE_ANALOG RETRO_DEVICE_INDEX_ANALOG_LEFT RETRO_DEVICE_ID_ANALOG_X))
      (to_int16 (cb 0 RETRO_DEVICE_ANALOG RETRO_DEVICE_INDEX_ANALOG_LEFT RETRO_DEVICE_ID_ANALOG_Y))

/-- The method `CytrusLibretroFrontend::GetCStick`. -/
def GetCStick (sqrtf : F → F) (input_state_cb : Option InputStateCb) : F × F :=
  match input_state_cb with
  | none => (0, 0)
  | some cb =>
    apply_deadzone sqrtf
      (to_int16 (cb 0 RETRO_DEVICE_ANALOG RETRO_DEVICE_INDEX_ANALOG_RIGHT RETRO_DEVICE_ID_ANALOG_X))
      (to_int16 (cb 0 RETRO_DEVICE_ANALOG RETRO_DEVICE_INDEX_ANALOG_RIGHT RETRO_DEVICE_ID_ANALOG_Y))

/-- The static initialisers of `cytrus_input.cpp`. -/
def input_initial : InputState F :=
  { button_state := fun _ => 0, analog_state := fun _ _ _ => 0,
    touch_state := { active := false, x := 0, y := 0 } }

/-- The assumption that the library function `sqrtf` returns the non-negative square
root of every non-negative argument. -/
def IsSqrt (sqrtf : F → F) : Prop :=
  ∀ a : F, 0 ≤ a → 0 ≤ sqrtf a ∧ sqrtf a * sqrtf a = a

/-- The raw sample `(analog_x, analog_y)` of a player and a stick in one tick. -/
def raw_analog (cb : InputStateCb) (player stick : Nat) : Int × Int :=
  (to_int16 (cb player RETRO_DEVICE_ANALOG stick RETRO_DEVICE_ID_ANALOG_X),
   to_int16 (cb player RETRO_DEVICE_ANALOG stick RETRO_DEVICE_ID_ANALOG_Y))

/-- The function `cytrus_input_button_pressed(player, button_id)`:
`(button_state[player] & (1 << (button_id - 700))) != 0`, the subtraction in `unsigned`
arithmetic and the shift taken as the mathematical value, as in `poll_buttons`. -/
def cytrus_input_button_pressed (s : InputState F) (player : Int) (button_id : Nat) : Bool :=
  if player < 0 ∨ player ≥ 4 then false
  else
    (s.button_state player.toNat
      &&& (1 <<< ((button_id % U32_MOD + U32_MOD - 700) % U32_MOD))) != 0

/-- The `if` chain of `CytrusLibretroFrontend::GetButtonState`: pairs of a host button
and the mask or-ed into `buttons` when it is pressed, in source order. -/
def frontend_button_bits : List (Nat × Nat) :=
  [ (RETRO_DEVICE_ID_JOYPAD_B, 0x0001), (RETRO_DEVICE_ID_JOYPAD_A, 0x0002),
    (RETRO_DEVICE_ID_JOYPAD_Y, 0x0004), (RETRO_DEVICE_ID_JOYPAD_X, 0x0008),
    (RETRO_DEVICE_ID_JOYPAD_SELECT, 0x0010), (RETRO_DEVICE_ID_JOYPAD_START, 0x0020),
    (RETRO_DEVICE_ID_JOYPAD_L, 0x0040), (RETRO_DEVICE_ID_JOYPAD_R, 0x0080),
    (RETRO_DEVICE_ID_JOYPAD_UP, 0x0100), (RETRO_DEVICE_ID_JOYPAD_DOWN, 0x0200),
    (RETRO_DEVICE_ID_JOYPAD_LEFT, 0x0400), (RETRO_DEVICE_ID_JOYPAD_RIGHT, 0x0800) ]

/-- The method `CytrusLibretroFrontend::GetButtonState`. -/
def GetButtonState (input_state_cb : Option InputStateCb) : Nat :=
  match input_state_cb with
  | none => 0
  | some cb =>
    frontend_button_bits.foldl (fun buttons m =>
      if to_int16 (cb 0 RETRO_DEVICE_JOYPAD 0 m.1) ≠ 0 then buttons ||| m.2 else buttons) 0

/-- The function `cytrus_get_button_state` of the frontend interface. -/
def cytrus_get_button_state (input_state_cb : Option InputStateCb) : Nat :=
  GetButtonState input_state_cb

/-- The method `CytrusLibretroFrontend::GetTouchState`, as `(pressed, x, y)`. -/
def GetTouchState (input_state_cb : Option InputStateCb) : Bool × F × F :=
  match input_state_cb with
  | none => (false, 0, 0)
  | some cb =>
    let pressed := to_int16 (cb 0 RETRO_DEVICE_POINTER 0 RETRO_DEVICE_ID_POINTER_PRESSED) ≠ 0
    if pressed then
      let pointer_x := to_int16 (cb 0 RETRO_DEVICE_POINTER 0 RETRO_DEVICE_ID_POINTER_X)
      let pointer_y := to_int16 (cb 0 RETRO_DEVICE_POINTER 0 RETRO_DEVICE_ID_POINTER_Y)
      (true, (((pointer_x + 32767 : Int) : F) * 320) / 65534,
             (((pointer_y + 32767 : Int) : F) * 240) / 65534)
    else (false, 0, 0)

/-- A number of consecutive calls of `cytrus_input_poll` with the same callbacks. -/
def poll_times (sqrtf : F → F) (input_poll_cb : Bool) (input_state_cb : Option InputStateCb) :
    Nat → InputState F → Option (InputState F)
  | 0, s => some s
  | n + 1, s =>
    (cytrus_input_poll sqrtf input_poll_cb input_state_cb s).bind
      (poll_times sqrtf input_poll_cb input_state_cb n)

/-- The raw pointer sample `(pointer_x, pointer_y)` of one tick. -/
def raw_pointer (cb : InputStateCb) : Int × Int :=
  (to_int16 (cb 0 RETRO_DEVICE_POINTER 0 RETRO_DEVICE_ID_POINTER_X),
   to_int16 (cb 0 RETRO_DEVICE_POINTER 0 RETRO_DEVICE_ID_POINTER_Y))

/-- Whether the host reports the pointer pressed in one tick. -/
def pointer_pressed (cb : InputStateCb) : Bool :=
  to_int16 (cb 0 RETRO_DEVICE_POINTER 0 RETRO_DEVICE_ID_POINTER_PRESSED) != 0

/-- Whether the host reports a joypad button pressed for a player in one tick. -/
def host_pressed (cb : InputStateCb) (player retro_id : Nat) : Bool :=
  to_int16 (cb player RETRO_DEVICE_JOYPAD 0 retro_id) != 0

end Input

/-! ## Audio batcher: test tone and sequences of operations (`src/cytrus_audio.cpp`) -/

/-- The constant `SAMPLE_RATE`. -/
def SAMPLE_RATE : ℚ := 44100

/-- The statement `audio_buffer[buffer_pos++] = v`. -/
def push_sample (s : AudioState) (v : Int) : AudioState :=
  { s with audio_buffer := Function.update s.audio_buffer s.buffer_pos v,
           buffer_pos := s.buffer_pos + 1 }

/-- The `for (frame ...)` loop of `cytrus_audio_generate_test_tone`; the first argument
after the parameters is the number of iterations left, the last one the static local
`phase`.  `sin` is the C library function and `pi` the constant `M_PI`. -/
def tone_loop (sin : ℚ → ℚ) (pi phase_increment : ℚ) : Nat → AudioState → ℚ → AudioState × ℚ
  | 0, s, phase => (s, phase)
  | n + 1, s, phase =>
    let sample := sin phase * (3 / 10)
    let phase1 := phase + phase_increment
    let phase2 := if phase1 ≥ 2 * pi then phase1 - 2 * pi else phase1
    let int_sample := float_to_int16 sample
    let s1 := push_sample s int_sample
    let s2 := push_sample s1 int_sample
    tone_loop sin pi phase_increment n (send_if_full s2) phase2

/-- The function `cytrus_audio_generate_test_tone(frequency, frame_count)`, with its static
local `phase` passed in and returned. -/
def cytrus_audio_generate_test_tone (sin : ℚ → ℚ) (pi : ℚ) (s : AudioState) (phase : ℚ)
    (frequency : ℚ) (frame_count : Nat) : AudioState × ℚ :=
  if !s.audio_initialized || !s.audio_sample_batch_cb then (s, phase)
  else tone_loop sin pi ((2 * pi * frequency) / SAMPLE_RATE) frame_count s phase

/-- One call into the audio batcher, or the host setting or clearing the batch callback
pointer `audio_sample_batch_cb`. -/
inductive AudioOp where
  | init
  | deinit
  | set_volume (vol : ℚ)
  | set_muted (muted : Bool)
  | process_samples (samples : List Int)
  | process_float_samples (samples : List ℚ)
  | generate_silence (frame_count : Nat)
  | generate_test_tone (frequency : ℚ) (frame_count : Nat)
  | flush
  | set_audio_sample_batch (cb : Bool)

/-- The effect of one operation on the statics of the batcher and on `phase`. -/
def run_op (sin : ℚ → ℚ) (pi : ℚ) (st : AudioState × ℚ) : AudioOp → Option (AudioState × ℚ)
  | AudioOp.init => some ((cytrus_audio_init st.1).1, st.2)
  | AudioOp.deinit => some (cytrus_audio_deinit st.1, st.2)
  | AudioOp.set_volume vol => some (cytrus_audio_set_volume st.1 vol, st.2)
  | AudioOp.set_muted muted => some (cytrus_audio_set_muted st.1 muted, st.2)
  | AudioOp.process_samples samples =>
      (cytrus_audio_process_samples st.1 samples).map (fun s => (s, st.2))
  | AudioOp.process_float_samples samples =>
      (cytrus_audio_process_float_samples st.1 samples).map (fun s => (s, st.2))
  | AudioOp.generate_silence frame_count =>
      (cytrus_audio_generate_silence st.1 frame_count).map (fun s => (s, st.2))
  | AudioOp.generate_test_tone frequency frame_count =>
      some (cytrus_audio_generate_test_tone sin pi st.1 st.2 frequency frame_count)
  | AudioOp.flush => some (cytrus_audio_flush st.1, st.2)
  | AudioOp.set_audio_sample_batch cb => some ({ st.1 with audio_sample_batch_cb := cb }, st.2)

/-- A finite sequence of operations, made one after the other. -/
def run_ops (sin : ℚ → ℚ) (pi : ℚ) : AudioState × ℚ → List AudioOp → Option (AudioState × ℚ)
  | st, [] => some st
  | st, op :: ops => (run_op sin pi st op).bind (fun st1 => run_ops sin pi st1 ops)

/-! ## Frontend frame presentation (`src/cytrus_frontend.cpp`) -/

/-- The static locals of `CytrusLibretroFrontend::PresentFrame`: `rgba_buffer` (`none` for
`nullptr`, else its 32-bit pixels) and `rgba_buffer_size` (in bytes). -/
structure PresentState where
  rgba_buffer : Option (List Nat)
  rgba_buffer_size : Nat

/-- The static initialisers of `PresentFrame`. -/
def present_initial : PresentState := { rgba_buffer := none, rgba_buffer_size := 0 }

/-- The stores `dst[y * width + x] = ...` of the two nested loops of `PresentFrame`, in
order, as pairs (pixel index, value).  The destination index is computed in `unsigned`
arithmetic, the source index `(y * pitch + x) * 3 + c` in `size_t` arithmetic. -/
def present_writes (src : Nat → Nat) (width height pitch : Nat) : List (Nat × Nat) :=
  (List.range height).flatMap fun y =>
    (List.range width).map fun x =>
      ((y * width + x) % U32_MOD,
       rgba_pixel (src (((y * pitch + x) * 3 + 0) % SIZE_MOD))
         (src (((y * pitch + x) * 3 + 1) % SIZE_MOD))
         (src (((y * pitch + x) * 3 + 2) % SIZE_MOD)))

/-- The method `CytrusLibretroFrontend::PresentFrame(data, width, height, pitch)`.
`video_cb` tells whether the host callback is set, `data` is `none` for a null pointer,
`malloc_ok` tells whether a `malloc` of this call succeeds and `fresh` is the content of
the memory it returns.  `needed_size = width * height * 4` and the pitch `width * 4` are
computed in `unsigned` arithmetic.  A store `dst[...] = ...` through a null `rgba_buffer`
or outside its allocation has no defined result: the method then returns `none` and the
host callback is not reached.  Otherwise it returns the statics afterwards and the frame
handed to the host, if any; a null `rgba_buffer` is handed over as a frame without
pixels. -/
def PresentFrame (video_cb malloc_ok : Bool) (fresh : Nat → Nat) (data : Option (Nat → Nat))
    (width height pitch : Nat) (s : PresentState) :
    Option (PresentState × Option VideoFrame) :=
  match data with
  | none => some (s, none)
  | some src =>
    if !video_cb then some (s, none)
    else
      let needed_size := (width * height * 4) % U32_MOD
      let s1 : PresentState :=
        if s.rgba_buffer_size < needed_size then
          { rgba_buffer := if malloc_ok then some ((List.range (needed_size / 4)).map fresh)
                           else none,
            rgba_buffer_size := needed_size }
        else s
      let writes := present_writes src width height pitch
      match s1.rgba_buffer with
      | none =>
        if writes = [] then some (s1, some ⟨[], width, height, (width * 4) % U32_MOD⟩)
        else none
      | some dst =>
        if ∀ e ∈ writes, e.1 < dst.length then
          some ({ s1 with rgba_buffer := some (store_all dst writes) },
                some ⟨store_all dst writes, width, height, (width * 4) % U32_MOD⟩)
        else none

/-- The statics of `PresentFrame` are consistent: `rgba_buffer_size` is the byte size of
the allocation `rgba_buffer` points to, and 0 when there is none. -/
def present_valid (s : PresentState) : Prop :=
  match s.rgba_buffer with
  | none => s.rgba_buffer_size = 0
  | some dst => s.rgba_buffer_size = 4 * dst.length

/-! ## Memory regions and snapshots (`src/cytrus_memory.cpp`) -/

/-- The libretro constant `RETRO_MEMORY_RTC`. -/
def RETRO_MEMORY_RTC : Nat := 1

/-- The `struct memory_region`; `data` is `none` for `nullptr`, else the address. -/
structure memory_region where
  data : Option Nat
  size : Nat
  name : String
deriving DecidableEq

/-- The static variables of `cytrus_memory.cpp`.  The vector `save_state_buffer` is its
`size()` together with the bytes of its storage; `memory_regions` maps an index of the
array (0 to 3) to its entry. -/
structure MemoryState where
  save_state_buffer : Mem
  save_state_buffer_size : Nat
  max_save_state_size : Nat
  memory_regions : Nat → memory_region

/-- The static initialiser of `memory_regions`. -/
def memory_regions_initial : Nat → memory_region
  | 0 => ⟨none, 0, "System RAM"⟩
  | 1 => ⟨none, 0, "VRAM"⟩
  | 2 => ⟨none, 0, "DSP RAM"⟩
  | _ => ⟨none, 0, "Save RAM"⟩

/-- The static initialisers of `cytrus_memory.cpp`. -/
def memory_initial : MemoryState :=
  { save_state_buffer := fun _ => 0, save_state_buffer_size := 0, max_save_state_size := 0,
    memory_regions := memory_regions_initial }

/-- The function `cytrus_memory_init`; `reserve` leaves the size of the vector as it is. -/
def cytrus_memory_init (s : MemoryState) : MemoryState × Bool :=
  ({ s with max_save_state_size := 64 * 1024 * 1024 }, true)

/-- The function `cytrus_memory_deinit`: `save_state_buffer.clear()`. -/
def cytrus_memory_deinit (s : MemoryState) : MemoryState :=
  { s with save_state_buffer_size := 0 }

/-- The function `cytrus_memory_serialize_size`. -/
def cytrus_memory_serialize_size (powered_on : Bool) (s : MemoryState) : Nat :=
  if !powered_on then 0 else s.max_save_state_size

/-- The call `save_state_buffer.resize(size)`: elements added to the vector are zero. -/
def save_state_buffer_resize (s : MemoryState) (size : Nat) : MemoryState :=
  { s with save_state_buffer := fun i =>
             if s.save_state_buffer_size ≤ i ∧ i < size then 0 else s.save_state_buffer i,
           save_state_buffer_size := size }

/-- The function `cytrus_memory_create_snapshot`. -/
def cytrus_memory_create_snapshot (powered_on : Bool) (s : MemoryState) : MemoryState × Bool :=
  let size := cytrus_memory_serialize_size powered_on s
  if size = 0 then (s, false)
  else
    let s1 := save_state_buffer_resize s size
    let r := cytrus_memory_serialize powered_on (some s1.save_state_buffer) size
    ({ s1 with save_state_buffer := r.2.getD s1.save_state_buffer }, r.1)

/-- The function `cytrus_memory_restore_snapshot`. -/
def cytrus_memory_restore_snapshot (powered_on : Bool) (s : MemoryState) : Bool :=
  if s.save_state_buffer_size = 0 then false
  else cytrus_memory_unserialize powered_on (some s.save_state_buffer) s.save_state_buffer_size

/-- A buffer of `0xAA` bytes, to tell written bytes from untouched ones. -/
def sample_fill : Mem := fun _ => 0xAA

/-! ## Host samples for the button masks -/

/-- The host sample in which player 0 holds the joypad button `button` and nothing else is
pressed or deflected. -/
def sample_button_held (button : Nat) : InputStateCb :=
  fun player device _ id =>
    if player = 0 ∧ device = RETRO_DEVICE_JOYPAD ∧ id = button then 1 else 0

/-! ## Core options and advertised geometry (`src/libretro_core.cpp`,
`src/cytrus_libretro_core.cpp`) -/

/-- The values of `Settings::LayoutOption` that `set_variable` stores. -/
inductive LayoutOption where
  | TopBottom
  | SideBySide
  | SingleScreen
deriving DecidableEq

/-- The statics `frame_width` and `frame_height` of a core file and the settings
`set_variable` writes.  `resolution_factor` holds the `int` handed to `SetValue`. -/
structure CoreState where
  frame_width : Nat
  frame_height : Nat
  use_cpu_jit : Bool
  is_new_3ds : Bool
  use_hw_shader : Bool
  resolution_factor : Int
  layout_option : LayoutOption

/-- The conversion of an `int` result to `unsigned`. -/
def to_unsigned (v : Int) : Nat := (v % (U32_MOD : Int)).toNat

/-- The C library function `atoi`: leading white space, an optional sign, then decimal
digits up to the first other character. -/
def atoi (str : String) : Int :=
  let cs := str.toList.dropWhile Char.isWhitespace
  let signed : Bool × List Char :=
    match cs with
    | '-' :: rest => (true, rest)
    | '+' :: rest => (false, rest)
    | rest => (false, rest)
  let value : Nat := (signed.2.takeWhile Char.isDigit).foldl (fun a c => 10 * a + (c.toNat - 48)) 0
  if signed.1 then -(value : Int) else (value : Int)

/-- The test `strcmp(Settings::values.layout_option.GetValue(), name) == 0` on the stored
layout: the stored value answers to the option string it was set from (`top_only` and
`bottom_only` both store `SingleScreen`, which answers to neither `left_right` nor
`top_bottom`). -/
def layout_option_is (stored : LayoutOption) (name : String) : Bool :=
  (name == "left_right" && stored == LayoutOption.SideBySide) ||
  (name == "top_bottom" && stored == LayoutOption.TopBottom)

/-- The three option blocks `cytrus_cpu_jit`, `cytrus_is_new_3ds`, `cytrus_use_hw_shader`,
the same in both core files.  `environ_cb` maps a key to the value of the variable;
`none` when the call fails or the value is null. -/
def set_switches (environ_cb : String → Option String) (s : CoreState) : CoreState :=
  let s1 := match environ_cb "cytrus_cpu_jit" with
    | some value => { s with use_cpu_jit := value == "enabled" }
    | none => s
  let s2 := match environ_cb "cytrus_is_new_3ds" with
    | some value => { s1 with is_new_3ds := value == "enabled" }
    | none => s1
  match environ_cb "cytrus_use_hw_shader" with
  | some value => { s2 with use_hw_shader := value == "enabled" }
  | none => s2

/-- The function `set_variable` of `src/libretro_core.cpp`. -/
def libretro_core.set_variable (environ_cb : String → Option String) (s : CoreState) :
    CoreState × Bool :=
  let s0 := set_switches environ_cb s
  let s1 := match environ_cb "cytrus_resolution_factor" with
    | some value =>
      let factor := atoi value
      let frame_width := to_unsigned (400 * factor)
      let frame_height := to_unsigned (240 * factor)
      { s0 with resolution_factor := factor,
                frame_width := if layout_option_is s0.layout_option "left_right"
                               then (frame_width * 2) % U32_MOD else frame_width,
                frame_height := frame_height }
    | none => s0
  let s2 := match environ_cb "cytrus_layout_option" with
    | some value =>
      if value == "left_right" then
        { s1 with layout_option := LayoutOption.SideBySide,
                  frame_width := to_unsigned (400 * s1.resolution_factor * 2),
                  frame_height := to_unsigned (240 * s1.resolution_factor) }
      else if value == "top_bottom" then
        { s1 with layout_option := LayoutOption.TopBottom,
                  frame_width := to_unsigned (400 * s1.resolution_factor),
                  frame_height := to_unsigned (240 * s1.resolution_factor * 2) }
      else if value == "top_only" then
        { s1 with layout_option := LayoutOption.SingleScreen,
                  frame_width := to_unsigned (400 * s1.resolution_factor),
                  frame_height := to_unsigned (240 * s1.resolution_factor) }
      else if value == "bottom_only" then
        { s1 with layout_option := LayoutOption.SingleScreen,
                  frame_width := to_unsigned (320 * s1.resolution_factor),
                  frame_height := to_unsigned (240 * s1.resolution_factor) }
      else s1
    | none => s1
  (s2, true)

/-- The function `set_variable` of `src/cytrus_libretro_core.cpp`. -/
def cytrus_libretro_core.set_variable (environ_cb : String → Option String) (s : CoreState) :
    CoreState × Bool :=
  let s0 := set_switches environ_cb s
  let s1 := match environ_cb "cytrus_resolution_factor" with
    | some value =>
      let factor := atoi value
      let base_width : Int := 400
      let base_height : Int := 240
      if layout_option_is s0.layout_option "left_right" then
        { s0 with resolution_factor := factor,
                  frame_width := to_unsigned (base_width * factor * 2),
                  frame_height := to_unsigned (base_height * factor) }
      else if layout_option_is s0.layout_option "top_bottom" then
        { s0 with resolution_factor := factor,
                  frame_width := to_unsigned (base_width * factor),
                  frame_height := to_unsigned (base_height * factor * 2) }
      else
        { s0 with resolution_factor := factor,
                  frame_width := to_unsigned (base_width * factor),
                  frame_height := to_unsigned (base_height * factor) }
    | none => s0
  let s2 := match environ_cb "cytrus_layout_option" with
    | some value =>
      if value == "left_right" then { s1 with layout_option := LayoutOption.SideBySide }
      else if value == "top_bottom" then { s1 with layout_option := LayoutOption.TopBottom }
      else if value == "top_only" then { s1 with layout_option := LayoutOption.SingleScreen }
      else if value == "bottom_only" then { s1 with layout_option := LayoutOption.SingleScreen }
      else s1
    | none => s1
  (s2, true)

/-- The statics of `src/libretro_core.cpp` after `retro_init`: `frame_width = 800`,
`frame_height = 240`, resolution factor 1, layout `TopBottom`. -/
def libretro_core.core_initial : CoreState :=
  { frame_width := 800, frame_height := 240, use_cpu_jit := true, is_new_3ds := false,
    use_hw_shader := true, resolution_factor := 1, layout_option := LayoutOption.TopBottom }

/-- The statics of `src/cytrus_libretro_core.cpp` after `retro_init`: `frame_width = 800`,
`frame_height = 480`, resolution factor 1, layout `TopBottom`. -/
def cytrus_libretro_core.core_initial : CoreState :=
  { frame_width := 800, frame_height := 480, use_cpu_jit := true, is_new_3ds := false,
    use_hw_shader := true, resolution_factor := 1, layout_option := LayoutOption.TopBottom }

/-- The host's variables when the layout option has value `layout` and the resolution
factor has the decimal digit `f`. -/
def host_options (layout : String) (f : Nat) : String → Option String :=
  fun key =>
    if key == "cytrus_resolution_factor" then some (String.singleton (Char.ofNat (48 + f)))
    else if key == "cytrus_layout_option" then some layout
    else none

/-- The layout of the compositor that an option value selects. -/
def layout_of_option (value : String) : Option ScreenLayout :=
  if value == "left_right" then some ScreenLayout.SideBySide
  else if value == "top_bottom" then some ScreenLayout.TopBottom
  else if value == "top_only" then some ScreenLayout.TopOnly
  else if value == "bottom_only" then some ScreenLayout.BottomOnly
  else none

/-- The geometry `src/libretro_core.cpp` advertises once `set_variable` has read the
host's options `layout` and `f`. -/
def libretro_core.advertised (layout : String) (f : Nat) : Nat × Nat :=
  let s := (libretro_core.set_variable (host_options layout f) libretro_core.core_initial).1
  (s.frame_width, s.frame_height)

/-- The geometry `src/cytrus_libretro_core.cpp` advertises once `set_variable` has read
the host's options `layout` and `f` `calls` times in a row. -/
def cytrus_libretro_core.advertised (calls : Nat) (layout : String) (f : Nat) : Nat × Nat :=
  let s := (List.range calls).foldl
    (fun s _ => (cytrus_libretro_core.set_variable (host_options layout f) s).1)
    cytrus_libretro_core.core_initial
  (s.frame_width, s.frame_height)

/-- The output dimensions the compositor reports after a successful `cytrus_video_init`
with scale `f` in the layout `layout`. -/
def compositor_dimensions (layout : ScreenLayout) (f : Nat) : Nat × Nat :=
  cytrus_video_get_dimensions
    (cytrus_video_init true { video_initial with current_layout := layout } 800 480 f).1

/-! # Theorems -/

/-! ## Audio batcher: facts about the fill loop -/

theorem copy_chunk_buffer_pos {α : Type} (conv : α → Int) (chunk : List α) :
    ∀ s : AudioState, (copy_chunk conv s chunk).buffer_pos = s.buffer_pos + chunk.length := by
  induction chunk with
  | nil => intro s; simp [copy_chunk]
  | cons x xs ih =>
    intro s
    have h := ih { s with audio_buffer := Function.update s.audio_buffer s.buffer_pos
                            (apply_volume s.volume (conv x)),
                          buffer_pos := s.buffer_pos + 1 }
    simp only [copy_chunk, List.foldl_cons, List.length_cons] at h ⊢
    rw [h]; omega

theorem copy_chunk_calls {α : Type} (conv : α → Int) (chunk : List α) :
    ∀ s : AudioState, (copy_chunk conv s chunk).calls = s.calls := by
  induction chunk with
  | nil => intro s; simp [copy_chunk]
  | cons x xs ih =>
    intro s
    have h := ih { s with audio_buffer := Function.update s.audio_buffer s.buffer_pos
                            (apply_volume s.volume (conv x)),
                          buffer_pos := s.buffer_pos + 1 }
    simp only [copy_chunk, List.foldl_cons] at h ⊢
    rw [h]

theorem size_sub_buffer (p : Nat) (hp : p ≤ BUFFER_SIZE) :
    size_sub BUFFER_SIZE p = BUFFER_SIZE - p := by
  simp only [size_sub, SIZE_MOD, BUFFER_SIZE] at *
  omega

theorem send_if_full_of_lt (s : AudioState) (h : s.buffer_pos < BUFFER_SIZE) :
    send_if_full s = s := by
  simp [send_if_full, Nat.not_le.mpr h]

theorem send_if_full_pos_of_ge (s : AudioState) (h : BUFFER_SIZE ≤ s.buffer_pos) :
    (send_if_full s).buffer_pos = 0 := by
  have h' : 1024 ≤ s.buffer_pos := h
  simp [send_if_full, h', BUFFER_SIZE]

theorem send_if_full_calls_of_ge (s : AudioState) (h : BUFFER_SIZE ≤ s.buffer_pos) :
    (send_if_full s).calls = s.calls ++ [⟨(List.range 1024).map s.audio_buffer, 512⟩] := by
  have h' : 1024 ≤ s.buffer_pos := h
  simp [send_if_full, h', audio_sample_batch, BUFFER_SIZE, CHANNELS]

/-- Starting below capacity, the fill loop consumes its whole input within
`samples.length` iterations, sends one full batch of 512 frames each time the position
reaches 1024, and leaves `(buffer_pos + n) % 1024` samples buffered. -/
theorem process_loop_batches {α : Type} (conv : α → Int) :
    ∀ (fuel : Nat) (s : AudioState) (samples : List α),
      s.buffer_pos < BUFFER_SIZE → samples.length ≤ fuel →
      ∃ (s' : AudioState) (new : List AudioBatch),
        process_loop conv fuel s samples = some s' ∧
        s'.buffer_pos = (s.buffer_pos + samples.length) % 1024 ∧
        s'.calls = s.calls ++ new ∧
        new.length = (s.buffer_pos + samples.length) / 1024 ∧
        ∀ b ∈ new, b.frames = 512 ∧ b.data.length = 1024 := by
  intro fuel
  induction fuel with
  | zero =>
    intro s samples hp hlen
    have hnil : samples = [] := List.length_eq_zero.mp (Nat.le_zero.mp hlen)
    subst hnil
    refine ⟨s, [], by simp [process_loop], ?_, by simp, ?_, by simp⟩
    · simp only [BUFFER_SIZE] at hp; simp; omega
    · simp only [BUFFER_SIZE] at hp; simp; omega
  | succ fuel ih =>
    intro s samples hp hlen
    cases samples with
    | nil =>
      refine ⟨s, [], by simp [process_loop], ?_, by simp, ?_, by simp⟩
      · simp only [BUFFER_SIZE] at hp; simp; omega
      · simp only [BUFFER_SIZE] at hp; simp; omega
    | cons x rest =>
      have hsub := size_sub_buffer s.buffer_pos (Nat.le_of_lt hp)
      simp only [process_loop, hsub]
      have hB : BUFFER_SIZE = 1024 := rfl
      simp only [List.length_cons] at hlen ⊢
      by_cases hfit : rest.length + 1 < BUFFER_SIZE - s.buffer_pos
      · -- the rest of the input fits: no batch is sent
        simp only [hfit, if_true]
        have htake : List.take (rest.length + 1) (x :: rest) = x :: rest := by
          apply List.take_of_length_le; simp
        have hdrop : List.drop (rest.length + 1) (x :: rest) = [] := by
          apply List.drop_of_length_le; simp
        rw [htake, hdrop]
        have hpos := copy_chunk_buffer_pos conv (x :: rest) s
        simp only [List.length_cons] at hpos
        have hlt : (copy_chunk conv s (x :: rest)).buffer_pos < BUFFER_SIZE := by omega
        refine ⟨copy_chunk conv s (x :: rest), [], ?_, ?_, ?_, ?_, by simp⟩
        · simp [send_if_full_of_lt _ hlt, process_loop]
        · rw [hpos]; omega
        · simp [copy_chunk_calls]
        · simp; omega
      · -- the buffer fills up: one batch, then the loop goes on from position 0
        simp only [hfit, if_false]
        set k := BUFFER_SIZE - s.buffer_pos with hk
        set chunk := List.take k (x :: rest) with hchunk
        have hchunk_len : chunk.length = k := by
          rw [hchunk, List.length_take]; simp only [List.length_cons]; omega
        have hpos := copy_chunk_buffer_pos conv chunk s
        rw [hchunk_len] at hpos
        have hfull : BUFFER_SIZE ≤ (copy_chunk conv s chunk).buffer_pos := by omega
        have hdrop_len : (List.drop k (x :: rest)).length = rest.length + 1 - k := by
          simp [List.length_drop]
        have hpos0 := send_if_full_pos_of_ge _ hfull
        have hcalls := send_if_full_calls_of_ge _ hfull
        obtain ⟨s', new, hrun, hp', hc', hn', hb'⟩ :=
          ih (send_if_full (copy_chunk conv s chunk)) (List.drop k (x :: rest))
            (by rw [hpos0, hB]; omega) (by rw [hdrop_len]; omega)
        rw [hpos0] at hp' hn'
        rw [hcalls, copy_chunk_calls] at hc'
        refine ⟨s', ⟨(List.range 1024).map (copy_chunk conv s chunk).audio_buffer, 512⟩ :: new,
          hrun, ?_, ?_, ?_, ?_⟩
        · rw [hp', hdrop_len]; omega
        · rw [hc']; simp
        · simp only [List.length_cons, hn', hdrop_len]; omega
        · intro b hb
          rcases List.mem_cons.mp hb with h | h
          · subst h; simp
          · exact hb' b h

theorem send_if_full_pos_lt (s : AudioState) : (send_if_full s).buffer_pos < BUFFER_SIZE := by
  by_cases h : BUFFER_SIZE ≤ s.buffer_pos
  · rw [send_if_full_pos_of_ge s h]; decide
  · rw [send_if_full_of_lt s (Nat.not_le.mp h)]; exact Nat.not_le.mp h

/-- From every state, `samples.length + 1` iterations are enough for the fill loop. -/
theorem process_loop_terminates {α : Type} (conv : α → Int) (s : AudioState)
    (samples : List α) :
    ∃ s' : AudioState, process_loop conv (samples.length + 1) s samples = some s' := by
  cases samples with
  | nil => exact ⟨s, by simp [process_loop]⟩
  | cons x rest =>
    simp only [process_loop, List.length_cons]
    set space_left := size_sub BUFFER_SIZE s.buffer_pos with hsl
    set k := (if rest.length + 1 < space_left then rest.length + 1 else space_left) with hk
    have hpos := send_if_full_pos_lt (copy_chunk conv s (List.take k (x :: rest)))
    have hlen : (List.drop k (x :: rest)).length ≤ rest.length + 1 := by
      simp [List.length_drop]
    obtain ⟨s', _, hrun, _⟩ :=
      process_loop_batches conv (rest.length + 1) _ (List.drop k (x :: rest)) hpos hlen
    exact ⟨s', hrun⟩

/-- A muted state is returned unchanged by `cytrus_audio_process_samples`. -/
theorem process_samples_of_muted (s : AudioState) (hmute : s.audio_muted = true)
    (samples : List Int) : cytrus_audio_process_samples s samples = some s := by
  simp [cytrus_audio_process_samples, hmute]

/-- A muted state is returned unchanged by `cytrus_audio_process_float_samples`. -/
theorem process_float_samples_of_muted (s : AudioState) (hmute : s.audio_muted = true)
    (samples : List ℚ) : cytrus_audio_process_float_samples s samples = some s := by
  simp [cytrus_audio_process_float_samples, hmute]

/-! ## Audio batcher: the claims -/

/-- C1: with audio initialised, not muted, the host batch callback set and the buffer
empty, `cytrus_audio_process_samples` on `n` samples returns, having invoked the host
callback exactly `n / 1024` times, every time with frame count 512 (1024 samples), and
leaves exactly `n % 1024` samples buffered; so 1024 samples give one callback and an
empty buffer, and 1026 samples give one callback and 2 buffered samples. -/
theorem process_samples_batches (s : AudioState) (samples : List Int)
    (hinit : s.audio_initialized = true) (hmute : s.audio_muted = false)
    (hcb : s.audio_sample_batch_cb = true) (hempty : s.buffer_pos = 0) :
    ∃ (s' : AudioState) (new : List AudioBatch),
      cytrus_audio_process_samples s samples = some s' ∧
      s'.calls = s.calls ++ new ∧
      new.length = samples.length / 1024 ∧
      (∀ b ∈ new, b.frames = 512 ∧ b.data.length = 1024) ∧
      s'.buffer_pos = samples.length % 1024 ∧
      (samples.length = 1024 → new.length = 1 ∧ s'.buffer_pos = 0) ∧
      (samples.length = 1026 → new.length = 1 ∧ s'.buffer_pos = 2) := by
  obtain ⟨s', new, hrun, hp, hc, hn, hb⟩ :=
    process_loop_batches id (samples.length + 1) s samples (by rw [hempty]; decide)
      (Nat.le_succ _)
  rw [hempty, Nat.zero_add] at hp hn
  refine ⟨s', new, ?_, hc, hn, hb, hp, ?_, ?_⟩
  · simp [cytrus_audio_process_samples, hinit, hmute, hcb, hrun]
  · intro h; rw [hn, hp, h]; exact ⟨rfl, rfl⟩
  · intro h; rw [hn, hp, h]; exact ⟨rfl, rfl⟩

/-- Witness of C1: 1026 samples into the freshly initialised buffer give exactly one
callback, of 512 frames, and leave 2 samples buffered. -/
theorem process_samples_batches_witness :
    ∃ (s' : AudioState) (b : AudioBatch),
      cytrus_audio_process_samples audio_ready (List.replicate 1026 7) = some s' ∧
      s'.calls = [b] ∧ b.frames = 512 ∧ s'.buffer_pos = 2 := by
  obtain ⟨s', new, hrun, hcalls, _, hb, _, _, h1026⟩ :=
    process_samples_batches audio_ready (List.replicate 1026 7) rfl rfl rfl rfl
  obtain ⟨hlen, hpos⟩ := h1026 (List.length_replicate 1026 7)
  obtain ⟨b, rfl⟩ := List.length_eq_one.mp hlen
  exact ⟨s', b, hrun, by simpa [audio_ready, audio_initial, cytrus_audio_init] using hcalls,
    (hb b (by simp)).1, hpos⟩

/-- C3: while mute is enabled, `cytrus_audio_process_samples` and
`cytrus_audio_process_float_samples` return at once with the state unchanged, whatever
the samples: no host callback is made and nothing is buffered. -/
theorem muted_process_is_noop (s : AudioState) (hmute : s.audio_muted = true)
    (samples : List Int) (fsamples : List ℚ) :
    cytrus_audio_process_samples s samples = some s ∧
    cytrus_audio_process_float_samples s fsamples = some s :=
  ⟨process_samples_of_muted s hmute samples, process_float_samples_of_muted s hmute fsamples⟩

/-- Witness of C3: the initialised state with the callback set, muted. -/
theorem muted_process_is_noop_witness :
    cytrus_audio_process_samples (cytrus_audio_set_muted audio_ready true) [100, -100, 7]
      = some (cytrus_audio_set_muted audio_ready true) ∧
    cytrus_audio_process_float_samples (cytrus_audio_set_muted audio_ready true) [1, -1 / 2]
      = some (cytrus_audio_set_muted audio_ready true) :=
  muted_process_is_noop (cytrus_audio_set_muted audio_ready true) rfl [100, -100, 7] [1, -1 / 2]

/-- C4: mute round trip.  Muting, submitting `xs`, unmuting and submitting `ys` ends in
exactly the state (host callback trace, buffer contents, buffered count) that submitting
`ys` to the unmuted state reaches, and that submission returns. -/
theorem mute_round_trip (S : AudioState) (xs ys : List Int) :
    (cytrus_audio_process_samples (cytrus_audio_set_muted S true) xs).bind
        (fun s1 => cytrus_audio_process_samples (cytrus_audio_set_muted s1 false) ys)
      = cytrus_audio_process_samples (cytrus_audio_set_muted S false) ys ∧
    (∃ s' : AudioState,
      cytrus_audio_process_samples (cytrus_audio_set_muted S false) ys = some s') ∧
    (S.audio_muted = false → cytrus_audio_set_muted S false = S) := by
  refine ⟨?_, ?_, ?_⟩
  · rw [process_samples_of_muted (cytrus_audio_set_muted S true) rfl xs]
    rfl
  · unfold cytrus_audio_process_samples
    split
    · exact ⟨_, rfl⟩
    · exact process_loop_terminates id _ ys
  · intro h
    cases S
    simp_all [cytrus_audio_set_muted]

/-! ## Video compositor: output dimensions -/

theorem video_init_dimensions (malloc_ok : Bool) (s : VideoState) (w h scale : Nat) :
    cytrus_video_get_dimensions (cytrus_video_init malloc_ok s w h scale).1
      = layout_dimensions s.current_layout (scale % U32_MOD) := by
  cases malloc_ok <;> cases hl : s.current_layout <;>
    simp [cytrus_video_init, cytrus_video_get_dimensions, layout_dimensions, hl]

theorem video_init_layout (malloc_ok : Bool) (s : VideoState) (w h scale : Nat) :
    (cytrus_video_init malloc_ok s w h scale).1.current_layout = s.current_layout := by
  cases malloc_ok <;> simp [cytrus_video_init]

theorem video_init_scale (malloc_ok : Bool) (s : VideoState) (w h scale : Nat) :
    (cytrus_video_init malloc_ok s w h scale).1.resolution_scale = scale % U32_MOD := by
  cases malloc_ok <;> simp [cytrus_video_init]

/-- C5: for every scale in 1..8 and every layout, after
`cytrus_video_set_resolution_scale` and `cytrus_video_set_layout` in either order (from any
state, whether or not the allocations succeed), `cytrus_video_get_dimensions` returns
`(400 s, 480 s)` for TopBottom, `(720 s, 240 s)` for SideBySide, `(400 s, 240 s)` for
TopOnly and `(320 s, 240 s)` for BottomOnly. -/
theorem configured_dimensions (m1 m2 : Bool) (s0 : VideoState) (scale : Nat)
    (layout : ScreenLayout) (hscale : 1 ≤ scale ∧ scale ≤ 8) :
    cytrus_video_get_dimensions
        (cytrus_video_set_layout m2 (cytrus_video_set_resolution_scale m1 s0 scale) layout)
      = (match layout with
         | ScreenLayout.TopBottom => (400 * scale, 480 * scale)
         | ScreenLayout.SideBySide => (720 * scale, 240 * scale)
         | ScreenLayout.TopOnly => (400 * scale, 240 * scale)
         | ScreenLayout.BottomOnly => (320 * scale, 240 * scale)) ∧
    cytrus_video_get_dimensions
        (cytrus_video_set_resolution_scale m2 (cytrus_video_set_layout m1 s0 layout) scale)
      = (match layout with
         | ScreenLayout.TopBottom => (400 * scale, 480 * scale)
         | ScreenLayout.SideBySide => (720 * scale, 240 * scale)
         | ScreenLayout.TopOnly => (400 * scale, 240 * scale)
         | ScreenLayout.BottomOnly => (320 * scale, 240 * scale)) := by
  obtain ⟨h1, h8⟩ := hscale
  have hmod : scale % U32_MOD = scale := Nat.mod_eq_of_lt (by simp only [U32_MOD]; omega)
  have hdims : layout_dimensions layout scale
      = (match layout with
         | ScreenLayout.TopBottom => (400 * scale, 480 * scale)
         | ScreenLayout.SideBySide => (720 * scale, 240 * scale)
         | ScreenLayout.TopOnly => (400 * scale, 240 * scale)
         | ScreenLayout.BottomOnly => (320 * scale, 240 * scale)) := by
    cases layout <;>
      simp only [layout_dimensions, TOP_SCREEN_WIDTH, TOP_SCREEN_HEIGHT, BOTTOM_SCREEN_WIDTH,
        BOTTOM_SCREEN_HEIGHT, U32_MOD, Prod.mk.injEq] <;>
      omega
  constructor
  · rw [← hdims]
    simp only [cytrus_video_set_layout, cytrus_video_set_resolution_scale, h1, h8, and_self,
      ge_iff_le, if_true]
    rw [video_init_dimensions, video_init_scale, hmod, hmod]
  · rw [← hdims]
    simp only [cytrus_video_set_layout, cytrus_video_set_resolution_scale, h1, h8, and_self,
      ge_iff_le, if_true]
    rw [video_init_dimensions, hmod, video_init_layout]

/-- Witness of C5: scale 2 with SideBySide gives width `(400 + 320) * 2 = 1440` and height
`240 * 2 = 480`. -/
theorem configured_dimensions_witness :
    cytrus_video_get_dimensions
        (cytrus_video_set_layout true
          (cytrus_video_set_resolution_scale true video_initial 2) ScreenLayout.SideBySide)
      = (1440, 480) ∧
    cytrus_video_get_dimensions
        (cytrus_video_set_resolution_scale true
          (cytrus_video_set_layout true video_initial ScreenLayout.SideBySide) 2)
      = (1440, 480) :=
  configured_dimensions true true video_initial 2 ScreenLayout.SideBySide (by decide)

/-! ## State container codec: header round trip -/

theorem demo_bytes_length : demo_bytes.length = 22 := by decide

/-- The header fields read back from memory into which a header was copied at offset 0,
whatever was copied behind the header afterwards. -/
theorem read_header_after_copy (m : Mem) (h : save_state_header) (rest : Mem → Mem)
    (hrest : ∀ (m0 : Mem) (i : Nat), i < 16 → rest m0 i = m0 i) :
    read_header (rest (mem_copy m 0 (header_bytes h)))
      = { magic := h.magic % U32_MOD, version := h.version % U32_MOD,
          size := h.size % U32_MOD, crc := h.crc % U32_MOD } := by
  simp only [read_header, read_le32, save_state_header.mk.injEq]
  simp only [hrest _ _ (by norm_num : (0:Nat) < 16), hrest _ _ (by norm_num : (0:Nat) + 1 < 16),
    hrest _ _ (by norm_num : (0:Nat) + 2 < 16), hrest _ _ (by norm_num : (0:Nat) + 3 < 16),
    hrest _ _ (by norm_num : (4:Nat) < 16), hrest _ _ (by norm_num : (4:Nat) + 1 < 16),
    hrest _ _ (by norm_num : (4:Nat) + 2 < 16), hrest _ _ (by norm_num : (4:Nat) + 3 < 16),
    hrest _ _ (by norm_num : (8:Nat) < 16), hrest _ _ (by norm_num : (8:Nat) + 1 < 16),
    hrest _ _ (by norm_num : (8:Nat) + 2 < 16), hrest _ _ (by norm_num : (8:Nat) + 3 < 16),
    hrest _ _ (by norm_num : (12:Nat) < 16), hrest _ _ (by norm_num : (12:Nat) + 1 < 16),
    hrest _ _ (by norm_num : (12:Nat) + 2 < 16), hrest _ _ (by norm_num : (12:Nat) + 3 < 16)]
  simp only [mem_copy, header_bytes, le32_bytes, U32_MOD]
  simp
  refine ⟨?_, ?_, ?_, ?_⟩ <;> omega

theorem serialize_eq (m : Mem) (size : Nat) (hsize : size ≠ 0) :
    cytrus_memory_serialize true (some m) size = (true, some (serialized_memory m size)) := by
  simp [cytrus_memory_serialize, serialized_memory, hsize]

theorem read_header_serialized (m : Mem) (size : Nat) :
    read_header (serialized_memory m size)
      = { magic := SAVE_STATE_MAGIC, version := 1,
          size := size_sub size HEADER_SIZE % U32_MOD, crc := 0 } := by
  have h := read_header_after_copy (mem_set m 0 size 0)
    { magic := SAVE_STATE_MAGIC, version := 1,
      size := size_sub size HEADER_SIZE % U32_MOD, crc := 0 }
    (fun m2 => if demo_bytes.length < size then mem_copy m2 HEADER_SIZE demo_bytes else m2)
    (by
      intro m0 i hi
      split
      · simp only [mem_copy, HEADER_SIZE]
        rw [if_neg (by omega)]
      · rfl)
  simp only [serialized_memory]
  rw [h]
  simp [SAVE_STATE_MAGIC, U32_MOD]

/-- The four magic bytes of a produced container: `43 53 54 53`, "CSTS" in memory order. -/
theorem serialized_magic_bytes (m : Mem) (size : Nat) :
    serialized_memory m size 0 = 0x43 ∧ serialized_memory m size 1 = 0x53 ∧
    serialized_memory m size 2 = 0x54 ∧ serialized_memory m size 3 = 0x53 := by
  have hm : le32_bytes SAVE_STATE_MAGIC = [0x43, 0x53, 0x54, 0x53] := by
    simp only [le32_bytes, SAVE_STATE_MAGIC]
  simp only [serialized_memory, header_bytes, hm]
  split <;>
    simp [mem_copy, HEADER_SIZE, le32_bytes]

theorem magic_mismatch (m : Mem)
    (h : ¬ (m 0 % 256 = 0x43 ∧ m (0 + 1) % 256 = 0x53 ∧ m (0 + 2) % 256 = 0x54 ∧
            m (0 + 3) % 256 = 0x53)) :
    (read_header m).magic ≠ SAVE_STATE_MAGIC := by
  simp only [read_header, read_le32, SAVE_STATE_MAGIC]
  omega

/-- C7: in a buffer produced by `cytrus_memory_serialize` (capacity `N ≥ 16`), changing
any one of the four magic bytes (offsets 0..3) to a different byte value makes
`cytrus_memory_unserialize` return false. -/
theorem corrupted_magic_rejected (m m' : Mem) (N : Nat) (h16 : 16 ≤ N)
    (hser : (cytrus_memory_serialize true (some m) N).2 = some m')
    (i : Nat) (hi : i < 4) (v : Nat) (hv : v < 256) (hne : v ≠ m' i) :
    cytrus_memory_unserialize true (some (Function.update m' i v)) N = false := by
  have hN : N ≠ 0 := by omega
  rw [serialize_eq m N hN] at hser
  simp only [Option.some.injEq] at hser
  obtain ⟨h0, h1, h2, h3⟩ := serialized_magic_bytes m N
  rw [hser] at h0 h1 h2 h3
  have hbad : (read_header (Function.update m' i v)).magic ≠ SAVE_STATE_MAGIC := by
    apply magic_mismatch
    rintro ⟨e0, e1, e2, e3⟩
    rw [Nat.zero_add] at e1 e2 e3
    interval_cases i
    · rw [Function.update_same] at e0; rw [h0] at hne; omega
    · rw [Function.update_same] at e1; rw [h1] at hne; omega
    · rw [Function.update_same] at e2; rw [h2] at hne; omega
    · rw [Function.update_same] at e3; rw [h3] at hne; omega
  simp [cytrus_memory_unserialize, hbad]

/-- Witness of C7: the first magic byte of a 64-byte container replaced by 0. -/
theorem corrupted_magic_rejected_witness :
    cytrus_memory_unserialize true
      (some (Function.update (serialized_memory (fun _ => 0) 64) 0 0)) 64 = false :=
  corrupted_magic_rejected (fun _ => 0) (serialized_memory (fun _ => 0) 64) 64 (by decide)
    (serialize_eq _ 64 (by decide) ▸ rfl) 0 (by decide) 0 (by decide) (by decide)

/-! ## Input aggregator: the deadzone block -/

section InputFacts

variable {F : Type} [LinearOrderedField F]

theorem range_four : List.range 4 = [0, 1, 2, 3] := by decide

/-- After a poll with both callbacks set, the analog pair of player `p`, stick `i` is the
deadzone block applied to the raw sample the host reports for that player and stick. -/
theorem poll_analog_value (sqrtf : F → F) (cb : InputStateCb) (s : InputState F)
    (p i : Nat) (hp : p < 4) (hi : i < 2) :
    ∃ s' : InputState F, cytrus_input_poll sqrtf true (some cb) s = some s' ∧
      cytrus_input_get_analog s' p i
        = apply_deadzone sqrtf (raw_analog cb p i).1 (raw_analog cb p i).2 := by
  refine ⟨(List.range 4).foldl (poll_player sqrtf cb) s, by simp [cytrus_input_poll], ?_⟩
  have hp' : ¬ ((p : Int) < 0 ∨ (p : Int) ≥ 4 ∨ (i : Int) < 0 ∨ (i : Int) ≥ 2) := by omega
  simp only [cytrus_input_get_analog, hp', if_false, Int.toNat_ofNat, range_four,
    List.foldl_cons, List.foldl_nil, raw_analog]
  interval_cases p <;> interval_cases i <;>
    simp [poll_player, poll_analog, analog_mappings, List.enum, List.enumFrom, set_analog,
      RETRO_DEVICE_INDEX_ANALOG_LEFT, RETRO_DEVICE_INDEX_ANALOG_RIGHT]

theorem real_isSqrt : IsSqrt Real.sqrt :=
  fun a ha => ⟨Real.sqrt_nonneg a, Real.mul_self_sqrt ha⟩

theorem IsSqrt.unique {sqrtf : F → F} (h : IsSqrt sqrtf) {a r : F} (hr : 0 ≤ r)
    (hrr : r * r = a) : sqrtf a = r := by
  have ha : 0 ≤ a := by rw [← hrr]; exact mul_self_nonneg r
  obtain ⟨h0, h1⟩ := h a ha
  exact (mul_self_inj h0 hr).mp (h1.trans hrr.symm)

theorem apply_deadzone_of_lt (sqrtf : F → F) (ax ay : Int)
    (h : sqrtf ((ax : F) / 32767 * ((ax : F) / 32767) + (ay : F) / 32767 * ((ay : F) / 32767))
          < 0.15) :
    apply_deadzone sqrtf ax ay = (0, 0) := by
  simp only [apply_deadzone, h, if_true]

theorem apply_deadzone_of_ge (sqrtf : F → F) (ax ay : Int)
    (h : ¬ sqrtf ((ax : F) / 32767 * ((ax : F) / 32767) + (ay : F) / 32767 * ((ay : F) / 32767))
          < 0.15) :
    apply_deadzone sqrtf ax ay =
      ((ax : F) / 32767
          / sqrtf ((ax : F) / 32767 * ((ax : F) / 32767) + (ay : F) / 32767 * ((ay : F) / 32767))
        * ((sqrtf ((ax : F) / 32767 * ((ax : F) / 32767) + (ay : F) / 32767 * ((ay : F) / 32767))
              - 0.15) / (1 - 0.15)),
       (ay : F) / 32767
          / sqrtf ((ax : F) / 32767 * ((ax : F) / 32767) + (ay : F) / 32767 * ((ay : F) / 32767))
        * ((sqrtf ((ax : F) / 32767 * ((ax : F) / 32767) + (ay : F) / 32767 * ((ay : F) / 32767))
              - 0.15) / (1 - 0.15))) := by
  simp only [apply_deadzone, h, if_false]

/-- C8: when the scaled magnitude `sqrtf((rx/32767)^2 + (ry/32767)^2)` of the raw sample
the host reports for a player and stick is strictly below the deadzone 0.15, the analog
value `cytrus_input_poll` stores for that player and stick is exactly `(0, 0)`, and so is
what the frontend's `GetCirclePad` / `GetCStick` return for player 0. -/
theorem deadzone_gives_zero (sqrtf : F → F) (cb : InputStateCb) (s : InputState F)
    (p i : Nat) (hp : p < 4) (hi : i < 2)
    (hmag : sqrtf ((((raw_analog cb p i).1 : F) / 32767) ^ 2
                    + (((raw_analog cb p i).2 : F) / 32767) ^ 2) < 0.15) :
    (∃ s' : InputState F, cytrus_input_poll sqrtf true (some cb) s = some s' ∧
      cytrus_input_get_analog s' p i = (0, 0)) ∧
    (p = 0 → i = 0 → GetCirclePad sqrtf (some cb) = (0, 0)) ∧
    (p = 0 → i = 1 → GetCStick sqrtf (some cb) = (0, 0)) := by
  rw [pow_two, pow_two] at hmag
  have hzero := apply_deadzone_of_lt sqrtf _ _ hmag
  refine ⟨?_, ?_, ?_⟩
  · obtain ⟨s', hs', hval⟩ := poll_analog_value sqrtf cb s p i hp hi
    exact ⟨s', hs', hval.trans hzero⟩
  · intro h0 h1
    subst h0; subst h1
    exact hzero
  · intro h0 h1
    subst h0; subst h1
    exact hzero

/-- Witness of C8: the raw sample `(4914, 0)` on the left stick of player 0, in real
arithmetic with the real square root, is stored and returned as `(0, 0)`. -/
theorem deadzone_gives_zero_witness :
    (∃ s' : InputState ℝ,
      cytrus_input_poll Real.sqrt true
          (some (fun _ _ _ id => if id = 0 then 4914 else 0)) input_initial = some s' ∧
      cytrus_input_get_analog s' (0 : Nat) (0 : Nat) = (0, 0)) ∧
    GetCirclePad Real.sqrt (some (fun _ _ _ id => if id = 0 then 4914 else 0)) = (0, 0) := by
  have hraw : raw_analog (fun _ _ _ id => if id = 0 then 4914 else 0) 0 0 = (4914, 0) := by
    decide
  have h := deadzone_gives_zero Real.sqrt (fun _ _ _ id => if id = 0 then 4914 else 0)
    input_initial 0 0 (by decide) (by decide)
    (by rw [hraw, Real.sqrt_lt' (by norm_num)]; norm_num)
  exact ⟨h.1, h.2.1 rfl rfl⟩

/-- The rescale branch of the deadzone block, for an exact square root: with
`m = sqrtf (x^2 + y^2) ≥ 0.15` and `sc = (m - 0.15) / (1 - 0.15)` the result is
`((x / m) * sc, (y / m) * sc)`, a non-negative multiple of `(x, y)` of magnitude `sc`. -/
theorem apply_deadzone_rescale (sqrtf : F → F) (hsqrt : IsSqrt sqrtf) (ax ay : Int)
    (x y m sc : F) (hx : x = (ax : F) / 32767) (hy : y = (ay : F) / 32767)
    (hm : m = sqrtf (x ^ 2 + y ^ 2)) (hsc : sc = (m - 0.15) / (1 - 0.15))
    (hge : 0.15 ≤ m) :
    apply_deadzone sqrtf ax ay = ((x / m) * sc, (y / m) * sc) ∧
    0 < m ∧ m * m = x ^ 2 + y ^ 2 ∧ 0 ≤ sc ∧
    (∃ c : F, 0 ≤ c ∧ apply_deadzone sqrtf ax ay = (c * x, c * y)) ∧
    sqrtf ((apply_deadzone sqrtf ax ay).1 ^ 2 + (apply_deadzone sqrtf ax ay).2 ^ 2) = sc := by
  have hq : (0 : F) ≤ x ^ 2 + y ^ 2 := by positivity
  obtain ⟨_, hmm⟩ := hsqrt (x ^ 2 + y ^ 2) hq
  rw [← hm] at hmm
  have hmpos : 0 < m := lt_of_lt_of_le (by norm_num) hge
  have hsc0 : 0 ≤ sc := by
    rw [hsc]
    apply div_nonneg
    · linarith
    · norm_num
  have hval : apply_deadzone sqrtf ax ay = ((x / m) * sc, (y / m) * sc) := by
    have hnot : ¬ sqrtf ((ax : F) / 32767 * ((ax : F) / 32767)
        + (ay : F) / 32767 * ((ay : F) / 32767)) < 0.15 := by
      rw [← hx, ← hy, ← pow_two, ← pow_two, ← hm]
      exact not_lt.mpr hge
    rw [apply_deadzone_of_ge sqrtf ax ay hnot, ← hx, ← hy, ← pow_two, ← pow_two, ← hm, ← hsc]
  refine ⟨hval, hmpos, hmm, hsc0, ⟨sc / m, div_nonneg hsc0 hmpos.le, ?_⟩, ?_⟩
  · rw [hval]
    congr 1 <;> field_simp <;> ring
  · rw [hval]
    apply hsqrt.unique hsc0
    have hm0 : m ≠ 0 := hmpos.ne'
    simp only
    field_simp
    have hm2 : m ^ 2 = x ^ 2 + y ^ 2 := by rw [pow_two, hmm]
    rw [hm2]
    ring

/-- For an exact square root and a raw sample inside the circle of radius 32767, both
components of the deadzone block's result lie in `[-1, 1]` and its magnitude in `[0, 1]`. -/
theorem apply_deadzone_bounded (sqrtf : F → F) (hsqrt : IsSqrt sqrtf) (ax ay : Int)
    (hunit : ax ^ 2 + ay ^ 2 ≤ 32767 ^ 2) :
    -1 ≤ (apply_deadzone sqrtf ax ay).1 ∧ (apply_deadzone sqrtf ax ay).1 ≤ 1 ∧
    -1 ≤ (apply_deadzone sqrtf ax ay).2 ∧ (apply_deadzone sqrtf ax ay).2 ≤ 1 ∧
    0 ≤ sqrtf ((apply_deadzone sqrtf ax ay).1 ^ 2 + (apply_deadzone sqrtf ax ay).2 ^ 2) ∧
    sqrtf ((apply_deadzone sqrtf ax ay).1 ^ 2 + (apply_deadzone sqrtf ax ay).2 ^ 2) ≤ 1 := by
  by_cases hlt : sqrtf ((ax : F) / 32767 * ((ax : F) / 32767)
      + (ay : F) / 32767 * ((ay : F) / 32767)) < 0.15
  · rw [apply_deadzone_of_lt sqrtf ax ay hlt]
    have h0 : sqrtf ((0 : F) ^ 2 + 0 ^ 2) = 0 :=
      hsqrt.unique (le_refl 0) (by norm_num)
    simp only [h0]
    norm_num
  · have hge : (0.15 : F) ≤ sqrtf (((ax : F) / 32767) ^ 2 + ((ay : F) / 32767) ^ 2) := by
      rw [pow_two, pow_two]; exact not_lt.mp hlt
    obtain ⟨hval, hmpos, hmm, hsc0, _, hmag⟩ :=
      apply_deadzone_rescale sqrtf hsqrt ax ay _ _ _ _ rfl rfl rfl rfl hge
    set x : F := (ax : F) / 32767 with hx
    set y : F := (ay : F) / 32767 with hy
    set m : F := sqrtf (x ^ 2 + y ^ 2) with hm
    set sc : F := (m - 0.15) / (1 - 0.15) with hsc
    have hcast : (ax : F) ^ 2 + (ay : F) ^ 2 ≤ 32767 ^ 2 := by exact_mod_cast hunit
    have hq : x ^ 2 + y ^ 2 ≤ 1 := by
      have : x ^ 2 + y ^ 2 = ((ax : F) ^ 2 + (ay : F) ^ 2) / 32767 ^ 2 := by
        rw [hx, hy]; ring
      rw [this, div_le_one (by norm_num)]
      exact hcast
    have hm1 : m ≤ 1 := by
      by_contra h
      push_neg at h
      have := mul_lt_mul'' h h (by norm_num) (by norm_num)
      linarith
    have hsc1 : sc ≤ 1 := by
      rw [hsc, div_le_one (by norm_num)]
      linarith
    have hx2 : x ^ 2 ≤ m ^ 2 := by
      rw [pow_two m, hmm]; linarith [sq_nonneg y]
    have hy2 : y ^ 2 ≤ m ^ 2 := by
      rw [pow_two m, hmm]; linarith [sq_nonneg x]
    have hxabs := abs_le_of_sq_le_sq' hx2 hmpos.le
    have hyabs := abs_le_of_sq_le_sq' hy2 hmpos.le
    have hxm : x ≤ m := hxabs.2
    have hxm' : -m ≤ x := hxabs.1
    have hym : y ≤ m := hyabs.2
    have hym' : -m ≤ y := hyabs.1
    have hx1 : x / m ≤ 1 := (div_le_one hmpos).mpr hxm
    have hx1' : -1 ≤ x / m := by rw [le_div_iff₀ hmpos]; linarith
    have hy1 : y / m ≤ 1 := (div_le_one hmpos).mpr hym
    have hy1' : -1 ≤ y / m := by rw [le_div_iff₀ hmpos]; linarith
    rw [hmag]
    rw [hval]
    have key : ∀ t : F, -1 ≤ t → t ≤ 1 → -1 ≤ t * sc ∧ t * sc ≤ 1 := by
      intro t ht ht'
      constructor
      · have := mul_le_mul_of_nonneg_right ht hsc0
        linarith
      · have := mul_le_mul_of_nonneg_right ht' hsc0
        linarith
    exact ⟨(key _ hx1' hx1).1, (key _ hx1' hx1).2, (key _ hy1' hy1).1, (key _ hy1' hy1).2,
      hsc0, hsc1⟩

/-- C9: deadzone rescale, for an exact square root.  When the scaled vector
`(x, y) = (rx / 32767, ry / 32767)` of the raw sample of a player and stick has magnitude
`m = sqrtf (x^2 + y^2) ≥ 0.15`, the value `cytrus_input_poll` stores is
`((x / m) * sc, (y / m) * sc)` with `sc = (m - 0.15) / (1 - 0.15)`; it is a non-negative
multiple of `(x, y)`, its magnitude is `sc`, a magnitude exactly at the deadzone boundary
maps to `(0, 0)`, and the full-scale sample `(32767, 0)` maps to `(1, 0)`. -/
theorem deadzone_rescales (sqrtf : F → F) (hsqrt : IsSqrt sqrtf) (cb : InputStateCb)
    (s : InputState F) (p i : Nat) (hp : p < 4) (hi : i < 2) (x y m sc : F)
    (hx : x = ((raw_analog cb p i).1 : F) / 32767)
    (hy : y = ((raw_analog cb p i).2 : F) / 32767)
    (hm : m = sqrtf (x ^ 2 + y ^ 2)) (hsc : sc = (m - 0.15) / (1 - 0.15))
    (hge : 0.15 ≤ m) :
    ∃ s' : InputState F, cytrus_input_poll sqrtf true (some cb) s = some s' ∧
      cytrus_input_get_analog s' p i = ((x / m) * sc, (y / m) * sc) ∧
      (∃ c : F, 0 ≤ c ∧ cytrus_input_get_analog s' p i = (c * x, c * y)) ∧
      sqrtf ((cytrus_input_get_analog s' p i).1 ^ 2 + (cytrus_input_get_analog s' p i).2 ^ 2)
        = sc ∧
      (m = 0.15 → cytrus_input_get_analog s' p i = (0, 0)) ∧
      (raw_analog cb p i = (32767, 0) → cytrus_input_get_analog s' p i = (1, 0)) := by
  obtain ⟨s', hs', hval⟩ := poll_analog_value sqrtf cb s p i hp hi
  obtain ⟨hout, hmpos, hmm, _, hdir, hmag⟩ :=
    apply_deadzone_rescale sqrtf hsqrt _ _ x y m sc hx hy hm hsc hge
  refine ⟨s', hs', ?_, ?_, ?_, ?_, ?_⟩
  · rw [hval, hout]
  · rw [hval]; exact hdir
  · rw [hval]; exact hmag
  · intro hb
    have hsc0 : sc = 0 := by rw [hsc, hb]; norm_num
    rw [hval, hout, hsc0]; simp
  · intro hraw
    have hx1 : x = 1 := by rw [hx, hraw]; norm_num
    have hy0 : y = 0 := by rw [hy, hraw]; norm_num
    have hm1 : m = 1 := by
      rw [hm, hx1, hy0]
      exact hsqrt.unique zero_le_one (by norm_num)
    have hsc1 : sc = 1 := by rw [hsc, hm1]; norm_num
    rw [hval, hout, hx1, hy0, hm1, hsc1]; norm_num

/-- Witness of C9: the full-scale sample `(32767, 0)` on the left stick of player 0, in
real arithmetic with the real square root, is stored as `(1, 0)`. -/
theorem deadzone_rescales_witness :
    ∃ s' : InputState ℝ,
      cytrus_input_poll Real.sqrt true
          (some (fun _ _ _ id => if id = 0 then 32767 else 0)) input_initial = some s' ∧
      cytrus_input_get_analog s' (0 : Nat) (0 : Nat) = (1, 0) := by
  have hraw : raw_analog (fun _ _ _ id => if id = 0 then 32767 else 0) 0 0 = (32767, 0) := by
    decide
  obtain ⟨s', hs', _, _, _, _, hfull⟩ :=
    deadzone_rescales Real.sqrt real_isSqrt (fun _ _ _ id => if id = 0 then 32767 else 0)
      input_initial 0 0 (by decide) (by decide) 1 0 1 1
      (by rw [hraw]; norm_num) (by rw [hraw]; norm_num) (by norm_num) (by norm_num)
      (by norm_num)
  exact ⟨s', hs', hfull hraw⟩

/-- C10 (counterexample): the corner sample `(32767, 32767)`, with both axes inside
`[-32767, 32767]`, is stored with first component greater than 1: the rescaled magnitude
is not clamped. -/
theorem corner_sample_exceeds_one :
    ∃ s' : InputState ℝ,
      cytrus_input_poll Real.sqrt true (some (fun _ _ _ _ => 32767)) input_initial = some s' ∧
      1 < (cytrus_input_get_analog s' (0 : Nat) (0 : Nat)).1 := by
  have hraw : raw_analog (fun _ _ _ _ => 32767) 0 0 = (32767, 32767) := by decide
  obtain ⟨s', hs', hval⟩ :=
    poll_analog_value Real.sqrt (fun _ _ _ _ => 32767) (input_initial : InputState ℝ) 0 0
      (by decide) (by decide)
  refine ⟨s', hs', ?_⟩
  have h2 : (1 : ℝ) < Real.sqrt ((1 : ℝ) ^ 2 + 1 ^ 2) := by
    rw [Real.lt_sqrt (by norm_num)]; norm_num
  obtain ⟨hout, hmpos, _, _, _, _⟩ :=
    apply_deadzone_rescale Real.sqrt real_isSqrt 32767 32767 1 1
      (Real.sqrt ((1 : ℝ) ^ 2 + 1 ^ 2)) _ (by norm_num) (by norm_num) rfl rfl
      (le_trans (by norm_num) h2.le)
  rw [hval, hraw, hout]
  show 1 < 1 / Real.sqrt (1 ^ 2 + 1 ^ 2) * ((Real.sqrt (1 ^ 2 + 1 ^ 2) - 0.15) / (1 - 0.15))
  set r := Real.sqrt ((1 : ℝ) ^ 2 + 1 ^ 2)
  have e : 1 / r * ((r - 0.15) / (1 - 0.15)) = (r - 0.15) / (r * (1 - 0.15)) := by
    rw [div_mul_div_comm, one_mul]
  rw [e, lt_div_iff₀ (mul_pos hmpos (by norm_num))]
  norm_num
  linarith

/-- C10 (amended): for an exact square root and every raw sample inside the circle of
radius 32767 (scaled magnitude at most 1), the value `cytrus_input_poll` stores has each
component in `[-1, 1]` and magnitude in `[0, 1]`. -/
theorem deadzone_output_bounded (sqrtf : F → F) (hsqrt : IsSqrt sqrtf) (cb : InputStateCb)
    (s : InputState F) (p i : Nat) (hp : p < 4) (hi : i < 2)
    (hunit : (raw_analog cb p i).1 ^ 2 + (raw_analog cb p i).2 ^ 2 ≤ 32767 ^ 2) :
    ∃ s' : InputState F, cytrus_input_poll sqrtf true (some cb) s = some s' ∧
      -1 ≤ (cytrus_input_get_analog s' p i).1 ∧ (cytrus_input_get_analog s' p i).1 ≤ 1 ∧
      -1 ≤ (cytrus_input_get_analog s' p i).2 ∧ (cytrus_input_get_analog s' p i).2 ≤ 1 ∧
      0 ≤ sqrtf ((cytrus_input_get_analog s' p i).1 ^ 2
                  + (cytrus_input_get_analog s' p i).2 ^ 2) ∧
      sqrtf ((cytrus_input_get_analog s' p i).1 ^ 2
              + (cytrus_input_get_analog s' p i).2 ^ 2) ≤ 1 := by
  obtain ⟨s', hs', hval⟩ := poll_analog_value sqrtf cb s p i hp hi
  refine ⟨s', hs', ?_⟩
  rw [hval]
  exact apply_deadzone_bounded sqrtf hsqrt _ _ hunit

/-- Witness of C10 (amended): the sample `(16384, 16384)` on the right stick of player 1,
in real arithmetic with the real square root. -/
theorem deadzone_output_bounded_witness :
    ∃ s' : InputState ℝ,
      cytrus_input_poll Real.sqrt true (some (fun _ _ _ _ => 16384)) input_initial = some s' ∧
      -1 ≤ (cytrus_input_get_analog s' (1 : Nat) (1 : Nat)).1 ∧
      (cytrus_input_get_analog s' (1 : Nat) (1 : Nat)).1 ≤ 1 ∧
      -1 ≤ (cytrus_input_get_analog s' (1 : Nat) (1 : Nat)).2 ∧
      (cytrus_input_get_analog s' (1 : Nat) (1 : Nat)).2 ≤ 1 ∧
      0 ≤ Real.sqrt ((cytrus_input_get_analog s' (1 : Nat) (1 : Nat)).1 ^ 2
                  + (cytrus_input_get_analog s' (1 : Nat) (1 : Nat)).2 ^ 2) ∧
      Real.sqrt ((cytrus_input_get_analog s' (1 : Nat) (1 : Nat)).1 ^ 2
              + (cytrus_input_get_analog s' (1 : Nat) (1 : Nat)).2 ^ 2) ≤ 1 :=
  deadzone_output_bounded Real.sqrt real_isSqrt (fun _ _ _ _ => 16384) input_initial 1 1
    (by decide) (by decide) (by decide)

end InputFacts

/-! ## State container codec: guards and header layout -/

theorem read_le32_lt (m : Mem) (off : Nat) : read_le32 m off < 2 ^ 32 := by
  simp only [read_le32]
  omega

/-- C11 (evaluation of the code where the claim fails): with an 8-byte buffer
`cytrus_memory_serialize` returns true and writes the whole 16-byte header, so offsets
8..15, which lie behind the caller's buffer, are overwritten (with the wrapped payload
size `0xFFFFFFF8` and the checksum 0). -/
theorem serialize_accepts_short_buffer :
    (cytrus_memory_serialize true (some (fun _ => 0xAA)) 8).1 = true ∧
    (cytrus_memory_serialize true (some (fun _ => 0xAA)) 8).2.map
        (fun m' => (List.range 16).map m')
      = some [0x43, 0x53, 0x54, 0x53, 1, 0, 0, 0, 0xF8, 0xFF, 0xFF, 0xFF, 0, 0, 0, 0] := by
  decide

/-- C12: for a non-null buffer of size `n > 0` with the system powered on,
`cytrus_memory_unserialize` returns false if and only if `n < 16`, or the header magic
differs from `0x53545343`, or the header version differs from 1, or the declared payload
size plus 16 differs from `n`; in every other case it returns true. -/
theorem unserialize_fails_iff (m : Mem) (n : Nat) (hn : 0 < n) :
    (cytrus_memory_unserialize true (some m) n = false ↔
      (n < 16 ∨ (read_header m).magic ≠ 0x53545343 ∨ (read_header m).version ≠ 1 ∨
        (read_header m).size + 16 ≠ n)) ∧
    (¬ (n < 16 ∨ (read_header m).magic ≠ 0x53545343 ∨ (read_header m).version ≠ 1 ∨
        (read_header m).size + 16 ≠ n) →
      cytrus_memory_unserialize true (some m) n = true) := by
  have hne : n ≠ 0 := Nat.pos_iff_ne_zero.mp hn
  have hlt : (read_header m).size < 2 ^ 32 := read_le32_lt m 8
  have hmod : ((read_header m).size + HEADER_SIZE) % SIZE_MOD = (read_header m).size + 16 := by
    simp only [HEADER_SIZE, SIZE_MOD]; omega
  have key : cytrus_memory_unserialize true (some m) n = false ↔
      (n < 16 ∨ (read_header m).magic ≠ 0x53545343 ∨ (read_header m).version ≠ 1 ∨
        (read_header m).size + 16 ≠ n) := by
    have e16 : HEADER_SIZE = 16 := rfl
    have emagic : SAVE_STATE_MAGIC = 0x53545343 := rfl
    simp only [cytrus_memory_unserialize, hne, if_false, Bool.not_true, Bool.false_eq_true,
      hmod]
    rw [e16, emagic]
    by_cases h1 : n < 16
    · simp [h1]
    · by_cases h2 : (read_header m).magic = 0x53545343
      · by_cases h3 : (read_header m).version = 1
        · by_cases h4 : (read_header m).size + 16 = n
          · simp [h1, h2, h3, h4]
          · simp [h1, h2, h3, h4]
        · simp [h1, h2, h3]
      · simp [h1, h2]
  refine ⟨key, fun h => ?_⟩
  cases hres : cytrus_memory_unserialize true (some m) n
  · exact absurd (key.mp hres) h
  · rfl

/-- Witness of C12: a 64-byte container produced by `cytrus_memory_serialize`. -/
theorem unserialize_fails_iff_witness :
    (cytrus_memory_unserialize true (some (serialized_memory (fun _ => 0) 64)) 64 = false ↔
      (64 < 16 ∨ (read_header (serialized_memory (fun _ => 0) 64)).magic ≠ 0x53545343 ∨
        (read_header (serialized_memory (fun _ => 0) 64)).version ≠ 1 ∨
        (read_header (serialized_memory (fun _ => 0) 64)).size + 16 ≠ 64)) ∧
    cytrus_memory_unserialize true (some (serialized_memory (fun _ => 0) 64)) 64 = true :=
  ⟨(unserialize_fails_iff (serialized_memory (fun _ => 0) 64) 64 (by decide)).1, by decide⟩

theorem get_buttons_of_lt {F : Type} (s : InputState F) (p : Nat) (hp : p < 4) :
    cytrus_input_get_buttons s p = s.button_state p := by
  have h : ¬ ((p : Int) < 0 ∨ (p : Int) ≥ 4) := by omega
  simp only [cytrus_input_get_buttons, h, if_false, Int.toNat_ofNat]

theorem get_buttons_of_out {F : Type} (s : InputState F) (player : Int)
    (h : player < 0 ∨ player ≥ 4) : cytrus_input_get_buttons s player = 0 := by
  simp only [cytrus_input_get_buttons, h, if_true]

section InputPoll

variable {F : Type} [LinearOrderedField F]

/-- After a poll with both callbacks set, the stored arrays hold, for every player, the
mask computed by the button loop and the pairs computed by the deadzone block, and the
touch state is the one computed by the touch block of player 0. -/
theorem poll_result (sqrtf : F → F) (cb : InputStateCb) (s : InputState F) :
    ∃ s' : InputState F, cytrus_input_poll sqrtf true (some cb) s = some s' ∧
      (∀ p : Nat, p < 4 → s'.button_state p = poll_buttons cb p) ∧
      (∀ p i : Nat, p < 4 → i < 2 →
        s'.analog_state p i 0
          = (apply_deadzone sqrtf (raw_analog cb p i).1 (raw_analog cb p i).2).1 ∧
        s'.analog_state p i 1
          = (apply_deadzone sqrtf (raw_analog cb p i).1 (raw_analog cb p i).2).2) ∧
      s'.touch_state = poll_touch cb s.touch_state := by
  refine ⟨(List.range 4).foldl (poll_player sqrtf cb) s, by simp [cytrus_input_poll], ?_, ?_, ?_⟩
  · intro p hp
    simp only [range_four, List.foldl_cons, List.foldl_nil]
    interval_cases p <;> simp [poll_player, Function.update]
  · intro p i hp hi
    simp only [range_four, List.foldl_cons, List.foldl_nil, raw_analog]
    interval_cases p <;> interval_cases i <;>
      simp [poll_player, poll_analog, analog_mappings, List.enum, List.enumFrom, set_analog,
        RETRO_DEVICE_INDEX_ANALOG_LEFT, RETRO_DEVICE_INDEX_ANALOG_RIGHT]
  · simp [range_four, poll_player]

theorem get_analog_of_out (s : InputState F) (player stick : Int)
    (h : player < 0 ∨ player ≥ 4 ∨ stick < 0 ∨ stick ≥ 2) :
    cytrus_input_get_analog s player stick = (0, 0) := by
  simp only [cytrus_input_get_analog, h, if_true]

theorem get_analog_of_in (s : InputState F) (player stick : Int)
    (h : ¬ (player < 0 ∨ player ≥ 4 ∨ stick < 0 ∨ stick ≥ 2)) :
    cytrus_input_get_analog s player stick
      = (s.analog_state player.toNat stick.toNat 0, s.analog_state player.toNat stick.toNat 1) := by
  simp only [cytrus_input_get_analog, h, if_false]

/-- C14 (evaluation of the code where the claim fails): the host reports
`RETRO_DEVICE_ID_JOYPAD_L2` (mapped to id 773) pressed for player 0.  After
`cytrus_input_poll` the mask of player 0 is 0, its bit 73 is clear and
`cytrus_input_button_pressed(0, 773)` is false; the mask never has a bit 73, being below
`2 ^ 16`. -/
theorem l2_press_not_recorded (sqrtf : F → F) (s : InputState F) :
    host_pressed sample_L2_held 0 RETRO_DEVICE_ID_JOYPAD_L2 = true ∧
    (RETRO_DEVICE_ID_JOYPAD_L2, 773) ∈ button_mappings ∧
    ∃ s' : InputState F, cytrus_input_poll sqrtf true (some sample_L2_held) s = some s' ∧
      cytrus_input_get_buttons s' 0 = 0 ∧
      (cytrus_input_get_buttons s' 0).testBit (773 - 700) = false ∧
      cytrus_input_button_pressed s' 0 773 = false := by
  obtain ⟨s', hs', hb, _, _⟩ := poll_result sqrtf sample_L2_held s
  have h0 : s'.button_state 0 = 0 := by
    rw [hb 0 (by decide)]; decide
  have hg : cytrus_input_get_buttons s' 0 = 0 := by
    have := get_buttons_of_lt s' 0 (by decide)
    simpa [h0] using this
  refine ⟨by decide, by decide, s', hs', hg, ?_, ?_⟩
  · rw [hg]; simp
  · simp [cytrus_input_button_pressed, h0]

/-- C15: the button masks and analog values after `cytrus_input_poll` depend only on the
host sample of that tick: from any two prior states and the same host sample, the polls
return states whose `button_state` and `analog_state` agree for every player, stick and
axis, and so do `cytrus_input_get_buttons` and `cytrus_input_get_analog` for every
argument. -/
theorem poll_depends_on_sample_only (sqrtf : F → F) (cb : InputStateCb)
    (s1 s2 : InputState F) :
    ∃ s1' s2' : InputState F,
      cytrus_input_poll sqrtf true (some cb) s1 = some s1' ∧
      cytrus_input_poll sqrtf true (some cb) s2 = some s2' ∧
      (∀ p : Nat, p < 4 → s1'.button_state p = s2'.button_state p ∧
        ∀ i ax : Nat, i < 2 → ax < 2 → s1'.analog_state p i ax = s2'.analog_state p i ax) ∧
      (∀ player : Int, cytrus_input_get_buttons s1' player = cytrus_input_get_buttons s2' player ∧
        ∀ stick : Int,
          cytrus_input_get_analog s1' player stick = cytrus_input_get_analog s2' player stick) := by
  obtain ⟨s1', h1, hb1, ha1, _⟩ := poll_result sqrtf cb s1
  obtain ⟨s2', h2, hb2, ha2, _⟩ := poll_result sqrtf cb s2
  have harr : ∀ p : Nat, p < 4 → s1'.button_state p = s2'.button_state p ∧
      ∀ i ax : Nat, i < 2 → ax < 2 → s1'.analog_state p i ax = s2'.analog_state p i ax := by
    intro p hp
    refine ⟨by rw [hb1 p hp, hb2 p hp], ?_⟩
    intro i ax hi hax
    interval_cases ax
    · rw [(ha1 p i hp hi).1, (ha2 p i hp hi).1]
    · rw [(ha1 p i hp hi).2, (ha2 p i hp hi).2]
  refine ⟨s1', s2', h1, h2, harr, ?_⟩
  intro player
  constructor
  · by_cases hout : player < 0 ∨ player ≥ 4
    · rw [get_buttons_of_out s1' player hout, get_buttons_of_out s2' player hout]
    · have hp : player.toNat < 4 := by omega
      have hcast : ((player.toNat : Nat) : Int) = player := Int.toNat_of_nonneg (by omega)
      have e1 := get_buttons_of_lt s1' player.toNat hp
      have e2 := get_buttons_of_lt s2' player.toNat hp
      rw [hcast] at e1 e2
      rw [e1, e2, (harr _ hp).1]
  · intro stick
    by_cases hout : player < 0 ∨ player ≥ 4 ∨ stick < 0 ∨ stick ≥ 2
    · rw [get_analog_of_out s1' player stick hout, get_analog_of_out s2' player stick hout]
    · have hp : player.toNat < 4 := by omega
      have hi : stick.toNat < 2 := by omega
      rw [get_analog_of_in s1' player stick hout, get_analog_of_in s2' player stick hout,
        (harr _ hp).2 _ 0 hi (by decide), (harr _ hp).2 _ 1 hi (by decide)]

/-- C16 (evaluation of the code where the claim fails): a poll with the pointer pressed at
the raw centre stores the touch point `(160, 120)`; the next poll, in which the host
reports the pointer as not pressed, clears only `active`, and `cytrus_input_get_touch`
returns `(false, 160, 120)`. -/
theorem released_touch_keeps_position (sqrtf : F → F) :
    pointer_pressed sample_idle = false ∧
    ∃ s1 s2 : InputState F,
      cytrus_input_poll sqrtf true (some sample_center_touch) input_initial = some s1 ∧
      cytrus_input_get_touch s1 = (true, 160, 120) ∧
      cytrus_input_poll sqrtf true (some sample_idle) s1 = some s2 ∧
      cytrus_input_get_touch s2 = (false, 160, 120) := by
  obtain ⟨s1, h1, _, _, ht1⟩ := poll_result sqrtf sample_center_touch (input_initial : InputState F)
  obtain ⟨s2, h2, _, _, ht2⟩ := poll_result sqrtf sample_idle s1
  have e1 : s1.touch_state = { active := true, x := 160, y := 120 } := by
    rw [ht1]
    have hp : to_int16 (sample_center_touch 0 RETRO_DEVICE_POINTER 0
        RETRO_DEVICE_ID_POINTER_PRESSED) ≠ 0 := by decide
    have hx : to_int16 (sample_center_touch 0 RETRO_DEVICE_POINTER 0
        RETRO_DEVICE_ID_POINTER_X) = 0 := by decide
    have hy : to_int16 (sample_center_touch 0 RETRO_DEVICE_POINTER 0
        RETRO_DEVICE_ID_POINTER_Y) = 0 := by decide
    simp only [poll_touch, hp, hx, hy, if_true, ne_eq, not_false_eq_true]
    norm_num
  have e2 : s2.touch_state = { active := false, x := 160, y := 120 } := by
    rw [ht2, e1]
    have hp : ¬ to_int16 (sample_idle 0 RETRO_DEVICE_POINTER 0
        RETRO_DEVICE_ID_POINTER_PRESSED) ≠ 0 := by decide
    simp only [poll_touch, hp, if_false]
  refine ⟨by decide, s1, s2, h1, ?_, h2, ?_⟩
  · simp [cytrus_input_get_touch, e1]
  · simp [cytrus_input_get_touch, e2]

/-- C17: when the host reports the pointer pressed with raw coordinates `(px, py)`, each
in `[-32767, 32767]`, `cytrus_input_poll` sets the touch active with
`x = (px + 32767) * 320 / 65534` and `y = (py + 32767) * 240 / 65534` (as does the
frontend's `GetTouchState`), so `0 ≤ x ≤ 320` and `0 ≤ y ≤ 240`, raw `-32767` maps to 0,
raw `32767` maps to the full screen dimension, and a second pressed sample with a larger
raw coordinate gets a larger or equal screen coordinate. -/
theorem touch_mapping (sqrtf : F → F) (cb cb2 : InputStateCb) (s s2 : InputState F)
    (hpress : pointer_pressed cb = true) (hpress2 : pointer_pressed cb2 = true)
    (hx : -32767 ≤ (raw_pointer cb).1 ∧ (raw_pointer cb).1 ≤ 32767)
    (hy : -32767 ≤ (raw_pointer cb).2 ∧ (raw_pointer cb).2 ≤ 32767) :
    ∃ s' s2' : InputState F,
      cytrus_input_poll sqrtf true (some cb) s = some s' ∧
      cytrus_input_poll sqrtf true (some cb2) s2 = some s2' ∧
      cytrus_input_get_touch s'
        = (true, (((raw_pointer cb).1 : F) + 32767) * 320 / 65534,
                 (((raw_pointer cb).2 : F) + 32767) * 240 / 65534) ∧
      (GetTouchState (some cb) : Bool × F × F) = cytrus_input_get_touch s' ∧
      0 ≤ (cytrus_input_get_touch s').2.1 ∧ (cytrus_input_get_touch s').2.1 ≤ 320 ∧
      0 ≤ (cytrus_input_get_touch s').2.2 ∧ (cytrus_input_get_touch s').2.2 ≤ 240 ∧
      ((raw_pointer cb).1 = -32767 → (cytrus_input_get_touch s').2.1 = 0) ∧
      ((raw_pointer cb).1 = 32767 → (cytrus_input_get_touch s').2.1 = 320) ∧
      ((raw_pointer cb).2 = -32767 → (cytrus_input_get_touch s').2.2 = 0) ∧
      ((raw_pointer cb).2 = 32767 → (cytrus_input_get_touch s').2.2 = 240) ∧
      ((raw_pointer cb).1 ≤ (raw_pointer cb2).1 →
        (cytrus_input_get_touch s').2.1 ≤ (cytrus_input_get_touch s2').2.1) ∧
      ((raw_pointer cb).2 ≤ (raw_pointer cb2).2 →
        (cytrus_input_get_touch s').2.2 ≤ (cytrus_input_get_touch s2').2.2) := by
  obtain ⟨s', h1, _, _, ht1⟩ := poll_result sqrtf cb s
  obtain ⟨s2', h2, _, _, ht2⟩ := poll_result sqrtf cb2 s2
  have hp : to_int16 (cb 0 RETRO_DEVICE_POINTER 0 RETRO_DEVICE_ID_POINTER_PRESSED) ≠ 0 := by
    simpa [pointer_pressed] using hpress
  have hp2 : to_int16 (cb2 0 RETRO_DEVICE_POINTER 0 RETRO_DEVICE_ID_POINTER_PRESSED) ≠ 0 := by
    simpa [pointer_pressed] using hpress2
  have g1 : cytrus_input_get_touch s'
      = (true, (((raw_pointer cb).1 : F) + 32767) * 320 / 65534,
               (((raw_pointer cb).2 : F) + 32767) * 240 / 65534) := by
    simp only [cytrus_input_get_touch, ht1, poll_touch, hp, if_true, ne_eq, not_false_eq_true,
      raw_pointer]
    push_cast
    rfl
  have g2 : cytrus_input_get_touch s2'
      = (true, (((raw_pointer cb2).1 : F) + 32767) * 320 / 65534,
               (((raw_pointer cb2).2 : F) + 32767) * 240 / 65534) := by
    simp only [cytrus_input_get_touch, ht2, poll_touch, hp2, if_true, ne_eq, not_false_eq_true,
      raw_pointer]
    push_cast
    rfl
  have hx1 : ((-32767 : Int) : F) ≤ ((raw_pointer cb).1 : F) := by exact_mod_cast hx.1
  have hx2 : ((raw_pointer cb).1 : F) ≤ ((32767 : Int) : F) := by exact_mod_cast hx.2
  have hy1 : ((-32767 : Int) : F) ≤ ((raw_pointer cb).2 : F) := by exact_mod_cast hy.1
  have hy2 : ((raw_pointer cb).2 : F) ≤ ((32767 : Int) : F) := by exact_mod_cast hy.2
  push_cast at hx1 hx2 hy1 hy2
  refine ⟨s', s2', h1, h2, g1, ?_, ?_, ?_, ?_, ?_, ?_, ?_, ?_, ?_, ?_, ?_⟩
  · rw [g1]
    simp only [GetTouchState, hp, if_true, ne_eq, not_false_eq_true, raw_pointer]
    push_cast
    rfl
  · rw [g1]; exact div_nonneg (mul_nonneg (by linarith) (by norm_num)) (by norm_num)
  · rw [g1]; show _ / _ ≤ _; rw [div_le_iff₀ (by norm_num)]; linarith
  · rw [g1]; exact div_nonneg (mul_nonneg (by linarith) (by norm_num)) (by norm_num)
  · rw [g1]; show _ / _ ≤ _; rw [div_le_iff₀ (by norm_num)]; linarith
  · intro h; rw [g1, h]; norm_num
  · intro h; rw [g1, h]; norm_num
  · intro h; rw [g1, h]; norm_num
  · intro h; rw [g1, h]; norm_num
  · intro h
    rw [g1, g2]
    have hc : ((raw_pointer cb).1 : F) ≤ ((raw_pointer cb2).1 : F) := by exact_mod_cast h
    show _ / _ ≤ _ / _
    exact div_le_div_of_nonneg_right
      (mul_le_mul_of_nonneg_right (by linarith) (by norm_num)) (by norm_num)
  · intro h
    rw [g1, g2]
    have hc : ((raw_pointer cb).2 : F) ≤ ((raw_pointer cb2).2 : F) := by exact_mod_cast h
    show _ / _ ≤ _ / _
    exact div_le_div_of_nonneg_right
      (mul_le_mul_of_nonneg_right (by linarith) (by norm_num)) (by norm_num)

/-- Witness of C17: the pointer pressed at the raw corner `(32767, -32767)` is stored as
the active touch point `(320, 0)`; real arithmetic, the centre sample as second sample. -/
theorem touch_mapping_witness :
    ∃ s' : InputState ℝ,
      cytrus_input_poll Real.sqrt true (some sample_corner_touch) input_initial = some s' ∧
      cytrus_input_get_touch s' = (true, 320, 0) := by
  have hraw : raw_pointer sample_corner_touch = (32767, -32767) := by decide
  obtain ⟨s', _, h1, _, g, _⟩ :=
    touch_mapping Real.sqrt sample_corner_touch sample_center_touch
      (input_initial : InputState ℝ) input_initial (by decide) (by decide)
      (by rw [hraw]; decide) (by rw [hraw]; decide)
  refine ⟨s', h1, ?_⟩
  rw [g, hraw]
  norm_num

theorem poll_times_without_callbacks (sqrtf : F → F) (n : Nat) (s : InputState F) :
    poll_times sqrtf false none n s = some s := by
  induction n with
  | zero => rfl
  | succ n ih => simp [poll_times, cytrus_input_poll, ih]

/-- C18: if the host supplied neither callback, then after `cytrus_input_init` and any
number of `cytrus_input_poll` calls no call has failed and every accessor returns the
inert default: `cytrus_input_get_buttons` 0 and `cytrus_input_get_analog` `(0, 0)` for
every player and stick, `cytrus_input_get_touch` `(false, 0, 0)`, and in the frontend
`cytrus_get_button_state` 0, `GetCirclePad` and `GetCStick` `(0, 0)` and `GetTouchState`
`(false, 0, 0)`. -/
theorem no_callbacks_inert_defaults (sqrtf : F → F) (s0 : InputState F) (n : Nat) :
    (cytrus_input_init s0).2 = true ∧
    ∃ s' : InputState F,
      poll_times sqrtf false none n (cytrus_input_init s0).1 = some s' ∧
      (∀ player : Int, cytrus_input_get_buttons s' player = 0) ∧
      (∀ player stick : Int, cytrus_input_get_analog s' player stick = (0, 0)) ∧
      cytrus_input_get_touch s' = (false, 0, 0) ∧
      cytrus_get_button_state none = 0 ∧
      GetCirclePad sqrtf none = (0, 0) ∧
      GetCStick sqrtf none = (0, 0) ∧
      (GetTouchState none : Bool × F × F) = (false, 0, 0) := by
  refine ⟨rfl, (cytrus_input_init s0).1, poll_times_without_callbacks sqrtf n _, ?_, ?_, rfl,
    rfl, rfl, rfl, rfl⟩
  · intro player
    simp [cytrus_input_get_buttons, cytrus_input_init]
  · intro player stick
    simp [cytrus_input_get_analog, cytrus_input_init]

end InputPoll

/-! ## Audio batcher: order of the delivered samples -/

theorem copy_chunk_volume {α : Type} (conv : α → Int) (chunk : List α) :
    ∀ s : AudioState, (copy_chunk conv s chunk).volume = s.volume := by
  induction chunk with
  | nil => intro s; simp [copy_chunk]
  | cons x xs ih =>
    intro s
    have h := ih { s with audio_buffer := Function.update s.audio_buffer s.buffer_pos
                            (apply_volume s.volume (conv x)),
                          buffer_pos := s.buffer_pos + 1 }
    simp only [copy_chunk, List.foldl_cons] at h ⊢
    rw [h]

theorem copy_chunk_flags {α : Type} (conv : α → Int) (chunk : List α) :
    ∀ s : AudioState,
      (copy_chunk conv s chunk).audio_initialized = s.audio_initialized ∧
      (copy_chunk conv s chunk).audio_muted = s.audio_muted ∧
      (copy_chunk conv s chunk).audio_sample_batch_cb = s.audio_sample_batch_cb := by
  induction chunk with
  | nil => intro s; simp [copy_chunk]
  | cons x xs ih =>
    intro s
    have h := ih { s with audio_buffer := Function.update s.audio_buffer s.buffer_pos
                            (apply_volume s.volume (conv x)),
                          buffer_pos := s.buffer_pos + 1 }
    simp only [copy_chunk, List.foldl_cons] at h ⊢
    exact h

/-- The copy loop appends the converted, volume-scaled chunk to the buffered samples. -/
theorem copy_chunk_buffered {α : Type} (conv : α → Int) (chunk : List α) :
    ∀ s : AudioState,
      buffered (copy_chunk conv s chunk)
        = buffered s ++ chunk.map (fun x => apply_volume s.volume (conv x)) := by
  induction chunk with
  | nil => intro s; simp [copy_chunk]
  | cons x xs ih =>
    intro s
    have h := ih { s with audio_buffer := Function.update s.audio_buffer s.buffer_pos
                            (apply_volume s.volume (conv x)),
                          buffer_pos := s.buffer_pos + 1 }
    simp only [copy_chunk, List.foldl_cons] at h ⊢
    rw [h]
    simp only [buffered, List.range_succ, List.map_append, List.map_cons, List.map_nil,
      Function.update_same, List.append_assoc, List.singleton_append]
    congr 1
    apply List.map_congr_left
    intro i hi
    have hne : i ≠ s.buffer_pos := Nat.ne_of_lt (List.mem_range.mp hi)
    simp [Function.update_noteq hne]

theorem send_if_full_fields (s : AudioState) :
    (send_if_full s).volume = s.volume ∧
    (send_if_full s).audio_initialized = s.audio_initialized ∧
    (send_if_full s).audio_muted = s.audio_muted ∧
    (send_if_full s).audio_sample_batch_cb = s.audio_sample_batch_cb := by
  unfold send_if_full
  split <;> simp [audio_sample_batch]

theorem delivered_append (xs ys : List AudioBatch) :
    delivered (xs ++ ys) = delivered xs ++ delivered ys := by
  induction xs with
  | nil => rfl
  | cons b bs ih => simp [delivered, ih]

/-- Starting below capacity, the fill loop returns with the same settings, a position
below capacity, and the delivered batches followed by the buffered samples equal to what
was buffered before followed by the converted, volume-scaled input, in order. -/
theorem process_loop_stream {α : Type} (conv : α → Int) :
    ∀ (fuel : Nat) (s : AudioState) (samples : List α),
      s.buffer_pos < BUFFER_SIZE → samples.length ≤ fuel →
      ∃ (s' : AudioState) (new : List AudioBatch),
        process_loop conv fuel s samples = some s' ∧
        s'.calls = s.calls ++ new ∧
        s'.buffer_pos < BUFFER_SIZE ∧
        s'.volume = s.volume ∧
        s'.audio_initialized = s.audio_initialized ∧
        s'.audio_muted = s.audio_muted ∧
        s'.audio_sample_batch_cb = s.audio_sample_batch_cb ∧
        delivered new ++ buffered s'
          = buffered s ++ samples.map (fun x => apply_volume s.volume (conv x)) := by
  intro fuel
  induction fuel with
  | zero =>
    intro s samples hp hlen
    have hnil : samples = [] := List.length_eq_zero.mp (Nat.le_zero.mp hlen)
    subst hnil
    exact ⟨s, [], by simp [process_loop], by simp, hp, rfl, rfl, rfl, rfl, by simp [delivered]⟩
  | succ fuel ih =>
    intro s samples hp hlen
    cases samples with
    | nil =>
      exact ⟨s, [], by simp [process_loop], by simp, hp, rfl, rfl, rfl, rfl, by simp [delivered]⟩
    | cons x rest =>
      have hsub := size_sub_buffer s.buffer_pos (Nat.le_of_lt hp)
      simp only [process_loop, hsub]
      have hB : BUFFER_SIZE = 1024 := rfl
      simp only [List.length_cons] at hlen ⊢
      by_cases hfit : rest.length + 1 < BUFFER_SIZE - s.buffer_pos
      · simp only [hfit, if_true]
        have htake : List.take (rest.length + 1) (x :: rest) = x :: rest := by
          apply List.take_of_length_le; simp
        have hdrop : List.drop (rest.length + 1) (x :: rest) = [] := by
          apply List.drop_of_length_le; simp
        rw [htake, hdrop]
        have hpos := copy_chunk_buffer_pos conv (x :: rest) s
        simp only [List.length_cons] at hpos
        have hlt : (copy_chunk conv s (x :: rest)).buffer_pos < BUFFER_SIZE := by omega
        obtain ⟨hi, hm, hc⟩ := copy_chunk_flags conv (x :: rest) s
        refine ⟨copy_chunk conv s (x :: rest), [], ?_, ?_, hlt, copy_chunk_volume conv _ s,
          hi, hm, hc, ?_⟩
        · simp [send_if_full_of_lt _ hlt, process_loop]
        · simp [copy_chunk_calls]
        · simp [delivered, copy_chunk_buffered]
      · simp only [hfit, if_false]
        set k := BUFFER_SIZE - s.buffer_pos with hk
        set chunk := List.take k (x :: rest) with hchunk
        have hchunk_len : chunk.length = k := by
          rw [hchunk, List.length_take]; simp only [List.length_cons]; omega
        have hpos := copy_chunk_buffer_pos conv chunk s
        rw [hchunk_len] at hpos
        have hfull : BUFFER_SIZE ≤ (copy_chunk conv s chunk).buffer_pos := by omega
        have hexact : (copy_chunk conv s chunk).buffer_pos = 1024 := by omega
        have hdrop_len : (List.drop k (x :: rest)).length = rest.length + 1 - k := by
          simp [List.length_drop]
        have hpos0 := send_if_full_pos_of_ge _ hfull
        have hcalls := send_if_full_calls_of_ge _ hfull
        obtain ⟨hv, hi, hm, hc⟩ := send_if_full_fields (copy_chunk conv s chunk)
        obtain ⟨hi0, hm0, hc0⟩ := copy_chunk_flags conv chunk s
        obtain ⟨s', new, hrun, hc', hp', hv', hi', hm', hcb', hstream⟩ :=
          ih (send_if_full (copy_chunk conv s chunk)) (List.drop k (x :: rest))
            (by rw [hpos0, hB]; omega) (by rw [hdrop_len]; omega)
        rw [hcalls, copy_chunk_calls] at hc'
        have hbuf0 : buffered (send_if_full (copy_chunk conv s chunk)) = [] := by
          simp [buffered, hpos0]
        have hdata : (List.range 1024).map (copy_chunk conv s chunk).audio_buffer
            = buffered s ++ chunk.map (fun x => apply_volume s.volume (conv x)) := by
          rw [← copy_chunk_buffered, buffered, hexact]
        rw [hbuf0, hv, copy_chunk_volume, List.nil_append] at hstream
        refine ⟨s', ⟨(List.range 1024).map (copy_chunk conv s chunk).audio_buffer, 512⟩ :: new,
          hrun, ?_, hp', ?_, ?_, ?_, ?_, ?_⟩
        · rw [hc']; simp
        · rw [hv', hv, copy_chunk_volume]
        · rw [hi', hi, hi0]
        · rw [hm', hm, hm0]
        · rw [hcb', hc, hc0]
        · simp only [delivered, List.append_assoc]
          rw [hstream, hdata, List.append_assoc, ← List.map_append, hchunk,
            List.take_append_drop]

theorem apply_volume_one (sample : Int) : apply_volume 1 sample = sample := by
  simp [apply_volume]

/-- One submission at volume 1.0 to an initialised, unmuted batcher with the callback set
keeps those settings and appends its samples to the stream. -/
theorem submit_stream (s : AudioState) (c : AudioCall)
    (hinit : s.audio_initialized = true) (hmute : s.audio_muted = false)
    (hcb : s.audio_sample_batch_cb = true) (hvol : s.volume = 1)
    (hpos : s.buffer_pos < BUFFER_SIZE) :
    ∃ (s' : AudioState) (new : List AudioBatch),
      submit s c = some s' ∧ s'.calls = s.calls ++ new ∧
      s'.audio_initialized = true ∧ s'.audio_muted = false ∧
      s'.audio_sample_batch_cb = true ∧ s'.volume = 1 ∧ s'.buffer_pos < BUFFER_SIZE ∧
      delivered new ++ buffered s' = buffered s ++ submitted [c] := by
  cases c with
  | int16_samples xs =>
    obtain ⟨s', new, hrun, hc, hp, hv, hi, hm, hcb', hst⟩ :=
      process_loop_stream id (xs.length + 1) s xs hpos (Nat.le_succ _)
    refine ⟨s', new, ?_, hc, hi.trans hinit, hm.trans hmute, hcb'.trans hcb, hv.trans hvol,
      hp, ?_⟩
    · simp [submit, cytrus_audio_process_samples, hinit, hmute, hcb, hrun]
    · rw [hst, hvol]
      simp [submitted, apply_volume_one]
  | float_samples xs =>
    obtain ⟨s', new, hrun, hc, hp, hv, hi, hm, hcb', hst⟩ :=
      process_loop_stream float_to_int16 (xs.length + 1) s xs hpos (Nat.le_succ _)
    refine ⟨s', new, ?_, hc, hi.trans hinit, hm.trans hmute, hcb'.trans hcb, hv.trans hvol,
      hp, ?_⟩
    · simp [submit, cytrus_audio_process_float_samples, hinit, hmute, hcb, hrun]
    · rw [hst, hvol]
      simp [submitted, apply_volume_one]

theorem submitted_cons (c : AudioCall) (cs : List AudioCall) :
    submitted (c :: cs) = submitted [c] ++ submitted cs := by
  cases c <;> simp [submitted]

theorem submit_all_stream (cs : List AudioCall) :
    ∀ s : AudioState, s.audio_initialized = true → s.audio_muted = false →
      s.audio_sample_batch_cb = true → s.volume = 1 → s.buffer_pos < BUFFER_SIZE →
      ∃ (s' : AudioState) (new : List AudioBatch),
        submit_all s cs = some s' ∧ s'.calls = s.calls ++ new ∧
        delivered new ++ buffered s' = buffered s ++ submitted cs := by
  induction cs with
  | nil =>
    intro s _ _ _ _ _
    exact ⟨s, [], rfl, by simp, by simp [delivered, submitted]⟩
  | cons c cs ih =>
    intro s hinit hmute hcb hvol hpos
    obtain ⟨s1, new1, hrun1, hc1, hi1, hm1, hcb1, hv1, hp1, hst1⟩ :=
      submit_stream s c hinit hmute hcb hvol hpos
    obtain ⟨s', new2, hrun2, hc2, hst2⟩ := ih s1 hi1 hm1 hcb1 hv1 hp1
    refine ⟨s', new1 ++ new2, ?_, ?_, ?_⟩
    · simp [submit_all, hrun1, hrun2]
    · rw [hc2, hc1, List.append_assoc]
    · rw [delivered_append, List.append_assoc, hst2, ← List.append_assoc, hst1,
        List.append_assoc, ← submitted_cons]

/-- C19: order preservation.  From an empty buffer with audio initialised, unmuted, the
callback set and volume 1.0, every finite sequence of calls of
`cytrus_audio_process_samples` and `cytrus_audio_process_float_samples`, interleaved in
any way, returns, and the batches delivered to the host during it (in delivery order)
followed by the samples still buffered are the submitted samples in call order, float
samples converted by `float_to_int16`. -/
theorem interleaved_submissions_keep_order (s : AudioState) (cs : List AudioCall)
    (hinit : s.audio_initialized = true) (hmute : s.audio_muted = false)
    (hcb : s.audio_sample_batch_cb = true) (hvol : s.volume = 1)
    (hempty : s.buffer_pos = 0) :
    ∃ (s' : AudioState) (new : List AudioBatch),
      submit_all s cs = some s' ∧ s'.calls = s.calls ++ new ∧
      delivered new ++ buffered s' = submitted cs := by
  obtain ⟨s', new, hrun, hc, hst⟩ :=
    submit_all_stream cs s hinit hmute hcb hvol (by rw [hempty]; decide)
  refine ⟨s', new, hrun, hc, ?_⟩
  rw [hst]
  simp [buffered, hempty]

/-- Witness of C19: an int16 burst, a float burst and another int16 burst into the
freshly initialised batcher. -/
theorem interleaved_submissions_keep_order_witness :
    ∃ (s' : AudioState) (new : List AudioBatch),
      submit_all audio_ready
          [AudioCall.int16_samples [1, 2, 3], AudioCall.float_samples [1, -1],
           AudioCall.int16_samples [4]] = some s' ∧
      s'.calls = audio_ready.calls ++ new ∧
      delivered new ++ buffered s' = [1, 2, 3, 32767, -32767, 4] := by
  obtain ⟨s', new, hrun, hc, hst⟩ :=
    interleaved_submissions_keep_order audio_ready
      [AudioCall.int16_samples [1, 2, 3], AudioCall.float_samples [1, -1],
       AudioCall.int16_samples [4]] rfl rfl rfl rfl rfl
  refine ⟨s', new, hrun, hc, ?_⟩
  have h1 : float_to_int16 1 = 32767 := by
    norm_num [float_to_int16, trunc, to_int16]
  have hceil : ⌈(-32767 : ℚ)⌉ = -32767 := by
    rw [Int.ceil_eq_iff]; norm_num
  have h2 : float_to_int16 (-1) = -32767 := by
    norm_num [float_to_int16, trunc, to_int16, hceil]
  rw [hst]
  simp [submitted, h1, h2]

/-- C20: with the host audio batch callback unset, `cytrus_audio_process_samples`,
`cytrus_audio_process_float_samples` and `cytrus_audio_generate_silence` return at once
with the state unchanged for every input: buffer contents and buffered count stay as they
were. -/
theorem callback_unset_is_noop (s : AudioState) (hcb : s.audio_sample_batch_cb = false)
    (samples : List Int) (fsamples : List ℚ) (frame_count : Nat) :
    cytrus_audio_process_samples s samples = some s ∧
    cytrus_audio_process_float_samples s fsamples = some s ∧
    cytrus_audio_generate_silence s frame_count = some s := by
  simp [cytrus_audio_process_samples, cytrus_audio_process_float_samples,
    cytrus_audio_generate_silence, hcb]

/-- Witness of C20: the initialised batcher before the host has registered a callback. -/
theorem callback_unset_is_noop_witness :
    cytrus_audio_process_samples (cytrus_audio_init audio_initial).1 [5, 6, 7]
      = some (cytrus_audio_init audio_initial).1 ∧
    cytrus_audio_process_float_samples (cytrus_audio_init audio_initial).1 [1 / 2]
      = some (cytrus_audio_init audio_initial).1 ∧
    cytrus_audio_generate_silence (cytrus_audio_init audio_initial).1 512
      = some (cytrus_audio_init audio_initial).1 :=
  callback_unset_is_noop (cytrus_audio_init audio_initial).1 rfl [5, 6, 7] [1 / 2] 512

/-! ## Audio batcher: silence, mute gate, volume and float conversion -/

theorem apply_volume_zero (volume : ℚ) : apply_volume volume 0 = 0 := by
  unfold apply_volume
  split
  · simp [trunc, to_int16]
  · rfl

/-- Copying a chunk of `k` zero samples zeroes `k` buffer cells from `buffer_pos` on, as
the `memset` of the silence loop does. -/
theorem copy_chunk_zeros (k : Nat) :
    ∀ s : AudioState, copy_chunk id s (List.replicate k 0) =
      { s with audio_buffer := fun i =>
                 if s.buffer_pos ≤ i ∧ i < s.buffer_pos + k then 0 else s.audio_buffer i,
               buffer_pos := s.buffer_pos + k } := by
  induction k with
  | zero =>
    intro s
    cases s
    simp only [copy_chunk, List.replicate_zero, List.foldl_nil, Nat.add_zero,
      AudioState.mk.injEq, and_true, true_and]
    funext i
    split
    · omega
    · rfl
  | succ k ih =>
    intro s
    have h := ih { s with audio_buffer := Function.update s.audio_buffer s.buffer_pos
                            (apply_volume s.volume (id 0)),
                          buffer_pos := s.buffer_pos + 1 }
    simp only [copy_chunk, List.replicate_succ, List.foldl_cons] at h ⊢
    rw [h]
    simp only [id, apply_volume_zero]
    congr 1
    · funext i
      by_cases hi : i = s.buffer_pos
      · subst hi; simp
      · simp only [Function.update_noteq hi]
        by_cases h1 : s.buffer_pos + 1 ≤ i ∧ i < s.buffer_pos + 1 + k
        · have h2 : s.buffer_pos ≤ i ∧ i < s.buffer_pos + (k + 1) := by omega
          simp [h1, h2]
        · have h2 : ¬ (s.buffer_pos ≤ i ∧ i < s.buffer_pos + (k + 1)) := by omega
          simp [h1, h2]
    · omega

/-- The fill loop on `n` zero samples is the silence loop for `n` samples. -/
theorem process_loop_zeros_eq_silence_loop :
    ∀ (fuel : Nat) (s : AudioState) (n : Nat),
      process_loop id fuel s (List.replicate n 0) = silence_loop fuel s n := by
  intro fuel
  induction fuel with
  | zero =>
    intro s n
    cases n with
    | zero => simp [process_loop, silence_loop]
    | succ n => simp [List.replicate_succ, process_loop, silence_loop]
  | succ fuel ih =>
    intro s n
    cases n with
    | zero => simp [process_loop, silence_loop]
    | succ n =>
      simp only [List.replicate_succ, process_loop, silence_loop, List.length_cons,
        List.length_replicate]
      rw [← List.replicate_succ]
      set k := (if n + 1 < size_sub BUFFER_SIZE s.buffer_pos then n + 1
                else size_sub BUFFER_SIZE s.buffer_pos) with hk
      have hkle : k ≤ n + 1 := by rw [hk]; split <;> omega
      have htake : List.take k (List.replicate (n + 1) (0 : Int)) = List.replicate k 0 := by
        rw [List.take_replicate, Nat.min_eq_left hkle]
      have hdrop : List.drop k (List.replicate (n + 1) (0 : Int))
          = List.replicate (n + 1 - k) 0 := by
        rw [List.drop_replicate]
      rw [htake, hdrop, copy_chunk_zeros, ih]

/-- C21: in every state that is initialised, unmuted and has the callback set,
`cytrus_audio_generate_silence(f)` returns exactly the state (host callback trace with
frame counts and sample data, buffer contents, buffered count) that
`cytrus_audio_process_samples` reaches on `2 * f` zero samples, the count taken as the
`size_t` value the code computes. -/
theorem silence_is_zero_submission (s : AudioState) (f : Nat)
    (hinit : s.audio_initialized = true) (hmute : s.audio_muted = false)
    (hcb : s.audio_sample_batch_cb = true) :
    cytrus_audio_generate_silence s f
      = cytrus_audio_process_samples s (List.replicate ((2 * f) % SIZE_MOD) 0) ∧
    (2 * f < SIZE_MOD →
      cytrus_audio_generate_silence s f
        = cytrus_audio_process_samples s (List.replicate (2 * f) 0)) ∧
    ∃ s' : AudioState, cytrus_audio_generate_silence s f = some s' := by
  have key : cytrus_audio_generate_silence s f
      = cytrus_audio_process_samples s (List.replicate ((2 * f) % SIZE_MOD) 0) := by
    simp only [cytrus_audio_generate_silence, cytrus_audio_process_samples, hinit, hmute, hcb,
      Bool.not_true, Bool.or_self, Bool.false_eq_true, if_false, List.length_replicate,
      CHANNELS]
    rw [Nat.mul_comm f 2, process_loop_zeros_eq_silence_loop]
  refine ⟨key, ?_, ?_⟩
  · intro h
    rw [key, Nat.mod_eq_of_lt h]
  · rw [key]
    simp only [cytrus_audio_process_samples, hinit, hmute, hcb, Bool.not_true, Bool.or_self,
      Bool.false_eq_true, if_false]
    exact process_loop_terminates id s _

/-- Witness of C21: 513 frames of silence into the freshly initialised batcher. -/
theorem silence_is_zero_submission_witness :
    cytrus_audio_generate_silence audio_ready 513
      = cytrus_audio_process_samples audio_ready (List.replicate (2 * 513) 0) :=
  (silence_is_zero_submission audio_ready 513 rfl rfl rfl).2.1 (by decide)

/-- For a scale in 1..8 the dimensions of every layout are the unwrapped products. -/
theorem layout_dimensions_small (layout : ScreenLayout) (k : Nat) (hk : k ≤ 8) :
    layout_dimensions layout k
      = (match layout with
         | ScreenLayout.TopBottom => (400 * k, 480 * k)
         | ScreenLayout.SideBySide => (720 * k, 240 * k)
         | ScreenLayout.TopOnly => (400 * k, 240 * k)
         | ScreenLayout.BottomOnly => (320 * k, 240 * k)) := by
  cases layout <;>
    simp only [layout_dimensions, TOP_SCREEN_WIDTH, TOP_SCREEN_HEIGHT, BOTTOM_SCREEN_WIDTH,
      BOTTOM_SCREEN_HEIGHT, U32_MOD, Prod.mk.injEq] <;>
    omega

theorem video_init_pitch (malloc_ok : Bool) (s : VideoState) (w h scale : Nat) :
    (cytrus_video_init malloc_ok s w h scale).1.video_pitch
      = ((cytrus_video_init malloc_ok s w h scale).1.video_width * 4) % U32_MOD := by
  cases malloc_ok <;> simp [cytrus_video_init]

theorem video_init_buffer (s : VideoState) (w h scale : Nat) :
    (cytrus_video_init true s w h scale).1.video_buffer
      = some (List.replicate
          (((cytrus_video_init true s w h scale).1.video_width
            * (cytrus_video_init true s w h scale).1.video_height) % U32_MOD) 0) := by
  simp only [cytrus_video_init, if_true]

/-- For a scale in 1..8 no output dimension exceeds 5760 x 3840. -/
theorem layout_dimensions_le (layout : ScreenLayout) (k : Nat) (hk : k ≤ 8) :
    (layout_dimensions layout k).1 ≤ 5760 ∧ (layout_dimensions layout k).2 ≤ 3840 := by
  rw [layout_dimensions_small layout k hk]
  cases layout <;> simp only <;> omega

/-- What a successful `cytrus_video_init` with a scale in 1..8 leaves: the scale, the
layout unchanged, the dimensions of layout and scale, pitch `4 * width`, and a buffer of
`width * height` zero pixels. -/
theorem video_init_result (s : VideoState) (w h k : Nat) (hk1 : 1 ≤ k) (hk8 : k ≤ 8) :
    (cytrus_video_init true s w h k).2 = true ∧
    (cytrus_video_init true s w h k).1.resolution_scale = k ∧
    (cytrus_video_init true s w h k).1.current_layout = s.current_layout ∧
    ((cytrus_video_init true s w h k).1.video_width,
      (cytrus_video_init true s w h k).1.video_height) = layout_dimensions s.current_layout k ∧
    (cytrus_video_init true s w h k).1.video_pitch
      = 4 * (cytrus_video_init true s w h k).1.video_width ∧
    (cytrus_video_init true s w h k).1.video_buffer
      = some (List.replicate ((cytrus_video_init true s w h k).1.video_width
                * (cytrus_video_init true s w h k).1.video_height) 0) := by
  have hmod : k % U32_MOD = k := Nat.mod_eq_of_lt (by simp only [U32_MOD]; omega)
  have hdims := video_init_dimensions true s w h k
  rw [hmod] at hdims
  simp only [cytrus_video_get_dimensions] at hdims
  obtain ⟨hwle, hhle⟩ := layout_dimensions_le s.current_layout k hk8
  have hw : (cytrus_video_init true s w h k).1.video_width
      = (layout_dimensions s.current_layout k).1 := by rw [← hdims]
  have hh : (cytrus_video_init true s w h k).1.video_height
      = (layout_dimensions s.current_layout k).2 := by rw [← hdims]
  rw [← hw] at hwle
  rw [← hh] at hhle
  have hsc := video_init_scale true s w h k
  rw [hmod] at hsc
  refine ⟨by simp [cytrus_video_init], hsc, video_init_layout true s w h k, hdims, ?_, ?_⟩
  · rw [video_init_pitch]
    simp only [U32_MOD]
    omega
  · have hprod : (cytrus_video_init true s w h k).1.video_width
        * (cytrus_video_init true s w h k).1.video_height < U32_MOD := by
      calc (cytrus_video_init true s w h k).1.video_width
            * (cytrus_video_init true s w h k).1.video_height
          ≤ 5760 * 3840 := Nat.mul_le_mul hwle hhle
        _ < U32_MOD := by decide
    have hb := video_init_buffer s w h k
    rw [Nat.mod_eq_of_lt hprod] at hb
    exact hb

theorem video_init_configured (s : VideoState) (w h k : Nat) (hk1 : 1 ≤ k) (hk8 : k ≤ 8) :
    video_configured (cytrus_video_init true s w h k).1 := by
  obtain ⟨_, hsc, hl, hd, hp, hb⟩ := video_init_result s w h k hk1 hk8
  refine ⟨by rw [hsc]; exact hk1, by rw [hsc]; exact hk8, by rw [hd, hl, hsc], hp, _, hb, ?_⟩
  simp

/-- C28: for every scale outside 1..8, `cytrus_video_set_resolution_scale(scale)` leaves
the whole state as it was: stored scale, output width, height and pitch, layout and
output buffer. -/
theorem invalid_scale_ignored (malloc_ok : Bool) (s : VideoState) (scale : Nat)
    (hscale : ¬ (1 ≤ scale ∧ scale ≤ 8)) :
    cytrus_video_set_resolution_scale malloc_ok s scale = s := by
  unfold cytrus_video_set_resolution_scale
  rw [if_neg (by simpa [ge_iff_le] using hscale)]

/-- Witness of C28: scale 9 on the state with the static initialisers. -/
theorem invalid_scale_ignored_witness :
    cytrus_video_set_resolution_scale true video_initial 9 = video_initial :=
  invalid_scale_ignored true video_initial 9 (by decide)

/-- C29 (evaluation of the code where the claim fails): `cytrus_video_init(800, 480, 9)`
succeeds, stores resolution scale 9 and sets the output dimensions to 3600 x 4320;
`cytrus_video_init(800, 480, 0)` stores scale 0 and dimensions 0 x 0. -/
theorem init_adopts_invalid_scale :
    (cytrus_video_init true video_initial 800 480 9).2 = true ∧
    (cytrus_video_init true video_initial 800 480 9).1.resolution_scale = 9 ∧
    cytrus_video_get_dimensions (cytrus_video_init true video_initial 800 480 9).1
      = (3600, 4320) ∧
    (cytrus_video_init true video_initial 800 480 0).1.resolution_scale = 0 ∧
    cytrus_video_get_dimensions (cytrus_video_init true video_initial 800 480 0).1 = (0, 0) := by
  decide

theorem store_all_length (ws : List (Nat × Nat)) :
    ∀ dst : List Nat, (store_all dst ws).length = dst.length := by
  induction ws with
  | nil => intro dst; rfl
  | cons w ws ih =>
    intro dst
    simp only [store_all, List.foldl_cons] at ih ⊢
    rw [ih, List.length_set]

/-- A pixel that no store of the sequence addresses keeps its value. -/
theorem store_all_untouched (i : Nat) (ws : List (Nat × Nat)) :
    ∀ dst : List Nat, (∀ w ∈ ws, w.1 ≠ i) → (store_all dst ws)[i]? = dst[i]? := by
  induction ws with
  | nil => intro dst _; rfl
  | cons w ws ih =>
    intro dst h
    simp only [store_all, List.foldl_cons] at ih ⊢
    rw [ih _ (fun w' hw' => h w' (List.mem_cons_of_mem _ hw'))]
    exact List.getElem?_set_ne (h w (List.mem_cons_self _ _))

/-- An allocated pixel that is addressed by some store, all stores to it carrying the
value `v`, ends up holding `v`. -/
theorem store_all_written (i v : Nat) (ws : List (Nat × Nat)) :
    ∀ dst : List Nat, i < dst.length → (∃ w ∈ ws, w.1 = i) →
      (∀ w ∈ ws, w.1 = i → w.2 = v) → (store_all dst ws)[i]? = some v := by
  induction ws with
  | nil => intro dst _ h _; obtain ⟨w, hw, _⟩ := h; cases hw
  | cons w ws ih =>
    intro dst hlen hex hall
    by_cases hrest : ∃ w' ∈ ws, w'.1 = i
    · simp only [store_all, List.foldl_cons] at ih ⊢
      exact ih _ (by rw [List.length_set]; exact hlen) hrest
        (fun w' hw' => hall w' (List.mem_cons_of_mem _ hw'))
    · have hnone : ∀ w' ∈ ws, w'.1 ≠ i := fun w' hw' he => hrest ⟨w', hw', he⟩
      have hw : w.1 = i := by
        obtain ⟨w', hw', he⟩ := hex
        rcases List.mem_cons.mp hw' with h | h
        · rw [← h]; exact he
        · exact absurd he (hnone w' h)
      have hv : w.2 = v := hall w (List.mem_cons_self _ _) hw
      have h1 := store_all_untouched i ws (dst.set w.1 w.2) hnone
      simp only [store_all, List.foldl_cons] at h1 ⊢
      rw [h1, hw, hv, List.getElem?_set_self hlen]

theorem memset_zero_length (dst : List Nat) (n : Nat) :
    (memset_zero dst n).length = dst.length :=
  store_all_length _ dst

theorem memset_zero_get (dst : List Nat) (n i : Nat) (hi : i < n) (hn : n ≤ dst.length) :
    (memset_zero dst n)[i]? = some 0 := by
  apply store_all_written i 0 _ dst (Nat.lt_of_lt_of_le hi hn)
  · exact ⟨(i, 0), by simp [hi], rfl⟩
  · intro w hw _
    simp only [List.mem_map, List.mem_range] at hw
    obtain ⟨j, _, rfl⟩ := hw
    rfl

/-- A pixel index determines its row and column. -/
theorem pixel_index_unique (W a b a' b' : Nat) (hb : b < W) (hb' : b' < W)
    (h : a * W + b = a' * W + b') : a = a' ∧ b = b' := by
  have hW : 0 < W := Nat.lt_of_le_of_lt (Nat.zero_le _) hb
  have h1 : (a * W + b) / W = a := by
    rw [Nat.mul_comm, Nat.mul_add_div hW, Nat.div_eq_of_lt hb, Nat.add_zero]
  have h2 : (a' * W + b') / W = a' := by
    rw [Nat.mul_comm, Nat.mul_add_div hW, Nat.div_eq_of_lt hb', Nat.add_zero]
  have ha : a = a' := by rw [← h1, ← h2, h]
  subst ha
  exact ⟨rfl, Nat.add_left_cancel h⟩

/-- With four bytes per pixel and no wrap of the byte offset, `dst_line[x]` of row `y` is
pixel `(dst_y + y) * W + dst_x + x`. -/
theorem dst_index_eq (W dx dy x y : Nat) (h : (dy + y) * (4 * W) < U32_MOD) :
    dst_index dx dy (4 * W) x y = (dy + y) * W + dx + x := by
  unfold dst_index
  rw [Nat.mod_eq_of_lt h]
  have e : (dy + y) * (4 * W) = 4 * ((dy + y) * W) := by ring
  rw [e, Nat.mul_div_cancel_left _ (by decide : 0 < 4)]

theorem mem_convert_writes (src : Nat → Nat) (w h dx dy pitch : Nat) (e : Nat × Nat) :
    e ∈ convert_writes src w h dx dy pitch ↔
      ∃ y, y < h ∧ ∃ x, x < w ∧
        e = (dst_index dx dy pitch x y,
             rgba_pixel (src (src_byte_index w x y 0)) (src (src_byte_index w x y 1))
               (src (src_byte_index w x y 2))) := by
  simp only [convert_writes, List.mem_flatMap, List.mem_map, List.mem_range]
  constructor
  · rintro ⟨y, hy, x, hx, rfl⟩
    exact ⟨y, hy, x, hx, rfl⟩
  · rintro ⟨y, hy, x, hx, rfl⟩
    exact ⟨y, hy, x, hx, rfl⟩

theorem row_offset_lt (W dy h y : Nat) (hy : y < h) (hoff : (dy + h) * (4 * W) < U32_MOD) :
    (dy + y) * (4 * W) < U32_MOD :=
  Nat.lt_of_le_of_lt (Nat.mul_le_mul_right _ (by omega)) hoff

/-- A pixel outside the destination rectangle of a conversion keeps its value. -/
theorem convert_get_outside (src : Nat → Nat) (dst : List Nat) (W w h dx dy col row : Nat)
    (hfit : dx + w ≤ W) (hoff : (dy + h) * (4 * W) < U32_MOD) (hcol : col < W)
    (hout : ¬ (dx ≤ col ∧ col < dx + w ∧ dy ≤ row ∧ row < dy + h)) :
    (convert_framebuffer_to_rgba src dst w h dx dy (4 * W))[row * W + col]?
      = dst[row * W + col]? := by
  apply store_all_untouched
  intro e he
  rw [mem_convert_writes] at he
  obtain ⟨y, hy, x, hx, rfl⟩ := he
  simp only
  rw [dst_index_eq W dx dy x y (row_offset_lt W dy h y hy hoff)]
  intro heq
  have hu := pixel_index_unique W (dy + y) (dx + x) row col (by omega) hcol
    (by rw [← heq]; ring)
  apply hout
  omega

/-- Source pixel `(x, y)` of a conversion lands on destination pixel
`(dst_y + y) * W + dst_x + x`. -/
theorem convert_get_inside (src : Nat → Nat) (dst : List Nat) (W w h dx dy x y : Nat)
    (hx : x < w) (hy : y < h) (hfit : dx + w ≤ W) (hoff : (dy + h) * (4 * W) < U32_MOD)
    (hlen : (dy + h) * W ≤ dst.length) :
    (convert_framebuffer_to_rgba src dst w h dx dy (4 * W))[(dy + y) * W + (dx + x)]?
      = some (rgba_pixel (src (src_byte_index w x y 0)) (src (src_byte_index w x y 1))
               (src (src_byte_index w x y 2))) := by
  apply store_all_written
  · have h0 : (dy + y + 1) * W = (dy + y) * W + W := by ring
    have h1 : (dy + y) * W + (dx + x) < (dy + y + 1) * W := by
      rw [h0]; omega
    have h2 : (dy + y + 1) * W ≤ (dy + h) * W := Nat.mul_le_mul_right _ (by omega)
    omega
  · refine ⟨_, (mem_convert_writes src w h dx dy (4 * W) _).mpr ⟨y, hy, x, hx, rfl⟩, ?_⟩
    simp only
    rw [dst_index_eq W dx dy x y (row_offset_lt W dy h y hy hoff)]
    ring
  · intro e he heq
    rw [mem_convert_writes] at he
    obtain ⟨y', hy', x', hx', rfl⟩ := he
    simp only at heq ⊢
    rw [dst_index_eq W dx dy x' y' (row_offset_lt W dy h y' hy' hoff)] at heq
    have hu := pixel_index_unique W (dy + y') (dx + x') (dy + y) (dx + x) (by omega) (by omega)
      (by rw [← Nat.add_assoc, heq])
    have hyy : y' = y := by omega
    have hxx : x' = x := by omega
    rw [hyy, hxx]

theorem convert_length (src : Nat → Nat) (dst : List Nat) (w h dx dy pitch : Nat) :
    (convert_framebuffer_to_rgba src dst w h dx dy pitch).length = dst.length :=
  store_all_length _ dst

/-- The stored pixel is `0xFF000000 + r * 65536 + g * 256 + b` for the three bytes. -/
theorem rgba_pixel_eq (r g b : Nat) :
    rgba_pixel r g b = 0xFF000000 + (r % 256) * 65536 + (g % 256) * 256 + b % 256 := by
  have hr : r % 256 < 256 := Nat.mod_lt _ (by decide)
  have hg : g % 256 < 256 := Nat.mod_lt _ (by decide)
  have hb : b % 256 < 256 := Nat.mod_lt _ (by decide)
  unfold rgba_pixel
  generalize r % 256 = r' at hr ⊢
  generalize g % 256 = g' at hg ⊢
  generalize b % 256 = b' at hb ⊢
  have h1 := Nat.mul_add_lt_is_or (i := 24) (b := r' * 65536) (by omega) 255
  have h2 := Nat.mul_add_lt_is_or (i := 16) (b := g' * 256) (by omega) (65280 + r')
  have h3 := Nat.mul_add_lt_is_or (i := 8) (b := b') (by omega) ((65280 + r') * 256 + g')
  have e1 : (r' <<< 16) = r' * 65536 := by rw [Nat.shiftLeft_eq]
  have e2 : (g' <<< 8) = g' * 256 := by rw [Nat.shiftLeft_eq]
  rw [e1, e2]
  have f1 : (0xFF000000 : Nat) = 2 ^ 24 * 255 := by norm_num
  rw [f1, ← h1]
  have f2 : 2 ^ 24 * 255 + r' * 65536 = 2 ^ 16 * (65280 + r') := by omega
  rw [f2, ← h2]
  have f3 : 2 ^ 16 * (65280 + r') + g' * 256 = 2 ^ 8 * ((65280 + r') * 256 + g') := by omega
  rw [f3, ← h3]

theorem src_byte_index_eq (w h x y c : Nat) (hw : w ≤ 400) (hh : h ≤ 240) (hx : x < w)
    (hy : y < h) (hc : c < 3) : src_byte_index w x y c = (y * w + x) * 3 + c := by
  unfold src_byte_index
  apply Nat.mod_eq_of_lt
  have h0 : (y + 1) * w = y * w + w := by ring
  have h1 : (y + 1) * w ≤ 240 * 400 :=
    Nat.mul_le_mul (by omega) hw
  simp only [U32_MOD]
  omega

/-- The placements of a configured state, with `bottom_x` and `bottom_y` evaluated. -/
theorem placements_configured (s : VideoState) (hs : video_configured s) :
    (s.current_layout = ScreenLayout.TopBottom ∧ s.video_width = 400 * s.resolution_scale ∧
      s.video_height = 480 * s.resolution_scale ∧
      placements s = [⟨true, 400, 240, 0, 0⟩,
        ⟨false, 320, 240, 40 * s.resolution_scale, 240 * s.resolution_scale⟩]) ∨
    (s.current_layout = ScreenLayout.SideBySide ∧ s.video_width = 720 * s.resolution_scale ∧
      s.video_height = 240 * s.resolution_scale ∧
      placements s = [⟨true, 400, 240, 0, 0⟩,
        ⟨false, 320, 240, 400 * s.resolution_scale, 0⟩]) ∨
    (s.current_layout = ScreenLayout.TopOnly ∧ s.video_width = 400 * s.resolution_scale ∧
      s.video_height = 240 * s.resolution_scale ∧
      placements s = [⟨true, 400, 240, 0, 0⟩]) ∨
    (s.current_layout = ScreenLayout.BottomOnly ∧ s.video_width = 320 * s.resolution_scale ∧
      s.video_height = 240 * s.resolution_scale ∧
      placements s = [⟨false, 320, 240, 0, 0⟩]) := by
  obtain ⟨_, h8, hd, _, _⟩ := hs
  rw [layout_dimensions_small _ _ h8] at hd
  unfold placements
  cases hlay : s.current_layout <;> rw [hlay] at hd <;>
    simp only [Prod.mk.injEq] at hd <;> obtain ⟨hw, hh⟩ := hd
  · refine Or.inl ⟨rfl, hw, hh, ?_⟩
    simp only [TOP_SCREEN_WIDTH, TOP_SCREEN_HEIGHT, BOTTOM_SCREEN_WIDTH, BOTTOM_SCREEN_HEIGHT,
      U32_MOD, hw, List.cons.injEq, Placement.mk.injEq, true_and, and_true]
    omega
  · refine Or.inr (Or.inl ⟨rfl, hw, hh, ?_⟩)
    simp only [TOP_SCREEN_WIDTH, TOP_SCREEN_HEIGHT, BOTTOM_SCREEN_WIDTH, BOTTOM_SCREEN_HEIGHT,
      U32_MOD, List.cons.injEq, Placement.mk.injEq, true_and, and_true]
    omega
  · exact Or.inr (Or.inr (Or.inl ⟨rfl, hw, hh, rfl⟩))
  · exact Or.inr (Or.inr (Or.inr ⟨rfl, hw, hh, rfl⟩))

theorem configured_bounds (s : VideoState) (hs : video_configured s) :
    s.video_width ≤ 5760 ∧ s.video_height ≤ 3840 := by
  obtain ⟨_, h8, hd, _, _⟩ := hs
  have h := layout_dimensions_le s.current_layout s.resolution_scale h8
  rw [← hd] at h
  exact h

/-- Every surface of a configured state is placed inside the output. -/
theorem placements_fit (s : VideoState) (hs : video_configured s) :
    ∀ p ∈ placements s, p.dst_x + p.src_width ≤ s.video_width ∧
      p.dst_y + p.src_height ≤ s.video_height ∧ p.src_width ≤ 400 ∧ p.src_height ≤ 240 := by
  have h1 := hs.1
  intro p hp
  rcases placements_configured s hs with ⟨_, hw, hh, hpl⟩ | ⟨_, hw, hh, hpl⟩ |
      ⟨_, hw, hh, hpl⟩ | ⟨_, hw, hh, hpl⟩ <;>
    rw [hpl] at hp <;>
    simp only [List.mem_cons, List.mem_singleton, List.mem_nil_iff, or_false] at hp
  · rcases hp with rfl | rfl <;> simp only <;> omega
  · rcases hp with rfl | rfl <;> simp only <;> omega
  · subst hp; simp only; omega
  · subst hp; simp only; omega

/-- The surfaces of a configured state do not overlap. -/
theorem placements_disjoint (s : VideoState) (hs : video_configured s) :
    (placements s).Pairwise (fun p q => ∀ col row, covers p col row → ¬ covers q col row) := by
  have h1 := hs.1
  rcases placements_configured s hs with ⟨_, _, _, hpl⟩ | ⟨_, _, _, hpl⟩ |
      ⟨_, _, _, hpl⟩ | ⟨_, _, _, hpl⟩ <;> rw [hpl]
  · simp only [List.pairwise_cons, List.mem_singleton, List.not_mem_nil, forall_eq,
      List.Pairwise.nil, and_true, IsEmpty.forall_iff, implies_true, covers]
    intro col row; omega
  · simp only [List.pairwise_cons, List.mem_singleton, List.not_mem_nil, forall_eq,
      List.Pairwise.nil, and_true, IsEmpty.forall_iff, implies_true, covers]
    intro col row; omega
  · simp
  · simp

theorem compose_length (top bottom : Nat → Nat) (pitch : Nat) (ps : List Placement) :
    ∀ dst : List Nat,
      (ps.foldl (fun dst p =>
        convert_framebuffer_to_rgba (if p.top_surface then top else bottom)
          dst p.src_width p.src_height p.dst_x p.dst_y pitch) dst).length = dst.length := by
  induction ps with
  | nil => intro dst; rfl
  | cons p ps ih =>
    intro dst
    rw [List.foldl_cons, ih, convert_length]

/-- A pixel outside every placed rectangle keeps its value through the conversions. -/
theorem compose_outside (top bottom : Nat → Nat) (W col row : Nat) (hcol : col < W)
    (ps : List Placement) :
    ∀ dst : List Nat,
      (∀ p ∈ ps, p.dst_x + p.src_width ≤ W ∧ (p.dst_y + p.src_height) * (4 * W) < U32_MOD ∧
        ¬ covers p col row) →
      (ps.foldl (fun dst p =>
        convert_framebuffer_to_rgba (if p.top_surface then top else bottom)
          dst p.src_width p.src_height p.dst_x p.dst_y (4 * W)) dst)[row * W + col]?
        = dst[row * W + col]? := by
  induction ps with
  | nil => intro dst _; rfl
  | cons p ps ih =>
    intro dst h
    rw [List.foldl_cons, ih _ (fun q hq => h q (List.mem_cons_of_mem _ hq))]
    obtain ⟨hfit, hoff, hout⟩ := h p (List.mem_cons_self _ _)
    exact convert_get_outside _ dst W _ _ _ _ col row hfit hoff hcol hout

/-- Source pixel `(x, y)` of each of a list of non-overlapping placements ends up at
column `dst_x + x` of row `dst_y + y`. -/
theorem compose_inside (top bottom : Nat → Nat) (W : Nat) (ps : List Placement) :
    ∀ dst : List Nat,
      ps.Pairwise (fun p q => ∀ col row, covers p col row → ¬ covers q col row) →
      (∀ p ∈ ps, p.dst_x + p.src_width ≤ W ∧ (p.dst_y + p.src_height) * (4 * W) < U32_MOD ∧
        (p.dst_y + p.src_height) * W ≤ dst.length) →
      ∀ p ∈ ps, ∀ x y, x < p.src_width → y < p.src_height →
        (ps.foldl (fun dst p =>
          convert_framebuffer_to_rgba (if p.top_surface then top else bottom)
            dst p.src_width p.src_height p.dst_x p.dst_y (4 * W)) dst)[
              (p.dst_y + y) * W + (p.dst_x + x)]?
          = some (rgba_pixel
              ((if p.top_surface then top else bottom) (src_byte_index p.src_width x y 0))
              ((if p.top_surface then top else bottom) (src_byte_index p.src_width x y 1))
              ((if p.top_surface then top else bottom) (src_byte_index p.src_width x y 2))) := by
  induction ps with
  | nil => intro dst _ _ p hp; cases hp
  | cons q ps ih =>
    intro dst hpw hok p hp x y hx hy
    rw [List.pairwise_cons] at hpw
    rw [List.foldl_cons]
    rcases List.mem_cons.mp hp with rfl | hmem
    · obtain ⟨hfit, hoff, hlen⟩ := hok p (List.mem_cons_self _ _)
      rw [compose_outside top bottom W (p.dst_x + x) (p.dst_y + y) (by omega) ps _
        (fun r hr => ⟨(hok r (List.mem_cons_of_mem _ hr)).1,
          (hok r (List.mem_cons_of_mem _ hr)).2.1,
          hpw.1 r hr _ _ ⟨by omega, by omega, by omega, by omega⟩⟩)]
      exact convert_get_inside _ dst W _ _ _ _ x y hx hy hfit hoff hlen
    · exact ih _ hpw.2
        (fun r hr => by
          rw [convert_length]
          exact hok r (List.mem_cons_of_mem _ hr)) p hmem x y hx hy

/-- What a composite pass with buffer and callback present does in a configured state:
the buffer is zero-filled, the placements are converted in order, and the result is both
kept and handed to the host with the output width, height and pitch. -/
theorem render_frame_configured (top bottom : Nat → Nat) (s : VideoState)
    (hs : video_configured s) :
    ∃ video_buffer composed : List Nat,
      s.video_buffer = some video_buffer ∧
      composed = (placements s).foldl (fun dst p =>
        convert_framebuffer_to_rgba (if p.top_surface then top else bottom)
          dst p.src_width p.src_height p.dst_x p.dst_y (4 * s.video_width))
        (memset_zero video_buffer (s.video_width * s.video_height)) ∧
      composed.length = s.video_width * s.video_height ∧
      video_buffer.length = s.video_width * s.video_height ∧
      render_frame true top bottom s
        = ({ s with video_buffer := some composed },
           some ⟨composed, s.video_width, s.video_height, 4 * s.video_width⟩) := by
  have hb := configured_bounds s hs
  obtain ⟨_, _, _, hp, buf, hbuf, hlen⟩ := hs
  have hlt : s.video_width * s.video_height < U32_MOD :=
    calc s.video_width * s.video_height ≤ 5760 * 3840 := Nat.mul_le_mul hb.1 hb.2
      _ < U32_MOD := by decide
  refine ⟨buf, _, hbuf, rfl, ?_, hlen, ?_⟩
  · rw [compose_length, memset_zero_length, hlen]
  · unfold render_frame
    rw [hbuf]
    simp only [Bool.not_true, Bool.false_eq_true, if_false, hp, Nat.mod_eq_of_lt hlt]

theorem configured_offsets (s : VideoState) (hs : video_configured s) :
    ∀ p ∈ placements s, p.dst_x + p.src_width ≤ s.video_width ∧
      (p.dst_y + p.src_height) * (4 * s.video_width) < U32_MOD ∧
      (p.dst_y + p.src_height) * s.video_width ≤ s.video_width * s.video_height := by
  have hb := configured_bounds s hs
  intro p hp
  obtain ⟨hfit, hrow, _, _⟩ := placements_fit s hs p hp
  refine ⟨hfit, ?_, ?_⟩
  · calc (p.dst_y + p.src_height) * (4 * s.video_width)
        ≤ 3840 * (4 * 5760) := Nat.mul_le_mul (by omega) (by omega)
      _ < U32_MOD := by decide
  · rw [Nat.mul_comm s.video_width]
    exact Nat.mul_le_mul_right _ hrow

/-- C26: in a configured state (any layout, scale 1..8, any previous buffer content), after
the composite pass with buffer and callback present every pixel of the output, at column
`col < video_width` of row `row < video_height`, that no placed surface covers is 0, in the
kept buffer and in the frame handed to the host; `cytrus_video_render_frame` is this pass
with its two static source arrays. -/
theorem composite_clears_uncovered (top bottom : Nat → Nat) (s : VideoState)
    (hs : video_configured s) :
    cytrus_video_render_frame true s = render_frame true (fun _ => 0) (fun _ => 0) s ∧
    ∃ composed : List Nat,
      (render_frame true top bottom s).1.video_buffer = some composed ∧
      (render_frame true top bottom s).2.map (fun f => f.data) = some composed ∧
      ∀ col row, col < s.video_width → row < s.video_height →
        (∀ p ∈ placements s, ¬ covers p col row) →
        composed[row * s.video_width + col]? = some 0 := by
  refine ⟨rfl, ?_⟩
  obtain ⟨buf, composed, hbuf, hcomp, hlen, hblen, hr⟩ := render_frame_configured top bottom s hs
  refine ⟨composed, by rw [hr], by rw [hr]; rfl, ?_⟩
  intro col row hcol hrow hout
  rw [hcomp, compose_outside top bottom s.video_width col row hcol (placements s) _
    (fun p hp => ⟨(configured_offsets s hs p hp).1, (configured_offsets s hs p hp).2.1,
      hout p hp⟩)]
  apply memset_zero_get
  · have h0 : (row + 1) * s.video_width = row * s.video_width + s.video_width := by ring
    have h1 : (row + 1) * s.video_width ≤ s.video_height * s.video_width :=
      Nat.mul_le_mul_right _ (by omega)
    rw [Nat.mul_comm s.video_width]
    omega
  · rw [hblen]

theorem composite_clears_uncovered_witness :
    video_configured ⟨some (List.replicate (1440 * 480) 7), 1440, 480, 5760,
      ScreenLayout.SideBySide, 2⟩ ∧
    ∃ composed : List Nat,
      (render_frame true (fun i => i % 256) (fun i => (7 * i) % 256)
        ⟨some (List.replicate (1440 * 480) 7), 1440, 480, 5760,
          ScreenLayout.SideBySide, 2⟩).1.video_buffer = some composed ∧
      composed[300 * 1440 + 1000]? = some 0 :=
  ⟨⟨by decide, by decide, by decide, rfl, _, rfl, List.length_replicate _ _⟩,
   by
    obtain ⟨_, composed, hb, _, hpix⟩ :=
      composite_clears_uncovered (fun i => i % 256) (fun i => (7 * i) % 256)
        ⟨some (List.replicate (1440 * 480) 7), 1440, 480, 5760, ScreenLayout.SideBySide, 2⟩
        ⟨by decide, by decide, by decide, rfl, _, rfl, List.length_replicate _ _⟩
    exact ⟨composed, hb, hpix 1000 300 (by decide) (by decide) (by decide)⟩⟩

/-- C27: evaluation.  In the stacked layout at scale 2 (output 800 columns wide) the pass
places the 320-column bottom surface at column 80: 80 columns are left of it and 400 right
of it.  Over the scales 1..8 the two margins are `40 * k` and `360 * k - 320`, equal at
scale 1 only. -/
theorem bottom_surface_off_centre :
    placements (cytrus_video_set_resolution_scale true
        (cytrus_video_init true video_initial 0 0 1).1 2)
      = [⟨true, 400, 240, 0, 0⟩, ⟨false, 320, 240, 80, 480⟩] ∧
    (cytrus_video_set_resolution_scale true
        (cytrus_video_init true video_initial 0 0 1).1 2).video_width = 800 ∧
    side_margins (cytrus_video_set_resolution_scale true
        (cytrus_video_init true video_initial 0 0 1).1 2) ⟨false, 320, 240, 80, 480⟩
      = (80, 400) ∧
    (List.range 9).tail.map (fun k =>
        (placements (cytrus_video_init true video_initial 0 0 k).1).map
          (side_margins (cytrus_video_init true video_initial 0 0 k).1))
      = [[(0, 0), (40, 40)], [(0, 400), (80, 400)], [(0, 800), (120, 760)],
         [(0, 1200), (160, 1120)], [(0, 1600), (200, 1480)], [(0, 2000), (240, 1840)],
         [(0, 2400), (280, 2200)], [(0, 2800), (320, 2560)]] := by
  refine ⟨by decide, by decide, by decide, by decide⟩

/-! ## Audio batcher: the buffer stays bounded -/

theorem send_if_full_buffer (s : AudioState) : (send_if_full s).audio_buffer = s.audio_buffer := by
  unfold send_if_full
  split <;> rfl

/-- The copy loop stores only at the indices from `buffer_pos` on, one per sample. -/
theorem copy_chunk_frame {α : Type} (conv : α → Int) (chunk : List α) :
    ∀ (s : AudioState) (i : Nat), s.buffer_pos + chunk.length ≤ i →
      (copy_chunk conv s chunk).audio_buffer i = s.audio_buffer i := by
  induction chunk with
  | nil => intro s i _; rfl
  | cons x xs ih =>
    intro s i hi
    simp only [List.length_cons] at hi
    simp only [copy_chunk, List.foldl_cons] at ih ⊢
    rw [ih _ i (by simp only; omega)]
    simp only
    exact Function.update_noteq (by omega) _ _

/-- From a position below `BUFFER_SIZE` the fill loop never stores at index `BUFFER_SIZE`
or beyond. -/
theorem process_loop_frame {α : Type} (conv : α → Int) :
    ∀ (fuel : Nat) (s s' : AudioState) (samples : List α),
      s.buffer_pos < BUFFER_SIZE → process_loop conv fuel s samples = some s' →
      ∀ i, BUFFER_SIZE ≤ i → s'.audio_buffer i = s.audio_buffer i := by
  intro fuel
  induction fuel with
  | zero =>
    intro s s' samples _ hrun i _
    cases samples with
    | nil => simp only [process_loop, Option.some.injEq] at hrun; rw [← hrun]
    | cons x rest => simp [process_loop] at hrun
  | succ fuel ih =>
    intro s s' samples hp hrun i hi
    cases samples with
    | nil => simp only [process_loop, Option.some.injEq] at hrun; rw [← hrun]
    | cons x rest =>
      have hsub := size_sub_buffer s.buffer_pos (Nat.le_of_lt hp)
      simp only [process_loop, hsub] at hrun
      rw [ih _ s' _ (send_if_full_pos_lt _) hrun i hi, send_if_full_buffer]
      apply copy_chunk_frame
      rw [List.length_take]
      have hB : BUFFER_SIZE = 1024 := rfl
      split <;> omega

theorem push_sample_pos (s : AudioState) (v : Int) :
    (push_sample s v).buffer_pos = s.buffer_pos + 1 := rfl

theorem push_sample_frame (s : AudioState) (v : Int) (i : Nat) (hi : i ≠ s.buffer_pos) :
    (push_sample s v).audio_buffer i = s.audio_buffer i :=
  Function.update_noteq hi _ _

/-- From a position below `BUFFER_SIZE` the test tone loop ends below `BUFFER_SIZE` and
never stores beyond index `BUFFER_SIZE`. -/
theorem tone_loop_bounded (sin : ℚ → ℚ) (pi inc : ℚ) :
    ∀ (n : Nat) (s : AudioState) (phase : ℚ), s.buffer_pos < BUFFER_SIZE →
      (tone_loop sin pi inc n s phase).1.buffer_pos < BUFFER_SIZE ∧
      ∀ i, BUFFER_SIZE + 1 ≤ i →
        (tone_loop sin pi inc n s phase).1.audio_buffer i = s.audio_buffer i := by
  intro n
  induction n with
  | zero => intro s phase hp; exact ⟨hp, fun _ _ => rfl⟩
  | succ n ih =>
    intro s phase hp
    simp only [tone_loop]
    obtain ⟨h1, h2⟩ := ih (send_if_full (push_sample (push_sample s
      (float_to_int16 (sin phase * (3 / 10)))) (float_to_int16 (sin phase * (3 / 10)))))
      (if phase + inc ≥ 2 * pi then phase + inc - 2 * pi else phase + inc)
      (send_if_full_pos_lt _)
    refine ⟨h1, fun i hi => ?_⟩
    rw [h2 i hi, send_if_full_buffer, push_sample_frame _ _ _ (by rw [push_sample_pos]; omega),
      push_sample_frame _ _ _ (by omega)]

/-- Every operation keeps the position below `BUFFER_SIZE`, returns, and leaves what lies
behind the array `audio_buffer[BUFFER_SIZE * CHANNELS]` alone. -/
theorem run_op_bounded (sin : ℚ → ℚ) (pi : ℚ) (s : AudioState) (phase : ℚ) (op : AudioOp)
    (hp : s.buffer_pos < BUFFER_SIZE) :
    ∃ st : AudioState × ℚ, run_op sin pi (s, phase) op = some st ∧
      st.1.buffer_pos < BUFFER_SIZE ∧
      ∀ i, BUFFER_SIZE * CHANNELS ≤ i → st.1.audio_buffer i = s.audio_buffer i := by
  have hB : BUFFER_SIZE = 1024 := rfl
  have hC : CHANNELS = 2 := rfl
  cases op with
  | init =>
    refine ⟨_, rfl, ?_, ?_⟩
    · simp only [cytrus_audio_init]; split
      · exact hp
      · simp only [hB]; omega
    · intro i hi
      simp only [cytrus_audio_init]; split
      · rfl
      · simp only; rw [if_neg (by omega)]
  | deinit => exact ⟨_, rfl, by simp only [cytrus_audio_deinit, hB]; omega, fun _ _ => rfl⟩
  | set_volume vol => exact ⟨_, rfl, hp, fun _ _ => rfl⟩
  | set_muted muted => exact ⟨_, rfl, hp, fun _ _ => rfl⟩
  | set_audio_sample_batch cb => exact ⟨_, rfl, hp, fun _ _ => rfl⟩
  | process_samples samples =>
    simp only [run_op, cytrus_audio_process_samples]
    split
    · exact ⟨_, rfl, hp, fun _ _ => rfl⟩
    · obtain ⟨s', _, hrun, _, hp', _⟩ :=
        process_loop_stream id (samples.length + 1) s samples hp (Nat.le_succ _)
      refine ⟨(s', phase), by rw [hrun]; rfl, hp', fun i hi => ?_⟩
      exact process_loop_frame id _ s s' samples hp hrun i (by rw [hB, hC] at hi; omega)
  | process_float_samples samples =>
    simp only [run_op, cytrus_audio_process_float_samples]
    split
    · exact ⟨_, rfl, hp, fun _ _ => rfl⟩
    · obtain ⟨s', _, hrun, _, hp', _⟩ :=
        process_loop_stream float_to_int16 (samples.length + 1) s samples hp (Nat.le_succ _)
      refine ⟨(s', phase), by rw [hrun]; rfl, hp', fun i hi => ?_⟩
      exact process_loop_frame float_to_int16 _ s s' samples hp hrun i
        (by rw [hB, hC] at hi; omega)
  | generate_silence frame_count =>
    simp only [run_op, cytrus_audio_generate_silence]
    split
    · exact ⟨_, rfl, hp, fun _ _ => rfl⟩
    · rw [← process_loop_zeros_eq_silence_loop]
      obtain ⟨s', _, hrun, _, hp', _⟩ :=
        process_loop_stream id ((frame_count * CHANNELS) % SIZE_MOD + 1) s
          (List.replicate ((frame_count * CHANNELS) % SIZE_MOD) (0 : Int)) hp
          (by rw [List.length_replicate]; exact Nat.le_succ _)
      refine ⟨(s', phase), by rw [hrun]; rfl, hp', fun i hi => ?_⟩
      exact process_loop_frame id _ s s' _ hp hrun i (by rw [hB, hC] at hi; omega)
  | generate_test_tone frequency frame_count =>
    refine ⟨_, rfl, ?_, ?_⟩
    · simp only [cytrus_audio_generate_test_tone]; split
      · exact hp
      · exact (tone_loop_bounded sin pi _ frame_count s phase hp).1
    · intro i hi
      simp only [cytrus_audio_generate_test_tone]; split
      · rfl
      · exact (tone_loop_bounded sin pi _ frame_count s phase hp).2 i
          (by rw [hB, hC] at hi; omega)
  | flush =>
    refine ⟨_, rfl, ?_, ?_⟩
    · simp only [cytrus_audio_flush]; split
      · exact hp
      · simp only [hB]; omega
    · intro i _
      simp only [cytrus_audio_flush]; split <;> rfl

/-- C33: from every state whose buffered count is below the capacity 1024 (the static
initial state and the state after `cytrus_audio_init` are such states), every sequence of
audio operations (init, deinit, set_volume, set_muted, process_samples,
process_float_samples, generate_silence, generate_test_tone, flush, and the host setting
or clearing the callback) runs to its end, leaves a buffered count below 1024, and has
stored nothing at any index from `BUFFER_SIZE * CHANNELS` = 2048 on, whatever lay there:
every store of every operation hits the array. -/
theorem buffer_stays_bounded (sin : ℚ → ℚ) (pi : ℚ) (ops : List AudioOp) (s0 : AudioState)
    (phase : ℚ) (h0 : s0.buffer_pos < BUFFER_SIZE) :
    ∃ st : AudioState × ℚ, run_ops sin pi (s0, phase) ops = some st ∧
      st.1.buffer_pos < 1024 ∧
      ∀ i, 2048 ≤ i → st.1.audio_buffer i = s0.audio_buffer i := by
  induction ops generalizing s0 phase with
  | nil => exact ⟨(s0, phase), rfl, h0, fun _ _ => rfl⟩
  | cons op ops ih =>
    obtain ⟨st1, hrun1, hp1, hf1⟩ := run_op_bounded sin pi s0 phase op h0
    obtain ⟨st, hrun, hp, hf⟩ := ih st1.1 st1.2 hp1
    refine ⟨st, ?_, hp, fun i hi => ?_⟩
    · simp only [run_ops, hrun1, Option.bind_some]
      exact hrun
    · rw [hf i hi]
      exact hf1 i hi

theorem buffer_stays_bounded_witness :
    ∃ st : AudioState × ℚ,
      run_ops (fun _ => 1) 3 (audio_initial, 0)
        [AudioOp.init, AudioOp.set_audio_sample_batch true,
         AudioOp.process_samples (List.replicate 1023 7),
         AudioOp.generate_test_tone 440 3, AudioOp.generate_silence 600, AudioOp.flush]
        = some st ∧
      st.1.buffer_pos < 1024 ∧
      ∀ i, 2048 ≤ i → st.1.audio_buffer i = audio_initial.audio_buffer i :=
  buffer_stays_bounded (fun _ => 1) 3 _ audio_initial 0 (by decide)

/-! ## Video compositor: bounds of the accesses and disjoint placements -/

theorem pixel_lt (w h x y : Nat) (hx : x < w) (hy : y < h) : y * w + x < h * w := by
  have h0 : (y + 1) * w = y * w + w := by ring
  have h1 : (y + 1) * w ≤ h * w := Nat.mul_le_mul_right _ (by omega)
  omega

/-- The size of the surface a placement converts: 400 x 240 for the top surface,
320 x 240 for the bottom one. -/
theorem placements_surface (s : VideoState) :
    ∀ p ∈ placements s,
      (p.src_width, p.src_height) = (if p.top_surface then (400, 240) else (320, 240)) := by
  intro p hp
  unfold placements at hp
  cases hl : s.current_layout <;> rw [hl] at hp <;>
    simp only [List.mem_cons, List.mem_singleton, List.mem_nil_iff, or_false] at hp
  · rcases hp with rfl | rfl <;> rfl
  · rcases hp with rfl | rfl <;> rfl
  · subst hp; rfl
  · subst hp; rfl

/-- Every store of a placed conversion hits a pixel of its rectangle. -/
theorem convert_writes_covered (src : Nat → Nat) (s : VideoState) (hs : video_configured s)
    (p : Placement) (hp : p ∈ placements s) :
    ∀ e ∈ convert_writes src p.src_width p.src_height p.dst_x p.dst_y s.video_pitch,
      ∃ col row, covers p col row ∧ col < s.video_width ∧ row < s.video_height ∧
        e.1 = row * s.video_width + col := by
  intro e he
  obtain ⟨hfit, hoff, _⟩ := configured_offsets s hs p hp
  obtain ⟨_, hrow, _, _⟩ := placements_fit s hs p hp
  have hpitch : s.video_pitch = 4 * s.video_width := hs.2.2.2.1
  rw [hpitch, mem_convert_writes] at he
  obtain ⟨y, hy, x, hx, rfl⟩ := he
  refine ⟨p.dst_x + x, p.dst_y + y, ⟨by omega, by omega, by omega, by omega⟩, by omega,
    by omega, ?_⟩
  simp only
  rw [dst_index_eq _ _ _ _ _ (row_offset_lt _ _ _ _ hy hoff)]
  ring

/-- C35: in a configured state (any layout, scale 1..8) every pixel index the composite
pass stores to, in the zero fill and in the conversion of each placed surface, is below
`video_width * video_height`, the length of the allocated output buffer, and every source
byte index read is below the size of the surface, `400 * 240 * 3` for the top surface and
`320 * 240 * 3` for the bottom one. -/
theorem composite_accesses_in_bounds (top bottom : Nat → Nat) (s : VideoState)
    (hs : video_configured s) :
    (∃ video_buffer : List Nat, s.video_buffer = some video_buffer ∧
      video_buffer.length = s.video_width * s.video_height) ∧
    (∀ i ∈ List.range ((s.video_width * s.video_height) % U32_MOD),
      i < s.video_width * s.video_height) ∧
    (∀ p ∈ placements s,
      ∀ e ∈ convert_writes (if p.top_surface then top else bottom) p.src_width p.src_height
          p.dst_x p.dst_y s.video_pitch,
        e.1 < s.video_width * s.video_height) ∧
    (∀ p ∈ placements s, ∀ x y c, x < p.src_width → y < p.src_height → c < 3 →
      src_byte_index p.src_width x y c
        < (if p.top_surface then 400 * 240 * 3 else 320 * 240 * 3)) := by
  refine ⟨hs.2.2.2.2, ?_, ?_, ?_⟩
  · intro i hi
    exact Nat.lt_of_lt_of_le (List.mem_range.mp hi) (Nat.mod_le _ _)
  · intro p hp e he
    obtain ⟨col, row, _, hcol, hrow, hidx⟩ := convert_writes_covered _ s hs p hp e he
    rw [hidx, Nat.mul_comm s.video_width]
    exact pixel_lt _ _ _ _ hcol hrow
  · intro p hp x y c hx hy hc
    have hsurf := placements_surface s p hp
    obtain ⟨_, _, hw, hh⟩ := placements_fit s hs p hp
    rw [src_byte_index_eq _ _ x y c hw hh hx hy hc]
    cases ht : p.top_surface <;> rw [ht] at hsurf <;>
      simp only [Bool.false_eq_true, if_false, if_true, Prod.mk.injEq] at hsurf ⊢ <;>
      obtain ⟨e1, e2⟩ := hsurf <;> rw [e1] at hx ⊢ <;> rw [e2] at hy <;> omega

theorem composite_accesses_in_bounds_witness :
    video_configured (cytrus_video_init true video_initial 800 480 2).1 ∧
    ∀ e ∈ convert_writes (fun i => i % 256) 320 240 80 480
        (cytrus_video_init true video_initial 800 480 2).1.video_pitch,
      e.1 < (cytrus_video_init true video_initial 800 480 2).1.video_width
            * (cytrus_video_init true video_initial 800 480 2).1.video_height :=
  ⟨video_init_configured video_initial 800 480 2 (by decide) (by decide),
   (composite_accesses_in_bounds (fun _ => 0) (fun i => i % 256)
      (cytrus_video_init true video_initial 800 480 2).1
      (video_init_configured video_initial 800 480 2 (by decide) (by decide))).2.2.1
      ⟨false, 320, 240, 80, 480⟩ (by decide)⟩

/-- C36: in a configured state (scale 1..8) in the `TopBottom` or `SideBySide` layout the
pass converts the top surface first and the bottom surface second; no output pixel lies in
both rectangles and no pixel index is stored to by both conversions, so after the pass
every pixel `(x, y)` of the top surface stands at column `x` of row `y`. -/
theorem two_surfaces_disjoint (top bottom : Nat → Nat) (s : VideoState)
    (hs : video_configured s)
    (hl : s.current_layout = ScreenLayout.TopBottom ∨
          s.current_layout = ScreenLayout.SideBySide) :
    ∃ b : Placement,
      placements s = [⟨true, 400, 240, 0, 0⟩, b] ∧ b.top_surface = false ∧
      (∀ col row, ¬ (covers ⟨true, 400, 240, 0, 0⟩ col row ∧ covers b col row)) ∧
      (∀ e1 ∈ convert_writes top 400 240 0 0 s.video_pitch,
        ∀ e2 ∈ convert_writes bottom b.src_width b.src_height b.dst_x b.dst_y s.video_pitch,
          e1.1 ≠ e2.1) ∧
      ∃ composed : List Nat,
        (render_frame true top bottom s).1.video_buffer = some composed ∧
        ∀ x y, x < 400 → y < 240 →
          composed[y * s.video_width + x]?
            = some (rgba_pixel (top ((y * 400 + x) * 3 + 0)) (top ((y * 400 + x) * 3 + 1))
                (top ((y * 400 + x) * 3 + 2))) := by
  have hdis := placements_disjoint s hs
  have hpl : ∃ b : Placement, placements s = [⟨true, 400, 240, 0, 0⟩, b] ∧
      b.top_surface = false := by
    rcases placements_configured s hs with ⟨_, _, _, h⟩ | ⟨_, _, _, h⟩ | ⟨h, _⟩ | ⟨h, _⟩
    · exact ⟨_, h, rfl⟩
    · exact ⟨_, h, rfl⟩
    · rcases hl with hl | hl <;> rw [hl] at h <;> cases h
    · rcases hl with hl | hl <;> rw [hl] at h <;> cases h
  obtain ⟨b, hb, hbt⟩ := hpl
  have hmt : (⟨true, 400, 240, 0, 0⟩ : Placement) ∈ placements s := by rw [hb]; simp
  have hmb : b ∈ placements s := by rw [hb]; simp
  have hcov : ∀ col row, ¬ (covers ⟨true, 400, 240, 0, 0⟩ col row ∧ covers b col row) := by
    rw [hb] at hdis
    simp only [List.pairwise_cons, List.mem_singleton, forall_eq] at hdis
    intro col row hboth
    exact hdis.1 col row hboth.1 hboth.2
  refine ⟨b, hb, hbt, hcov, ?_, ?_⟩
  · intro e1 he1 e2 he2 heq
    obtain ⟨c1, r1, hc1, hlt1, _, hi1⟩ :=
      convert_writes_covered top s hs ⟨true, 400, 240, 0, 0⟩ hmt e1 he1
    obtain ⟨c2, r2, hc2, hlt2, _, hi2⟩ := convert_writes_covered bottom s hs b hmb e2 he2
    have hu := pixel_index_unique s.video_width r1 c1 r2 c2 hlt1 hlt2
      (by rw [← hi1, ← hi2, heq])
    rw [hu.1, hu.2] at hc1
    exact hcov c2 r2 ⟨hc1, hc2⟩
  · obtain ⟨buf, composed, hbuf, hcomp, hlen, hblen, hr⟩ :=
      render_frame_configured top bottom s hs
    refine ⟨composed, by rw [hr], ?_⟩
    intro x y hx hy
    have h := compose_inside top bottom s.video_width (placements s)
      (memset_zero buf (s.video_width * s.video_height)) hdis
      (fun q hq => by
        rw [memset_zero_length, hblen]
        exact configured_offsets s hs q hq) ⟨true, 400, 240, 0, 0⟩ hmt x y hx hy
    simp only [Nat.zero_add, if_true] at h
    rw [hcomp, h,
      src_byte_index_eq 400 240 x y 0 (by decide) (by decide) hx hy (by decide),
      src_byte_index_eq 400 240 x y 1 (by decide) (by decide) hx hy (by decide),
      src_byte_index_eq 400 240 x y 2 (by decide) (by decide) hx hy (by decide)]

theorem two_surfaces_disjoint_witness :
    video_configured (cytrus_video_init true video_initial 800 480 3).1 ∧
    ∃ b : Placement,
      placements (cytrus_video_init true video_initial 800 480 3).1
        = [⟨true, 400, 240, 0, 0⟩, b] ∧
      ∀ col row, ¬ (covers ⟨true, 400, 240, 0, 0⟩ col row ∧ covers b col row) :=
  ⟨video_init_configured video_initial 800 480 3 (by decide) (by decide),
   by
    obtain ⟨b, hb, _, hcov, _⟩ :=
      two_surfaces_disjoint (fun i => i % 256) (fun _ => 0)
        (cytrus_video_init true video_initial 800 480 3).1
        (video_init_configured video_initial 800 480 3 (by decide) (by decide))
        (Or.inl (by decide))
    exact ⟨b, hb, hcov⟩⟩

/-! ## Frontend frame presentation against the compositor's conversion -/

theorem row_pixel_lt (w h x y : Nat) (hx : x < w) (hy : y < h) : y * w + x < w * h := by
  have h0 : (y + 1) * w = y * w + w := by ring
  have h1 : (y + 1) * w ≤ h * w := Nat.mul_le_mul_right _ (by omega)
  rw [Nat.mul_comm w h]
  omega

theorem mem_present_writes (src : Nat → Nat) (w h pitch : Nat) (e : Nat × Nat) :
    e ∈ present_writes src w h pitch ↔
      ∃ y, y < h ∧ ∃ x, x < w ∧
        e = ((y * w + x) % U32_MOD,
             rgba_pixel (src (((y * pitch + x) * 3 + 0) % SIZE_MOD))
               (src (((y * pitch + x) * 3 + 1) % SIZE_MOD))
               (src (((y * pitch + x) * 3 + 2) % SIZE_MOD))) := by
  simp only [present_writes, List.mem_flatMap, List.mem_map, List.mem_range]
  constructor
  · rintro ⟨y, hy, x, hx, rfl⟩
    exact ⟨y, hy, x, hx, rfl⟩
  · rintro ⟨y, hy, x, hx, rfl⟩
    exact ⟨y, hy, x, hx, rfl⟩

/-- For a frame of fewer than `2 ^ 30` pixels, presented with `pitch = width`, the loops
of `PresentFrame` leave the converted source pixel `(x, y)` at index `y * width + x`. -/
theorem present_get (src : Nat → Nat) (dst : List Nat) (w h x y : Nat) (hx : x < w)
    (hy : y < h) (hsize : w * h * 4 < U32_MOD) (hlen : w * h ≤ dst.length) :
    (store_all dst (present_writes src w h w))[y * w + x]?
      = some (rgba_pixel (src ((y * w + x) * 3 + 0)) (src ((y * w + x) * 3 + 1))
          (src ((y * w + x) * 3 + 2))) := by
  have hU : U32_MOD = 4294967296 := rfl
  have hS : SIZE_MOD = 18446744073709551616 := rfl
  have hpix : ∀ x' y', x' < w → y' < h → y' * w + x' < w * h := fun x' y' h1 h2 =>
    row_pixel_lt w h x' y' h1 h2
  have hmod : ∀ x' y', x' < w → y' < h → (y' * w + x') % U32_MOD = y' * w + x' := by
    intro x' y' h1 h2
    apply Nat.mod_eq_of_lt
    have := hpix x' y' h1 h2
    omega
  have hsrc : ∀ c, c < 3 → ((y * w + x) * 3 + c) % SIZE_MOD = (y * w + x) * 3 + c := by
    intro c hc
    apply Nat.mod_eq_of_lt
    have := hpix x y hx hy
    omega
  apply store_all_written
  · exact Nat.lt_of_lt_of_le (hpix x y hx hy) hlen
  · refine ⟨_, (mem_present_writes src w h w _).mpr ⟨y, hy, x, hx, rfl⟩, ?_⟩
    exact hmod x y hx hy
  · intro e he heq
    rw [mem_present_writes] at he
    obtain ⟨y', hy', x', hx', rfl⟩ := he
    simp only at heq ⊢
    rw [hmod x' y' hx' hy'] at heq
    have hu := pixel_index_unique w y' x' y x hx' hx heq
    rw [hu.1, hu.2, hsrc 0 (by decide), hsrc 1 (by decide), hsrc 2 (by decide)]

theorem src_byte_index_small (w h x y c : Nat) (hx : x < w) (hy : y < h) (hc : c < 3)
    (hsize : w * h * 4 < U32_MOD) : src_byte_index w x y c = (y * w + x) * 3 + c := by
  unfold src_byte_index
  apply Nat.mod_eq_of_lt
  have := row_pixel_lt w h x y hx hy
  omega

theorem present_writes_of_empty (src : Nat → Nat) (w h pitch : Nat) (hzero : w * h = 0) :
    present_writes src w h pitch = [] := by
  apply List.eq_nil_iff_forall_not_mem.mpr
  intro e he
  rw [mem_present_writes] at he
  obtain ⟨y, hy, x, hx, _⟩ := he
  have := row_pixel_lt w h x y hx hy
  omega

theorem present_writes_ne_nil (src : Nat → Nat) (w h pitch : Nat) (hw : 0 < w) (hh : 0 < h) :
    present_writes src w h pitch ≠ [] := by
  intro hnil
  have hmem := (mem_present_writes src w h pitch _).mpr ⟨0, hh, 0, hw, rfl⟩
  rw [hnil] at hmem
  cases hmem

/-- Within the 32-bit bound every store of `PresentFrame` hits a buffer of `w * h`
pixels. -/
theorem present_writes_in_bounds (src : Nat → Nat) (dst : List Nat) (w h pitch : Nat)
    (hsize : w * h * 4 < U32_MOD) (hlen : w * h ≤ dst.length) :
    ∀ e ∈ present_writes src w h pitch, e.1 < dst.length := by
  have hU : U32_MOD = 4294967296 := rfl
  intro e he
  rw [mem_present_writes] at he
  obtain ⟨y, hy, x, hx, rfl⟩ := he
  have hpos := row_pixel_lt w h x y hx hy
  simp only
  rw [Nat.mod_eq_of_lt (by omega)]
  omega

/-- C40 (amended): for a frame whose row pitch and buffer size fit in 32 bits
(`w * 4 < 2 ^ 32` and `w * h * 4 < 2 ^ 32`), presented with `pitch = w` while the callback
is set, the source is non-null and the allocation succeeds, `PresentFrame` returns and
hands the host a frame of width `w`, height `h` and pitch `4 * w` whose pixel `(x, y)`, at
index `y * w + x`, is `0xFF000000 + r * 65536 + g * 256 + b` for the three bytes at
`(y * w + x) * 3`, the value `convert_framebuffer_to_rgba` stores for the same source at
offset `(0, 0)` with pitch `4 * w`. -/
theorem present_frame_matches_convert (fresh src : Nat → Nat) (dst : List Nat) (w h : Nat)
    (s : PresentState) (hvalid : present_valid s) (hrow : w * 4 < U32_MOD)
    (hsize : w * h * 4 < U32_MOD) (hdst : w * h ≤ dst.length) :
    ∃ (s' : PresentState) (frame : VideoFrame),
      PresentFrame true true fresh (some src) w h w s = some (s', some frame) ∧
      frame.width = w ∧ frame.height = h ∧ frame.pitch = 4 * w ∧
      ∀ x y, x < w → y < h →
        frame.data[y * w + x]?
          = some (0xFF000000 + (src ((y * w + x) * 3 + 0) % 256) * 65536
              + (src ((y * w + x) * 3 + 1) % 256) * 256 + src ((y * w + x) * 3 + 2) % 256) ∧
        frame.data[y * w + x]?
          = (convert_framebuffer_to_rgba src dst w h 0 0 (4 * w))[y * w + x]? := by
  have hneed : (w * h * 4) % U32_MOD = w * h * 4 := Nat.mod_eq_of_lt hsize
  have hpitch : (w * 4) % U32_MOD = 4 * w := by
    rw [Nat.mod_eq_of_lt hrow, Nat.mul_comm]
  have hbuf : ∃ s1 : PresentState,
      (if s.rgba_buffer_size < w * h * 4 then
          ({ rgba_buffer := some ((List.range (w * h * 4 / 4)).map fresh),
             rgba_buffer_size := w * h * 4 } : PresentState)
        else s) = s1 ∧
      ((∃ b, s1.rgba_buffer = some b ∧ w * h ≤ b.length) ∨
        (s1.rgba_buffer = none ∧ w * h = 0)) := by
    refine ⟨_, rfl, ?_⟩
    split
    · left
      refine ⟨_, rfl, ?_⟩
      rw [List.length_map, List.length_range, Nat.mul_div_cancel _ (by decide : 0 < 4)]
    · rename_i hge
      unfold present_valid at hvalid
      cases hb : s.rgba_buffer with
      | none =>
        rw [hb] at hvalid
        right
        exact ⟨rfl, by simp only at hvalid; omega⟩
      | some b =>
        rw [hb] at hvalid
        left
        exact ⟨b, rfl, by simp only at hvalid; omega⟩
  obtain ⟨s1, hs1, hcase⟩ := hbuf
  have hconv : ∀ x y, x < w → y < h →
      (convert_framebuffer_to_rgba src dst w h 0 0 (4 * w))[y * w + x]?
        = some (rgba_pixel (src ((y * w + x) * 3 + 0)) (src ((y * w + x) * 3 + 1))
            (src ((y * w + x) * 3 + 2))) := by
    intro x y hx hy
    have hc := convert_get_inside src dst w w h 0 0 x y hx hy (by omega)
      (by rw [Nat.zero_add]; calc h * (4 * w) = w * h * 4 := by ring
            _ < U32_MOD := hsize)
      (by rw [Nat.zero_add, Nat.mul_comm]; exact hdst)
    simp only [Nat.zero_add] at hc
    rw [src_byte_index_small w h x y 0 hx hy (by decide) hsize,
      src_byte_index_small w h x y 1 hx hy (by decide) hsize,
      src_byte_index_small w h x y 2 hx hy (by decide) hsize] at hc
    exact hc
  rcases hcase with ⟨b, hb, hlen⟩ | ⟨hnone, hzero⟩
  · refine ⟨{ s1 with rgba_buffer := some (store_all b (present_writes src w h w)) },
      ⟨store_all b (present_writes src w h w), w, h, (w * 4) % U32_MOD⟩, ?_, rfl, rfl,
      hpitch, ?_⟩
    · simp only [PresentFrame, Bool.not_true, Bool.false_eq_true, if_false, if_true, hneed, hs1, hb]
      rw [if_pos (present_writes_in_bounds src b w h w hsize hlen)]
    · intro x y hx hy
      have hdata := present_get src b w h x y hx hy hsize hlen
      exact ⟨by rw [hdata, rgba_pixel_eq], by rw [hdata, hconv x y hx hy]⟩
  · refine ⟨s1, ⟨[], w, h, (w * 4) % U32_MOD⟩, ?_, rfl, rfl, hpitch, ?_⟩
    · simp only [PresentFrame, Bool.not_true, Bool.false_eq_true, if_false, if_true, hneed, hs1,
        hnone]
      rw [if_pos (present_writes_of_empty src w h w hzero)]
    · intro x y hx hy
      have := row_pixel_lt w h x y hx hy
      omega

theorem present_frame_matches_convert_witness :
    ∃ (s' : PresentState) (frame : VideoFrame),
      PresentFrame true true (fun _ => 0xDEAD) (some (fun i => i % 256)) 400 240 400
        present_initial = some (s', some frame) ∧
      frame.width = 400 ∧ frame.height = 240 ∧ frame.pitch = 4 * 400 ∧
      ∀ x y, x < 400 → y < 240 →
        frame.data[y * 400 + x]?
          = some (0xFF000000 + (((y * 400 + x) * 3 + 0) % 256 % 256) * 65536
              + (((y * 400 + x) * 3 + 1) % 256 % 256) * 256
              + ((y * 400 + x) * 3 + 2) % 256 % 256) ∧
        frame.data[y * 400 + x]?
          = (convert_framebuffer_to_rgba (fun i => i % 256) (List.replicate (400 * 240) 0)
              400 240 0 0 (4 * 400))[y * 400 + x]? :=
  present_frame_matches_convert (fun _ => 0xDEAD) (fun i => i % 256)
    (List.replicate (400 * 240) 0) 400 240 present_initial rfl (by decide) (by decide)
    (by rw [List.length_replicate])

/-- C40 (counterexample): a frame of width `2 ^ 30` and height 0, presented with
`pitch = 2 ^ 30` to the fresh frontend.  `needed_size` is 0, nothing is allocated, the
loops store nothing, and the frame is handed to the host with pitch
`(2 ^ 30 * 4) mod 2 ^ 32 = 0`, not `4 * 2 ^ 30`. -/
theorem present_frame_pitch_wraps :
    (PresentFrame true true (fun _ => 0) (some (fun i => i % 256)) (2 ^ 30) 0 (2 ^ 30)
        present_initial).map
        (fun r => (r.1.rgba_buffer, r.2.map (fun f => (f.data, f.width, f.height, f.pitch))))
      = some (none, some ([], 2 ^ 30, 0, 0)) ∧
    4 * 2 ^ 30 ≠ 0 := by
  decide

/-- With a row in the frame of width `2 ^ 30`, `needed_size = width * height * 4` wraps to
0 as well, nothing is allocated and the first store goes through the null `rgba_buffer`:
the call has no defined result. -/
theorem present_frame_null_store (src : Nat → Nat) (fresh : Nat → Nat) :
    PresentFrame true true fresh (some src) (2 ^ 30) 1 (2 ^ 30) present_initial = none := by
  have hneed : (2 ^ 30 * 1 * 4) % U32_MOD = 0 := by decide
  have hne := present_writes_ne_nil src (2 ^ 30) 1 (2 ^ 30) (by decide) (by decide)
  simp only [PresentFrame, Bool.not_true, Bool.false_eq_true, if_false, hneed, present_initial,
    Nat.lt_irrefl]
  rw [if_neg hne]

/-! ## State container codec: checksum, snapshots, bounds of the writes, region table -/

/-- C31: `cytrus_memory_unserialize` reads only the magic, version and size fields of the
header: two buffers of the same size that agree on these three fields get the same result,
whatever their checksum fields (bytes 12..15) and payload bytes hold. -/
theorem checksum_and_payload_ignored (powered_on : Bool) (m1 m2 : Mem) (size : Nat)
    (hmagic : (read_header m1).magic = (read_header m2).magic)
    (hversion : (read_header m1).version = (read_header m2).version)
    (hsize : (read_header m1).size = (read_header m2).size) :
    cytrus_memory_unserialize powered_on (some m1) size
      = cytrus_memory_unserialize powered_on (some m2) size := by
  simp only [cytrus_memory_unserialize, hmagic, hversion, hsize]

theorem checksum_and_payload_ignored_witness :
    cytrus_memory_unserialize true (some (serialized_memory sample_fill 64)) 64 = true ∧
    cytrus_memory_unserialize true
        (some (fun i => if 12 ≤ i then 0xFF else serialized_memory sample_fill 64 i)) 64
      = cytrus_memory_unserialize true (some (serialized_memory sample_fill 64)) 64 :=
  ⟨by decide,
   checksum_and_payload_ignored true
     (fun i => if 12 ≤ i then 0xFF else serialized_memory sample_fill 64 i)
     (serialized_memory sample_fill 64) 64 (by decide) (by decide) (by decide)⟩

/-- Inside the buffer the bytes `cytrus_memory_serialize` leaves do not depend on what the
buffer held before. -/
theorem serialized_memory_inside (m1 m2 : Mem) (size i : Nat) (hi : i < size) :
    serialized_memory m1 size i = serialized_memory m2 size i := by
  have h0 : ∀ m : Mem, mem_set m 0 size 0 i = 0 := by
    intro m
    simp only [mem_set]
    rw [if_pos ⟨Nat.zero_le _, by omega⟩]
  have h1 : ∀ (m : Mem) (bytes : List Nat) (off : Nat),
      mem_copy (mem_set m1 0 size 0) off bytes i = mem_copy (mem_set m2 0 size 0) off bytes i := by
    intro m bytes off
    simp only [mem_copy]
    split
    · rfl
    · rw [h0 m1, h0 m2]
  simp only [serialized_memory]
  split
  · simp only [mem_copy]
    split
    · rfl
    · exact h1 m1 _ 0
  · exact h1 m1 _ 0

theorem unserialize_serialized_64MiB (m : Mem) :
    cytrus_memory_unserialize true (some (serialized_memory m 67108864)) 67108864 = true := by
  have hh := read_header_serialized m 67108864
  have hsz : (size_sub 67108864 HEADER_SIZE % U32_MOD + HEADER_SIZE) % SIZE_MOD = 67108864 := by
    decide
  simp only [cytrus_memory_unserialize, hh, hsz]
  decide

/-- C32: with the system powered on and `cytrus_memory_init` done,
`cytrus_memory_create_snapshot` returns true and leaves in `save_state_buffer` one
container of `cytrus_memory_serialize_size()` = 64 MiB bytes, the bytes that
`cytrus_memory_serialize` writes into any buffer of that size; a following
`cytrus_memory_restore_snapshot` returns true.  `cytrus_memory_restore_snapshot` returns
false before any create and after `cytrus_memory_deinit`. -/
theorem snapshot_helpers (s0 t : MemoryState) (powered_on : Bool) (m : Mem) :
    cytrus_memory_serialize_size true (cytrus_memory_init s0).1 = 67108864 ∧
    (cytrus_memory_create_snapshot true (cytrus_memory_init s0).1).2 = true ∧
    (cytrus_memory_create_snapshot true (cytrus_memory_init s0).1).1.save_state_buffer_size
      = cytrus_memory_serialize_size true (cytrus_memory_init s0).1 ∧
    (∀ i, i < 67108864 →
      (cytrus_memory_create_snapshot true (cytrus_memory_init s0).1).1.save_state_buffer i
        = ((cytrus_memory_serialize true (some m) 67108864).2.getD m) i) ∧
    cytrus_memory_restore_snapshot true
      (cytrus_memory_create_snapshot true (cytrus_memory_init s0).1).1 = true ∧
    cytrus_memory_restore_snapshot powered_on memory_initial = false ∧
    cytrus_memory_restore_snapshot powered_on (cytrus_memory_init memory_initial).1 = false ∧
    cytrus_memory_restore_snapshot powered_on (cytrus_memory_deinit t) = false := by
  have hsize : cytrus_memory_serialize_size true (cytrus_memory_init s0).1 = 67108864 := by
    simp only [cytrus_memory_serialize_size, cytrus_memory_init, Bool.not_true,
      Bool.false_eq_true, if_false]
  have hne : (67108864 : Nat) ≠ 0 := by decide
  have hcreate : cytrus_memory_create_snapshot true (cytrus_memory_init s0).1
      = ({ save_state_buffer_resize (cytrus_memory_init s0).1 67108864 with
            save_state_buffer := serialized_memory
              (save_state_buffer_resize (cytrus_memory_init s0).1 67108864).save_state_buffer
              67108864 }, true) := by
    simp only [cytrus_memory_create_snapshot, hsize, if_neg hne, serialize_eq _ _ hne,
      Option.getD_some]
  refine ⟨hsize, ?_, ?_, ?_, ?_, rfl, rfl, rfl⟩
  · rw [hcreate]
  · rw [hcreate, hsize]; rfl
  · intro i hi
    rw [hcreate, serialize_eq _ _ hne]
    exact serialized_memory_inside _ _ _ _ hi
  · rw [hcreate]
    simp only [cytrus_memory_restore_snapshot, save_state_buffer_resize, if_neg hne]
    exact unserialize_serialized_64MiB _

/-- C34 (evaluation of the code where the claim fails): with a 23-byte buffer
`cytrus_memory_serialize` returns true and copies the 22-byte demonstration string to
offsets 16..37, so offsets 23..37, which lie behind the caller's buffer, are overwritten
(with the characters `Save State v1.0`); offset 38 keeps its content.  The same happens
for every capacity from 23 to 37. -/
theorem serialize_overruns_small_buffer :
    (cytrus_memory_serialize true (some sample_fill) 23).1 = true ∧
    (cytrus_memory_serialize true (some sample_fill) 23).2.map
        (fun m => (List.range 16).map (fun i => m (23 + i)))
      = some [0x53, 0x61, 0x76, 0x65, 0x20, 0x53, 0x74, 0x61, 0x74, 0x65, 0x20, 0x76, 0x31,
              0x2E, 0x30, 0xAA] ∧
    (List.range 15).map (fun k =>
        (cytrus_memory_serialize true (some sample_fill) (23 + k)).2.map (fun m => m 37))
      = List.replicate 15 (some 0x30) ∧
    (cytrus_memory_serialize true (some sample_fill) 38).2.map (fun m => (m 37, m 38))
      = some (0x30, 0xAA) ∧
    (cytrus_memory_serialize true (some sample_fill) 22).2.map (fun m => (m 21, m 22))
      = some (0, 0xAA) := by
  decide

section ButtonMasks

variable {F : Type} [LinearOrderedField F]

/-- C37 (evaluation of the code where the claim fails): the host reports
`RETRO_DEVICE_ID_JOYPAD_SELECT` pressed for player 0 and nothing else.
`cytrus_get_button_state` returns `0x0010` (bit 4), while after `cytrus_input_poll`
`cytrus_input_get_buttons(0)` is `0x0020` (bit 5).  Of the twelve host buttons that
`GetButtonState` reads, only B, A, Y and X get the same bit from both paths. -/
theorem select_bit_differs (sqrtf : F → F) (s : InputState F) :
    host_pressed (sample_button_held RETRO_DEVICE_ID_JOYPAD_SELECT) 0
      RETRO_DEVICE_ID_JOYPAD_SELECT = true ∧
    cytrus_get_button_state (some (sample_button_held RETRO_DEVICE_ID_JOYPAD_SELECT)) = 0x0010 ∧
    (∃ s' : InputState F,
      cytrus_input_poll sqrtf true (some (sample_button_held RETRO_DEVICE_ID_JOYPAD_SELECT)) s
        = some s' ∧
      cytrus_input_get_buttons s' 0 = 0x0020) ∧
    frontend_button_bits.map (fun m =>
        (cytrus_get_button_state (some (sample_button_held m.1)),
         poll_buttons (sample_button_held m.1) 0))
      = [(0x0001, 0x0001), (0x0002, 0x0002), (0x0004, 0x0004), (0x0008, 0x0008),
         (0x0010, 0x0020), (0x0020, 0x0010), (0x0040, 0x0080), (0x0080, 0x0100),
         (0x0100, 0x0200), (0x0200, 0x0400), (0x0400, 0x0800), (0x0800, 0x1000)] := by
  obtain ⟨s', hs', hb, _, _⟩ :=
    poll_result sqrtf (sample_button_held RETRO_DEVICE_ID_JOYPAD_SELECT) s
  refine ⟨by decide, by decide, ⟨s', hs', ?_⟩, by decide⟩
  have hg := get_buttons_of_lt s' 0 (by decide)
  have h0 : s'.button_state 0 = 0x0020 := by
    rw [hb 0 (by decide)]; decide
  simpa [h0] using hg

end ButtonMasks

/-! ## Advertised geometry against the compositor -/

/-- C38 (evaluation of the code where the claim fails): for the option value `left_right`
and every resolution factor 1..8, `set_variable` of `src/libretro_core.cpp` sets the
frame size to `800 f x 240 f`, and so does `set_variable` of
`src/cytrus_libretro_core.cpp` from its second call on, while `cytrus_video_init` in the
`SideBySide` layout computes `720 f x 240 f`.  For `bottom_only` the second file
advertises `400 f x 240 f` against the compositor's `320 f x 240 f`.  For `top_bottom`,
`top_only` and `bottom_only` the first file agrees with the compositor. -/
theorem side_by_side_geometry_differs :
    (List.range 9).tail.map (libretro_core.advertised "left_right")
      = [(800, 240), (1600, 480), (2400, 720), (3200, 960), (4000, 1200), (4800, 1440),
         (5600, 1680), (6400, 1920)] ∧
    (List.range 9).tail.map (cytrus_libretro_core.advertised 2 "left_right")
      = [(800, 240), (1600, 480), (2400, 720), (3200, 960), (4000, 1200), (4800, 1440),
         (5600, 1680), (6400, 1920)] ∧
    layout_of_option "left_right" = some ScreenLayout.SideBySide ∧
    (List.range 9).tail.map (compositor_dimensions ScreenLayout.SideBySide)
      = [(720, 240), (1440, 480), (2160, 720), (2880, 960), (3600, 1200), (4320, 1440),
         (5040, 1680), (5760, 1920)] ∧
    (List.range 9).tail.map (cytrus_libretro_core.advertised 2 "bottom_only")
      = [(400, 240), (800, 480), (1200, 720), (1600, 960), (2000, 1200), (2400, 1440),
         (2800, 1680), (3200, 1920)] ∧
    layout_of_option "bottom_only" = some ScreenLayout.BottomOnly ∧
    (List.range 9).tail.map (compositor_dimensions ScreenLayout.BottomOnly)
      = [(320, 240), (640, 480), (960, 720), (1280, 960), (1600, 1200), (1920, 1440),
         (2240, 1680), (2560, 1920)] ∧
    (∀ value ∈ ["top_bottom", "top_only", "bottom_only"], ∀ f ∈ (List.range 9).tail,
      (layout_of_option value).map (fun layout => compositor_dimensions layout f)
        = some (libretro_core.advertised value f)) := by
  refine ⟨by decide, by decide, by decide, by decide, by decide, by decide, by decide,
    by decide⟩

end Cytrus
